import Mathlib

/-!
LTE4GSensor: the SIM7000 modem driver and its SMS PDU codec.

A shallow embedding of `libraries/StringUtils/StringUtils.cpp`,
`libraries/SIM7000/TPDU.cpp` and `libraries/SIM7000/SIM7000.cpp`.

Conventions of the embedding

* A byte (`char`, `uint8_t`) is a `Nat`; `uint8_t` results are reduced `% 256`,
  `uint16_t` results `% 65536`, `uint32_t` results `% 2 ^ 32`.  The target is an
  8-bit AVR, where `int` and `unsigned int` are 16 bits wide.
* `x >> k` is written `x / 2 ^ k`, `x << k` is `x * 2 ^ k`, `x & 0x7F` is `x % 128`,
  `x & 0xF` is `x % 16`, `x & 3` is `x % 4`, `x & 1` is `x % 2`.
* A C buffer is a `List Nat` addressed by index (`peek`, `poke`).  A read past the
  recorded bytes yields NUL; a write past the recorded end makes the list grow, so
  the length of a buffer after a call tells how far the call has written.
* A pointer into a buffer is the buffer together with an index.
* Code that writes through a bumped pointer (`*(p++) = v`) is modelled by the list
  of bytes it writes, copied into the destination with `blit`.
-/

namespace LTE4G

/-! ## Buffers -/

/-- Read of `buf[i]`. -/
def peek (buf : List Nat) (i : Nat) : Nat := buf.getD i 0

/-- Write of `buf[i] = v`; the list grows when `i` is past its end. -/
def poke (buf : List Nat) (i v : Nat) : List Nat :=
  if i < buf.length then buf.set i v
  else buf ++ List.replicate (i - buf.length) 0 ++ [v]

/-- Sequential write of `bytes` to `buf[pos]`, `buf[pos+1]`, ... -/
def blit (buf : List Nat) (pos : Nat) : List Nat → List Nat
  | [] => buf
  | b :: bs => blit (poke buf pos b) (pos + 1) bs

/-- The bytes of a C string that starts at `buf[pos]`, without the terminating NUL. -/
def cstr (buf : List Nat) (pos : Nat) : List Nat :=
  (buf.drop pos).takeWhile (fun c => c != 0)

/-- The character codes of a string literal. -/
def bytes (s : String) : List Nat := s.toList.map Char.toNat

/-! ## StringUtils -/

namespace StringUtils

/-- The table `kHexChars[] = "0123456789ABCDEF"`. -/
def kHexChars : List Nat :=
  [48, 49, 50, 51, 52, 53, 54, 55, 56, 57, 65, 66, 67, 68, 69, 70]

/-- The two characters `Uint8ToHexStr` stores: `kHexChars[inNum>>4]` and
`kHexChars[inNum & 0xF]`. -/
def hexPair (inNum : Nat) : List Nat :=
  [peek kHexChars (inNum % 256 / 16), peek kHexChars (inNum % 16)]

/-- `Uint8ToHexStr(inNum, inBufferPtr)`: writes two hex digits at `buf[pos]` and
returns the buffer and `pos + 2`. -/
def Uint8ToHexStr (inNum : Nat) (buf : List Nat) (pos : Nat) : List Nat × Nat :=
  (blit buf pos (hexPair inNum), pos + 2)

/-- `HexAsciiToBin`-style offset used by `HexStrToUint8`:
`hexNum <= '9' ? '0' : ('A'-10)`. -/
def hexBase (hexNum : Nat) : Int := if hexNum ≤ 57 then 48 else 55

/-- `HexStrToUint8(ioBufferPtr)`: the value of the two hex characters at `buf[pos]`,
computed in `int` and truncated to `uint8_t`; the cursor advances by 2.  No sanity
check is made on the characters. -/
def HexStrToUint8 (buf : List Nat) (pos : Nat) : Nat × Nat :=
  let hexNum0 := peek buf pos % 256
  let hexNum1 := peek buf (pos + 1) % 256
  (Int.toNat ((((hexNum0 : Int) - hexBase hexNum0) * 16
      + ((hexNum1 : Int) - hexBase hexNum1)) % 256), pos + 2)

/-- C `isspace` in the "C" locale. -/
def isspace (c : Nat) : Bool := c == 32 || (9 ≤ c && c ≤ 13)

/-- C `isdigit`. -/
def isdigit (c : Nat) : Bool := 48 ≤ c && c ≤ 57

/-- Loop of `SkipWhitespaceOnLine` over the bytes from the cursor on. -/
def SkipWhitespaceOnLineLoop : List Nat → Nat → Nat × Nat
  | [], pos => (0, pos)
  | thisChar :: rest, pos =>
    if thisChar = 0 then (0, pos)
    else if thisChar ≠ 10 ∧ isspace thisChar = true then
      SkipWhitespaceOnLineLoop rest (pos + 1)
    else (thisChar, pos)

/-- `SkipWhitespaceOnLine(ioBufferPtr)`: returns the first character that is not
white space (a line feed is not skipped) and the cursor pointing at it. -/
def SkipWhitespaceOnLine (buf : List Nat) (pos : Nat) : Nat × Nat :=
  SkipWhitespaceOnLineLoop (buf.drop pos) pos

/-- Loop of `SkipTillChar`. -/
def SkipTillCharLoop (inChar : Nat) (inSkipCharToo : Bool) (buf : List Nat) :
    List Nat → Nat → Bool × Nat
  | [], pos => (false, pos)
  | thisChar :: rest, pos =>
    if thisChar = 0 then (false, pos)
    else if thisChar ≠ inChar then SkipTillCharLoop inChar inSkipCharToo buf rest (pos + 1)
    else if inSkipCharToo then (peek buf (pos + 1) != 0, pos + 1)
    else (true, pos)

/-- `SkipTillChar(inChar, inSkipCharToo, ioBufferPtr)`: skips to `inChar` or to the
end of the string; returns false when the character reached is NUL. -/
def SkipTillChar (inChar : Nat) (inSkipCharToo : Bool) (buf : List Nat) (pos : Nat) :
    Bool × Nat :=
  SkipTillCharLoop inChar inSkipCharToo buf (buf.drop pos) pos

/-- Loop of `GetUInt16Value`; `value` is a `uint32_t`. -/
def GetUInt16ValueLoop : List Nat → Nat → Nat → Nat × Nat × Nat
  | [], pos, value => (0, pos, value)
  | thisChar :: rest, pos, value =>
    if isdigit thisChar = true then
      GetUInt16ValueLoop rest (pos + 1) ((value * 10 + (thisChar - 48)) % 2 ^ 32)
    else (thisChar, pos, value)

/-- `GetUInt16Value(ioBufferPtr, outValue)`: returns the first non-digit character,
the cursor pointing at it, and the digits read as a `uint16_t`. -/
def GetUInt16Value (buf : List Nat) (pos : Nat) : Nat × Nat × Nat :=
  let r := GetUInt16ValueLoop (buf.drop pos) pos 0
  (r.1, r.2.1, r.2.2 % 65536)

/-- Loop of `CmpBufferP`. -/
def CmpBufferPLoop (buf : List Nat) : List Nat → Nat → Option Nat
  | [], buffPtr => some buffPtr
  | thisChar :: cmpRest, buffPtr =>
    if thisChar = 0 then some buffPtr
    else if thisChar = peek buf buffPtr then CmpBufferPLoop buf cmpRest (buffPtr + 1)
    else none

/-- `CmpBufferP(inCmpStr, ioBufferPtr)`: true when the buffer at the cursor starts
with `inCmpStr`, and then the cursor is advanced past it; otherwise the cursor is
unchanged. -/
def CmpBufferP (inCmpStr : List Nat) (buf : List Nat) (pos : Nat) : Bool × Nat :=
  match CmpBufferPLoop buf inCmpStr pos with
  | some p => (true, p)
  | none => (false, pos)

/-- The `do ... while (inNum)` loop of `Uint16ToDecStr`, which stores the digits from
the last to the first; a `uint16_t` has at most five. -/
def Uint16ToDecStrLoop : Nat → Nat → List Nat → List Nat
  | 0, _, acc => acc
  | fuel + 1, inNum, acc =>
    if inNum / 10 ≠ 0 then Uint16ToDecStrLoop fuel (inNum / 10) ((inNum % 10 + 48) :: acc)
    else (inNum % 10 + 48) :: acc

/-- `Uint16ToDecStr(inNum, inBuffer)`: the decimal digits of `inNum` followed by NUL,
written at `buf[pos]`. -/
def Uint16ToDecStr (inNum : Nat) (buf : List Nat) (pos : Nat) : List Nat :=
  blit buf pos (Uint16ToDecStrLoop 5 (inNum % 65536) [] ++ [0])

end StringUtils

/-! ## TPDU -/

namespace TPDU

open StringUtils

/-- The loop of `DecStrToSemiOctetStr`.  `inMaxChars` is the loop's own counter;
`decIndex` and `semiOctetIndex` are `uint8_t`. -/
def DecStrToSemiOctetStrLoop (inStr : List Nat) (inPos outPos : Nat) :
    Nat → Nat → Nat → List Nat → Nat × Nat × List Nat
  | 0, decIndex, semiOctetIndex, out => (decIndex, semiOctetIndex, out)
  | inMaxChars + 1, decIndex, semiOctetIndex, out =>
    let decVal := peek inStr (inPos + decIndex) % 256
    if decVal = 0 then (decIndex, semiOctetIndex, out)
    else if decIndex % 2 = 1 then
      DecStrToSemiOctetStrLoop inStr inPos outPos inMaxChars ((decIndex + 1) % 256)
        ((semiOctetIndex + 2) % 256) (poke out (outPos + semiOctetIndex) decVal)
    else
      DecStrToSemiOctetStrLoop inStr inPos outPos inMaxChars ((decIndex + 1) % 256)
        semiOctetIndex (poke out (outPos + semiOctetIndex + 1) decVal)

/-- `DecStrToSemiOctetStr(inDecimalStr, outSemiOctetStr, inMaxChars)`: swaps the
characters of the string pairwise into `out` at `outPos`, pads an odd count with
`'F'`, and returns the number of characters read.  The result is not terminated. -/
def DecStrToSemiOctetStr (inStr : List Nat) (inPos : Nat) (out : List Nat) (outPos : Nat)
    (inMaxChars : Nat) : Nat × List Nat :=
  let r := DecStrToSemiOctetStrLoop inStr inPos outPos inMaxChars 0 0 out
  if r.1 % 2 = 1 then (r.1, poke r.2.2 (outPos + r.2.1) 70) else (r.1, r.2.2)

/-- The exit of the loop of `Pack7BitToPDU` on reading the terminator as `septet`:
`strPtr` counts the bytes read so far, terminator included. -/
def Pack7BitEnd (strPtr octet : Nat) (acc : List Nat) : Nat × List Nat :=
  if octet ≠ 0 then (strPtr, acc ++ hexPair octet) else (strPtr - 1, acc)

/-- The `while (true)` loop of `Pack7BitToPDU`.  The first argument is the input
string from `strPtr` on (its end stands for the terminating NUL), `strPtr` is the
distance `strPtr - in7BitStr`, `acc` the hex characters written so far through
`pduPtr`.  Returns the final `strPtr - in7BitStr` and the characters written. -/
def Pack7BitLoop : List Nat → Nat → Nat → Nat → List Nat → Nat × List Nat
  | [], strPtr, octet, _, acc => Pack7BitEnd (strPtr + 1) octet acc
  | septet :: rest, strPtr, octet, shift, acc =>
    if septet % 256 = 0 then Pack7BitEnd (strPtr + 1) octet acc
    else
      let acc1 := acc ++ hexPair ((octet + (septet % 256) * 2 ^ (7 - shift)) % 256)
      if shift + 1 < 7 then
        Pack7BitLoop rest (strPtr + 1) ((septet % 256) / 2 ^ (shift + 1)) (shift + 1) acc1
      else
        match rest with
        | [] => (strPtr + 2, acc1)
        | octet1 :: rest1 =>
          if octet1 % 256 = 0 then (strPtr + 2, acc1)
          else Pack7BitLoop rest1 (strPtr + 2) (octet1 % 256) 0 acc1

/-- The body of `Pack7BitToPDU` up to the final stores: the final value of
`strPtr - in7BitStr` and the hex characters written from `outPDU[2]` on. -/
def Pack7BitScan (in7BitStr : List Nat) : Nat × List Nat :=
  match in7BitStr with
  | [] => (1, [])
  | octet :: rest => if octet % 256 = 0 then (1, []) else Pack7BitLoop rest 1 (octet % 256) 0 []

/-- The characters `Pack7BitToPDU` leaves in `outPDU`, terminating NUL excluded: the
length byte `(uint8_t)(strPtr-in7BitStr)-1` in hex, then the packed octets in hex. -/
def Pack7BitChars (in7BitStr : List Nat) : List Nat :=
  hexPair (((Pack7BitScan in7BitStr).1 % 256 + 255) % 256) ++ (Pack7BitScan in7BitStr).2

/-- `Pack7BitToPDU(in7BitStr, outPDU)`: packs the C string `in7BitStr` into
`out` at `outPos` and returns the buffer and the position of the terminating NUL
it has written (`pduPtr`). -/
def Pack7BitToPDU (in7BitStr : List Nat) (out : List Nat) (outPos : Nat) : List Nat × Nat :=
  (blit out outPos (Pack7BitChars in7BitStr ++ [0]),
   outPos + 2 + (Pack7BitScan in7BitStr).2.length)

/-- The `while (true)` loop of `UnpackPDUTo7bit`.  The first argument is `bytesLeft`
at the head of the loop, which the code enters and continues only when it is not
zero; `acc` holds the characters written so far through `out7BitStr`. -/
def UnpackLoop (inPDU : List Nat) : Nat → Nat → Nat → Nat → Nat → List Nat → List Nat
  | 0, _, _, _, _, acc => acc
  | bytesLeft + 1, pos, shift, octet, septet, acc =>
    let acc1 := acc ++ [septet % 128]
    if bytesLeft ≠ 0 then
      let septet1 := octet / 2 ^ (7 - shift)
      if shift < 6 then
        let h := HexStrToUint8 inPDU pos
        UnpackLoop inPDU bytesLeft h.2 (shift + 1) h.1
          ((septet1 + h.1 * 2 ^ (shift + 1)) % 256) acc1
      else
        let acc2 := acc1 ++ [octet / 2 % 128]
        if bytesLeft - 1 ≠ 0 then
          let h := HexStrToUint8 inPDU pos
          UnpackLoop inPDU (bytesLeft - 1) h.2 0 h.1 h.1 acc2
        else acc2
    else acc1

/-- The characters `UnpackPDUTo7bit` writes through `out7BitStr`, before the NUL. -/
def UnpackChars (inPDU : List Nat) (pos : Nat) : List Nat :=
  let dataLen := (HexStrToUint8 inPDU pos).1
  if dataLen ≠ 0 then
    let h := HexStrToUint8 inPDU (pos + 2)
    UnpackLoop inPDU dataLen h.2 0 h.1 h.1 []
  else []

/-- `UnpackPDUTo7bit(inPDU, out7BitStr)`: returns the length byte of the user data
and the output buffer holding the unpacked characters and a NUL. -/
def UnpackPDUTo7bit (inPDU : List Nat) (pos : Nat) (out : List Nat) (outPos : Nat) :
    Nat × List Nat :=
  ((HexStrToUint8 inPDU pos).1, blit out outPos (UnpackChars inPDU pos ++ [0]))

/-- Size of `TPAddress` (`char[16]`). -/
def sizeofTPAddress : Nat := 16

/-- `ExtractAddress(inBuffer, inIsSMSC, outAddress, outFormat)`.  `wantFormat` says
whether `outFormat` is not null.  Returns the record length, the address buffer and
the format when asked for.  `outAddress` is a reference to an array, so the test
`if (outAddress)` always succeeds.  For `addressLen = 0` the code inspects the byte
in front of the buffer; the model takes that byte to differ from `'F'`. -/
def ExtractAddress (inBuffer : List Nat) (pos : Nat) (inIsSMSC : Bool)
    (outAddress : List Nat) (wantFormat : Bool) : Nat × List Nat × Option Nat :=
  let h := HexStrToUint8 inBuffer pos
  let recordLen :=
    if inIsSMSC then (h.1 + (h.1 + 2)) % 256 else (h.1 + (h.1 % 2 + 4)) % 256
  if recordLen ≠ 0 then
    let fmt := if wantFormat then some (HexStrToUint8 inBuffer h.2).1 else none
    let inPos := h.2 + 2
    let d := DecStrToSemiOctetStr inBuffer inPos outAddress 0 ((recordLen + 252) % 256)
    let addressLen :=
      if d.1 ≠ 0 ∧ peek d.2 (d.1 - 1) = 70 then d.1 - 1 else d.1
    let out1 := poke d.2 addressLen 0
    let addressLen1 := (addressLen + 1) % 256
    let out2 :=
      if addressLen1 < sizeofTPAddress then
        blit out1 addressLen1 (List.replicate (sizeofTPAddress - addressLen1) 255)
      else out1
    (recordLen, out2, fmt)
  else (recordLen, outAddress, none)

/-- `ParseTPDU(inBuffer, outMessage, outSender)`: for an SMS-DELIVER record (message
type 0) extracts the originating address, skips 18 characters and unpacks the user
data.  Returns the message length, the message buffer and the sender. -/
def ParseTPDU (inBuffer : List Nat) (pos : Nat) (outMessage outSender : List Nat) :
    Nat × List Nat × List Nat :=
  let h := HexStrToUint8 inBuffer pos
  let messageType := h.1 % 4
  if messageType = 0 then
    let a := ExtractAddress inBuffer h.2 false outSender false
    let bufferPtr := h.2 + a.1 + (2 + 2 + 14)
    let u := UnpackPDUTo7bit inBuffer bufferPtr outMessage 0
    (u.1, u.2, a.2.1)
  else (0, outMessage, outSender)

/-- `CreateSMSSubmitPDU(inPhoneNumber, inMessageStr, inIsDomesticPhoneNumber, outTPDU)`:
writes the SMS-SUBMIT PDU in hex to `outTPDU` and returns the octet count
`(Pack7BitToPDU(...) - outTPDU - 2) / 2` as a `uint8_t`, with the buffer. -/
def CreateSMSSubmitPDU (inPhoneNumber inMessageStr : List Nat)
    (inIsDomesticPhoneNumber : Bool) (outTPDU : List Nat) : Nat × List Nat :=
  let b1 := Uint8ToHexStr 0 outTPDU 0
  let b2 := Uint8ToHexStr 17 b1.1 b1.2
  let b3 := Uint8ToHexStr 0 b2.1 b2.2
  let d := DecStrToSemiOctetStr inPhoneNumber 0 b3.1 (b3.2 + 4) 99
  let phoneLen := d.1
  let b4 := Uint8ToHexStr phoneLen d.2 b3.2
  let b5 := Uint8ToHexStr (if inIsDomesticPhoneNumber then 129 else 145) b4.1 b4.2
  let txBufferPtr := b5.2 + (phoneLen + 1) % 256 / 2 * 2
  let b6 := Uint8ToHexStr 0 b5.1 txBufferPtr
  let b7 := Uint8ToHexStr 0 b6.1 b6.2
  let b8 := Uint8ToHexStr 167 b7.1 b7.2
  let p := Pack7BitToPDU inMessageStr b8.1 b8.2
  ((p.2 - 2) / 2 % 256, p.1)

end TPDU

/-! ## MSPeriod -/

/-- Modelled from the spec: `MSPeriod` (MSPeriod.h is not among the sources), the
"millisecond timer/period primitive supporting Set/Start/Passed semantics": a
period in milliseconds, 0 meaning disabled, and the `millis()` value at which it
was started, both `uint32_t`. -/
structure MSPeriod where
  mPeriod : Nat
  mStart : Nat
deriving DecidableEq, Repr

namespace MSPeriod

/-- Modelled from the spec: `MSPeriod::Set(inPeriod)`; `Set(0)` disables the timer. -/
def Set (p : MSPeriod) (inPeriod : Nat) : MSPeriod := { p with mPeriod := inPeriod % 2 ^ 32 }

/-- Modelled from the spec: `MSPeriod::Get()`. -/
def Get (p : MSPeriod) : Nat := p.mPeriod

/-- Modelled from the spec: `MSPeriod::Start()`, which notes the current `millis()`. -/
def Start (p : MSPeriod) (millis : Nat) : MSPeriod := { p with mStart := millis % 2 ^ 32 }

/-- Modelled from the spec: `MSPeriod::ElapsedTime()`, `millis() - mStart` in `uint32_t`. -/
def Elapsed (p : MSPeriod) (millis : Nat) : Nat :=
  (millis % 2 ^ 32 + 2 ^ 32 - p.mStart % 2 ^ 32) % 2 ^ 32

/-- Modelled from the spec: `MSPeriod::Passed()`: the timer is enabled and at least
`mPeriod` milliseconds have elapsed since `Start`.  A disabled timer never passes. -/
def Passed (p : MSPeriod) (millis : Nat) : Bool :=
  p.mPeriod != 0 && decide (p.mPeriod ≤ p.Elapsed millis)

end MSPeriod

/-! ## SIM7000 -/

/-- `SIM7000::ESleepState`. -/
inductive ESleepState where
  | eRunning
  | eWakingUp
  | eGoingToSleep
  | eSleeping
deriving DecidableEq, Repr

/-- `SIM7000::ECommandState`. -/
inductive ECommandState where
  | eReady
  | eBusy
  | eTimeout
  | eError
deriving DecidableEq, Repr

/-- `SIM7000::ESMSStatus`. -/
inductive ESMSStatus where
  | eSMSIdle
  | eSMSSending
  | eSMSWaiting
  | eSMSSent
  | eSMSFailed
deriving DecidableEq, Repr

/-- The arguments of one call of the virtual `MessageRead`: the message as a C
string, its length, and the two address buffers. -/
structure MessageReadCall where
  inMessage : List Nat
  inMessageLen : Nat
  inSender : List Nat
  inSMSCAddr : List Nat
deriving DecidableEq, Repr

/-- The members of class `SIM7000`, followed by what the class reaches through the
Arduino runtime: the clock `millis()`, the level of the modem's readiness line
`digitalRead(mRxPin) != 0`, the levels driven on the power and reset pins, the
bytes written to `mSerial` and to `*mPassthrough`, the time held by `UnixTime`, and
a record of the calls of `MessageRead`, of `HandleNoSIMCardFound` and of
`HandleCommandResponse` (`linesHandled`: the line in the receive buffer at each
call).  `mPassthrough` says whether the pointer is not null. -/
structure SIM7000 where
  mSleepState : ESleepState
  mCommandState : ECommandState
  mRetries : Nat
  mBars : Nat
  mBatteryLevel : Nat
  mPendingMessages : List Nat
  mPendingMessagesHead : Nat
  mPendingMessagesTail : Nat
  mWaitingToProcessMessage : Nat
  mWaitingToDeleteMessage : Nat
  mSMSStatus : ESMSStatus
  mTimeIsValid : Bool
  mRxPaused : Bool
  mDeleteMessagesAfterRead : Bool
  mConnectionStatus : Nat
  mCommandHash : Nat
  mTxBuffer : List Nat
  mRxBuffer : List Nat
  mRxBufferPtr : Nat
  mPassthrough : Bool
  mPinPeriod : MSPeriod
  mCommandTimeout : MSPeriod
  mCheckLevelsPeriod : MSPeriod
  millis : Nat
  rxPin : Bool
  powerPin : Bool
  resetPin : Bool
  serialOut : List Nat
  passthroughOut : List Nat
  unixTime : Nat
  messagesRead : List MessageReadCall
  noSIMCardCalls : Nat
  linesHandled : List (List Nat)
deriving DecidableEq, Repr

/-- What the driver takes from outside class `SIM7000`.  `StringToUnixTime` is
`UnixTime::StringToUnixTime` (buffer, position, flag), the parser of a date and
time, which is not among the sources.  `queuedSMSReply` stands for the members of
the derived class `LTESensor` that its override of `ProcessQueuedSMSReply` reads:
`queuedSMSReply s` is none when no reply is queued (`mSMSReply == eNoReply`), and
otherwise the address `mTargetAddr` and the text `replyStr` that
`LTESensor::DoQueryCmdReply` composes from the alarm settings, the temperatures,
`Bars()` and `BatteryLevel()`.  For an object of class `SIM7000` itself it is
always none.  The members of `LTESensor` are not part of the state: the hook is
called only inside `HandleCommandResponse`, after the call has been recorded in
`linesHandled`, so that no two calls of a run see the same state, and whatever the
sensor decides from call to call is the value of some function of the state. -/
structure Host where
  StringToUnixTime : List Nat → Nat → Bool → Nat
  queuedSMSReply : SIM7000 → Option (List Nat × List Nat)

namespace SIM7000

open StringUtils TPDU ESleepState ECommandState ESMSStatus

/-! ### Constants -/

/-- `SIM7000_RX_BUFFER_SIZE`. -/
def SIM7000_RX_BUFFER_SIZE : Nat := 512

/-- `SIM7000_TX_BUFFER_SIZE`, the size of `mTxBuffer`. -/
def SIM7000_TX_BUFFER_SIZE : Nat := 300

/-- `kRxBufferSize = SIM7000_RX_BUFFER_SIZE-1`. -/
def kRxBufferSize : Nat := SIM7000_RX_BUFFER_SIZE - 1

/-- `kTxBufferSize = SIM7000_RX_BUFFER_SIZE-1`, as the source defines it. -/
def kTxBufferSize : Nat := SIM7000_RX_BUFFER_SIZE - 1

/-- `kAutobaudEchoRetries`. -/
def kAutobaudEchoRetries : Nat := 10

/-- `kPDUSubmitPreambleSize`. -/
def kPDUSubmitPreambleSize : Nat := 30

/-- Size of the ring `mPendingMessages`. -/
def sizeofPendingMessages : Nat := 15

def kATE0CmdHash : Nat := 4135
def kCADCCmdHash : Nat := 2084
def kCBANDCmdHash : Nat := 7975
def kCBATCHKCmdHash : Nat := 1038
def kCBCCmdHash : Nat := 2846
def kCCIDCmdHash : Nat := 3685
def kCCLKCmdHash : Nat := 5436
def kCDEVICECmdHash : Nat := 3423
def kCDNSCFGCmdHash : Nat := 3183
def kCDNSGIPCmdHash : Nat := 3187
def kCEDRXCmdHash : Nat := 5950
def kCFGRICmdHash : Nat := 834
def kCFUNCmdHash : Nat := 5504
def kCGACTCmdHash : Nat := 7916
def kCGATTCmdHash : Nat := 4471
def kCGDCONTCmdHash : Nat := 1998
def kCGMICmdHash : Nat := 4522
def kCGMMCmdHash : Nat := 3278
def kCGMRCmdHash : Nat := 1778
def kCGPADDRCmdHash : Nat := 4309
def kCGPIOCmdHash : Nat := 2529
def kCGREGCmdHash : Nat := 6103
def kCGSMSCmdHash : Nat := 6440
def kCGSNCmdHash : Nat := 8167
def kCIFSRCmdHash : Nat := 5393
def kCIFSREXCmdHash : Nat := 4129
def kCIICRCmdHash : Nat := 7427
def kCIMICmdHash : Nat := 5733
def kCIPACKCmdHash : Nat := 2527
def kCIPATSCmdHash : Nat := 5867
def kCIPCCFGCmdHash : Nat := 1332
def kCIPCLOSECmdHash : Nat := 4441
def kCIPCSGPCmdHash : Nat := 6788
def kCIPDPDPCmdHash : Nat := 2803
def kCIPHEADCmdHash : Nat := 6735
def kCIPHEXSCmdHash : Nat := 2231
def kCIPMODECmdHash : Nat := 3925
def kCIPMUXCmdHash : Nat := 4971
def kCIPQSENDCmdHash : Nat := 7247
def kCIPRDTIMERCmdHash : Nat := 6050
def kCIPRXGETCmdHash : Nat := 45
def kCIPSENDCmdHash : Nat := 3535
def kCIPSENDHEXCmdHash : Nat := 6008
def kCIPSERVERCmdHash : Nat := 1321
def kCIPSGTXTCmdHash : Nat := 6224
def kCIPSHOWTPCmdHash : Nat := 6256
def kCIPSHUTCmdHash : Nat := 2543
def kCIPSPRTCmdHash : Nat := 243
def kCIPSRIPCmdHash : Nat := 8017
def kCIPSTARTCmdHash : Nat := 5321
def kCIPSTATUSCmdHash : Nat := 146
def kCIPUDPMODECmdHash : Nat := 5520
def kCLCKCmdHash : Nat := 1313
def kCLPORTCmdHash : Nat := 7825
def kCLTSCmdHash : Nat := 6426
def kCME_ERRORCmdHash : Nat := 4920
def kCMEECmdHash : Nat := 1561
def kCMGDCmdHash : Nat := 3038
def kCMGFCmdHash : Nat := 8087
def kCMGLCmdHash : Nat := 6892
def kCMGRCmdHash : Nat := 5769
def kCMGSCmdHash : Nat := 4225
def kCMGWCmdHash : Nat := 6260
def kCMNBCmdHash : Nat := 2067
def kCMS_ERRORCmdHash : Nat := 4701
def kCMSSCmdHash : Nat := 4726
def kCMTICmdHash : Nat := 4565
def kCNBPCmdHash : Nat := 356
def kCNETLIGHTCmdHash : Nat := 536
def kCNMICmdHash : Nat := 5254
def kCNMPCmdHash : Nat := 2054
def kCNSMODCmdHash : Nat := 7913
def kCNVRCmdHash : Nat := 8110
def kCNVWCmdHash : Nat := 1251
def kCOPNCmdHash : Nat := 6015
def kCOPSCmdHash : Nat := 5237
def kCPASCmdHash : Nat := 4474
def kCPINCmdHash : Nat := 5717
def kCPMSCmdHash : Nat := 7876
def kCPOLCmdHash : Nat := 7102
def kCPOWDCmdHash : Nat := 3771
def kCPSMSCmdHash : Nat := 4585
def kCPWDCmdHash : Nat := 1373
def kCRCCmdHash : Nat := 1229
def kCREGCmdHash : Nat := 7198
def kCRESCmdHash : Nat := 3527
def kCRSMCmdHash : Nat := 2775
def kCSASCmdHash : Nat := 7438
def kCSCACmdHash : Nat := 7908
def kCSCLKCmdHash : Nat := 5165
def kCSCSCmdHash : Nat := 2387
def kCSDHCmdHash : Nat := 945
def kCSGSCmdHash : Nat := 2388
def kCSIMCmdHash : Nat := 1069
def kCSMPCmdHash : Nat := 3011
def kCSMSCmdHash : Nat := 2658
def kCSQCmdHash : Nat := 30
def kCSTTCmdHash : Nat := 6339
def kCUSDCmdHash : Nat := 2225
def kGCAPCmdHash : Nat := 2898
def kGMICmdHash : Nat := 3303
def kGMMCmdHash : Nat := 7383
def kGMRCmdHash : Nat := 4337
def kGOICmdHash : Nat := 286
def kGSNCmdHash : Nat := 1494
def kGSVCmdHash : Nat := 5493
def kHTTPACTIONCmdHash : Nat := 6704
def kHTTPDATACmdHash : Nat := 1570
def kHTTPHEADCmdHash : Nat := 3434
def kHTTPINITCmdHash : Nat := 4499
def kHTTPPARACmdHash : Nat := 7338
def kHTTPREADCmdHash : Nat := 5780
def kHTTPSTATUSCmdHash : Nat := 2153
def kHTTPTERMCmdHash : Nat := 5498
def kHTTPTOFSCmdHash : Nat := 7109
def kICFCmdHash : Nat := 7333
def kIFCCmdHash : Nat := 4730
def kIPRCmdHash : Nat := 2352
def kSGPIOCmdHash : Nat := 6640
def kSLEDCmdHash : Nat := 5425

/-- The constants of `SIM7000ATCmdHash.h`, each with the mnemonic its comment names. -/
def commandHashTable : List (String × Nat) :=
  [("ATE0", kATE0CmdHash), ("CADC", kCADCCmdHash), ("CBAND", kCBANDCmdHash),
   ("CBATCHK", kCBATCHKCmdHash), ("CBC", kCBCCmdHash), ("CCID", kCCIDCmdHash),
   ("CCLK", kCCLKCmdHash), ("CDEVICE", kCDEVICECmdHash), ("CDNSCFG", kCDNSCFGCmdHash),
   ("CDNSGIP", kCDNSGIPCmdHash), ("CEDRX", kCEDRXCmdHash), ("CFGRI", kCFGRICmdHash),
   ("CFUN", kCFUNCmdHash), ("CGACT", kCGACTCmdHash), ("CGATT", kCGATTCmdHash),
   ("CGDCONT", kCGDCONTCmdHash), ("CGMI", kCGMICmdHash), ("CGMM", kCGMMCmdHash),
   ("CGMR", kCGMRCmdHash), ("CGPADDR", kCGPADDRCmdHash), ("CGPIO", kCGPIOCmdHash),
   ("CGREG", kCGREGCmdHash), ("CGSMS", kCGSMSCmdHash), ("CGSN", kCGSNCmdHash),
   ("CIFSR", kCIFSRCmdHash), ("CIFSREX", kCIFSREXCmdHash), ("CIICR", kCIICRCmdHash),
   ("CIMI", kCIMICmdHash), ("CIPACK", kCIPACKCmdHash), ("CIPATS", kCIPATSCmdHash),
   ("CIPCCFG", kCIPCCFGCmdHash), ("CIPCLOSE", kCIPCLOSECmdHash), ("CIPCSGP", kCIPCSGPCmdHash),
   ("CIPDPDP", kCIPDPDPCmdHash), ("CIPHEAD", kCIPHEADCmdHash), ("CIPHEXS", kCIPHEXSCmdHash),
   ("CIPMODE", kCIPMODECmdHash), ("CIPMUX", kCIPMUXCmdHash), ("CIPQSEND", kCIPQSENDCmdHash),
   ("CIPRDTIMER", kCIPRDTIMERCmdHash), ("CIPRXGET", kCIPRXGETCmdHash),
   ("CIPSEND", kCIPSENDCmdHash), ("CIPSENDHEX", kCIPSENDHEXCmdHash),
   ("CIPSERVER", kCIPSERVERCmdHash), ("CIPSGTXT", kCIPSGTXTCmdHash),
   ("CIPSHOWTP", kCIPSHOWTPCmdHash), ("CIPSHUT", kCIPSHUTCmdHash), ("CIPSPRT", kCIPSPRTCmdHash),
   ("CIPSRIP", kCIPSRIPCmdHash), ("CIPSTART", kCIPSTARTCmdHash),
   ("CIPSTATUS", kCIPSTATUSCmdHash), ("CIPUDPMODE", kCIPUDPMODECmdHash), ("CLCK", kCLCKCmdHash),
   ("CLPORT", kCLPORTCmdHash), ("CLTS", kCLTSCmdHash), ("CME ERROR", kCME_ERRORCmdHash),
   ("CMEE", kCMEECmdHash), ("CMGD", kCMGDCmdHash), ("CMGF", kCMGFCmdHash),
   ("CMGL", kCMGLCmdHash), ("CMGR", kCMGRCmdHash), ("CMGS", kCMGSCmdHash),
   ("CMGW", kCMGWCmdHash), ("CMNB", kCMNBCmdHash), ("CMS ERROR", kCMS_ERRORCmdHash),
   ("CMSS", kCMSSCmdHash), ("CMTI", kCMTICmdHash), ("CNBP", kCNBPCmdHash),
   ("CNETLIGHT", kCNETLIGHTCmdHash), ("CNMI", kCNMICmdHash), ("CNMP", kCNMPCmdHash),
   ("CNSMOD", kCNSMODCmdHash), ("CNVR", kCNVRCmdHash), ("CNVW", kCNVWCmdHash),
   ("COPN", kCOPNCmdHash), ("COPS", kCOPSCmdHash), ("CPAS", kCPASCmdHash),
   ("CPIN", kCPINCmdHash), ("CPMS", kCPMSCmdHash), ("CPOL", kCPOLCmdHash),
   ("CPOWD", kCPOWDCmdHash), ("CPSMS", kCPSMSCmdHash), ("CPWD", kCPWDCmdHash),
   ("CRC", kCRCCmdHash), ("CREG", kCREGCmdHash), ("CRES", kCRESCmdHash), ("CRSM", kCRSMCmdHash),
   ("CSAS", kCSASCmdHash), ("CSCA", kCSCACmdHash), ("CSCLK", kCSCLKCmdHash),
   ("CSCS", kCSCSCmdHash), ("CSDH", kCSDHCmdHash), ("CSGS", kCSGSCmdHash),
   ("CSIM", kCSIMCmdHash), ("CSMP", kCSMPCmdHash), ("CSMS", kCSMSCmdHash), ("CSQ", kCSQCmdHash),
   ("CSTT", kCSTTCmdHash), ("CUSD", kCUSDCmdHash), ("GCAP", kGCAPCmdHash), ("GMI", kGMICmdHash),
   ("GMM", kGMMCmdHash), ("GMR", kGMRCmdHash), ("GOI", kGOICmdHash), ("GSN", kGSNCmdHash),
   ("GSV", kGSVCmdHash), ("HTTPACTION", kHTTPACTIONCmdHash), ("HTTPDATA", kHTTPDATACmdHash),
   ("HTTPHEAD", kHTTPHEADCmdHash), ("HTTPINIT", kHTTPINITCmdHash),
   ("HTTPPARA", kHTTPPARACmdHash), ("HTTPREAD", kHTTPREADCmdHash),
   ("HTTPSTATUS", kHTTPSTATUSCmdHash), ("HTTPTERM", kHTTPTERMCmdHash),
   ("HTTPTOFS", kHTTPTOFSCmdHash), ("ICF", kICFCmdHash), ("IFC", kIFCCmdHash),
   ("IPR", kIPRCmdHash), ("SGPIO", kSGPIOCmdHash), ("SLED", kSLEDCmdHash)]

/-! ### Output -/

/-- Write of bytes to `mSerial`. -/
def serialWrite (s : SIM7000) (bs : List Nat) : SIM7000 :=
  { s with serialOut := s.serialOut ++ bs }

/-- The guarded write `if (mPassthrough) mPassthrough->print(...)`. -/
def passthroughWrite (s : SIM7000) (bs : List Nat) : SIM7000 :=
  if s.mPassthrough then { s with passthroughOut := s.passthroughOut ++ bs } else s

/-- Arduino `Print::print(n, DEC)` for an unsigned value below 65536. -/
def printDec (n : Nat) : List Nat := Uint16ToDecStrLoop 5 n []

/-- C `strlen` of a string given by its bytes, the end of the list standing for
the terminator. -/
def strlen (str : List Nat) : Nat := (str.takeWhile (fun c => c != 0)).length

/-! ### Predicates of the header -/

/-- `IsBusy()`. -/
def IsBusy (s : SIM7000) : Bool := s.mCommandState == eBusy

/-- `ClearToSend()`: `!IsBusy() && digitalRead(mRxPin) != 0`. -/
def ClearToSend (s : SIM7000) : Bool := !s.IsBusy && s.rxPin

/-- `ConnectedAndClearToSend()`: `ConnectionStatus() == 1 && ClearToSend()`. -/
def ConnectedAndClearToSend (s : SIM7000) : Bool := s.mConnectionStatus == 1 && s.ClearToSend

/-- `ClearToSendSMS()`: `ConnectedAndClearToSend() && mSMSStatus == eSMSIdle`. -/
def ClearToSendSMS (s : SIM7000) : Bool :=
  s.ConnectedAndClearToSend && s.mSMSStatus == eSMSIdle

/-- `SetCheckLevelsPeriod(inPeriod)`. -/
def SetCheckLevelsPeriod (s : SIM7000) (inPeriod : Nat) : SIM7000 :=
  { s with mCheckLevelsPeriod := s.mCheckLevelsPeriod.Set inPeriod }

/-! ### Small members -/

/-- The object after its constructor has run: the constructor sets the command
state, the bars, the ring cursors, the two message slots, the delete-after-read
flag, the time flag and the passthrough pointer; the other members are those of a
zero-initialised static object.  The readiness line is taken low and the clock 0. -/
def init : SIM7000 :=
  { mSleepState := eRunning
    mCommandState := eReady
    mRetries := 0
    mBars := 0
    mBatteryLevel := 0
    mPendingMessages := List.replicate sizeofPendingMessages 0
    mPendingMessagesHead := 0
    mPendingMessagesTail := 0
    mWaitingToProcessMessage := 0
    mWaitingToDeleteMessage := 0
    mSMSStatus := eSMSIdle
    mTimeIsValid := false
    mRxPaused := false
    mDeleteMessagesAfterRead := true
    mConnectionStatus := 0
    mCommandHash := 0
    mTxBuffer := List.replicate SIM7000_TX_BUFFER_SIZE 0
    mRxBuffer := List.replicate SIM7000_RX_BUFFER_SIZE 0
    mRxBufferPtr := 0
    mPassthrough := false
    mPinPeriod := { mPeriod := 0, mStart := 0 }
    mCommandTimeout := { mPeriod := 0, mStart := 0 }
    mCheckLevelsPeriod := { mPeriod := 0, mStart := 0 }
    millis := 0
    rxPin := false
    powerPin := false
    resetPin := false
    serialOut := []
    passthroughOut := []
    unixTime := 0
    messagesRead := []
    noSIMCardCalls := 0
    linesHandled := [] }

/-- `FlushRxBuffer()`: `mRxBufferPtr = mRxBuffer`. -/
def FlushRxBuffer (s : SIM7000) : SIM7000 := { s with mRxBufferPtr := 0 }

/-- `PauseRx()`: sends XOFF once. -/
def PauseRx (s : SIM7000) : SIM7000 :=
  if !s.mRxPaused then serialWrite { s with mRxPaused := true } [19] else s

/-- `ResumeRx()`: sends XON once. -/
def ResumeRx (s : SIM7000) : SIM7000 :=
  if s.mRxPaused then serialWrite { s with mRxPaused := false } [17] else s

/-- `ClearError()`. -/
def ClearError (s : SIM7000) : SIM7000 := FlushRxBuffer { s with mCommandState := eReady }

/-- `SendCommand(inCommandStr, inCommandHash, inCommandTimeout)`; the command is
given by the bytes of its C string.  Returns `success` and the new state.  The
overload taking a flash string copies it and calls this one. -/
def SendCommand (s : SIM7000) (inCommandStr : List Nat) (inCommandHash inCommandTimeout : Nat) :
    Bool × SIM7000 :=
  if s.ClearToSend then
    let s1 := FlushRxBuffer { s with mCommandHash := inCommandHash % 65536 }
    let s2 := serialWrite s1 (inCommandStr ++ [13, 10])
    let s3 := { s2 with
      mCommandState := eBusy
      mCommandTimeout := (s2.mCommandTimeout.Set (inCommandTimeout % 65536)).Start s2.millis }
    (true, passthroughWrite s3 ([62] ++ inCommandStr ++ [10]))
  else (false, passthroughWrite s (bytes "busy" ++ [10]))

/-- A call of `SendCommand` whose result is not used. -/
def SendCommandIgnored (s : SIM7000) (inCommandStr : List Nat)
    (inCommandHash inCommandTimeout : Nat) : SIM7000 :=
  (SendCommand s inCommandStr inCommandHash inCommandTimeout).2

/-- `CheckLevels()`. -/
def CheckLevels (s : SIM7000) : SIM7000 :=
  let s1 := if s.mSMSStatus ≠ eSMSWaiting then SendCommandIgnored s (bytes "AT+CSQ;+CBC") 0 2000 else s
  if s1.mCheckLevelsPeriod.Get ≠ 0 then
    { s1 with mCheckLevelsPeriod := s1.mCheckLevelsPeriod.Start s1.millis }
  else s1

/-- `TurnOffEchoMode(inRetries)`. -/
def TurnOffEchoMode (s : SIM7000) (inRetries : Nat) : SIM7000 :=
  SendCommandIgnored { s with mRetries := inRetries % 256 } (bytes "ATE0") kATE0CmdHash 1000

/-- `Sleep()`. -/
def Sleep (s : SIM7000) : SIM7000 :=
  if s.rxPin then
    let s1 := FlushRxBuffer s
    { s1 with
      powerPin := false
      mPinPeriod := (s1.mPinPeriod.Set 1200).Start s1.millis
      mSleepState := eGoingToSleep
      mCheckLevelsPeriod := s1.mCheckLevelsPeriod.Set 0
      mBars := 0
      mBatteryLevel := 0 }
  else s

/-- `WakeUp()`. -/
def WakeUp (s : SIM7000) : SIM7000 :=
  let s1 := FlushRxBuffer s
  if s1.rxPin then CheckLevels { s1 with mCommandState := eReady, mSleepState := eRunning }
  else
    { s1 with
      powerPin := false
      mPinPeriod := (s1.mPinPeriod.Set 1000).Start s1.millis
      mSleepState := eWakingUp }

/-- `Reset()`. -/
def Reset (s : SIM7000) : SIM7000 :=
  let s1 := FlushRxBuffer s
  { s1 with
    resetPin := false
    mPinPeriod := (s1.mPinPeriod.Set 250).Start s1.millis
    mSleepState := eWakingUp }

/-- `begin()`. -/
def begin (s : SIM7000) : SIM7000 :=
  WakeUp { s with
    mRxBuffer := poke s.mRxBuffer kRxBufferSize 0
    powerPin := true
    resetPin := true
    mSMSStatus := eSMSIdle }

/-! ### Sending an SMS -/

/-- `SendSMS(inPhoneNumber, inMessage)` with `USE_PDU_SMS_FORMAT` defined; both
strings are given by their bytes. -/
def SendSMS (s : SIM7000) (inPhoneNumber inMessage : List Nat) : Bool × SIM7000 :=
  let sent := s.ClearToSendSMS &&
    decide (strlen inMessage < ((kTxBufferSize - kPDUSubmitPreambleSize) * 8) / 7)
  if sent then
    let s1 := FlushRxBuffer s
    let s2 := serialWrite s1 (bytes "AT+CMGF=0;+CMGS=")
    let pdu := CreateSMSSubmitPDU inPhoneNumber inMessage true s2.mTxBuffer
    let s3 := serialWrite { s2 with mTxBuffer := pdu.2 } (printDec pdu.1)
    let s4 := serialWrite s3 [13, 10]
    (true, { s4 with mSMSStatus := eSMSSending })
  else (false, s)

/-- `SendSMSMessage()`. -/
def SendSMSMessage (s : SIM7000) : SIM7000 :=
  if s.mSMSStatus = eSMSSending then
    let s1 := FlushRxBuffer { s with mSMSStatus := eSMSWaiting }
    serialWrite (serialWrite s1 (cstr s1.mTxBuffer 0)) [26]
  else s

/-! ### Handling of completed, timed out and failed commands -/

/-- `ProcessQueuedSMSReply()`, a virtual member.  The body of class `SIM7000` is
empty.  The override `LTESensor::ProcessQueuedSMSReply` calls `DoQueryCmdReply`
when a reply is queued, which, if `ClearToSendSMS()`, composes the text and calls
`SendSMS(mTargetAddr, replyStr)`; the member `mSMSReply` it clears when the text
was sent belongs to `LTESensor` and is not part of the state. -/
def ProcessQueuedSMSReply (h : Host) (s : SIM7000) : SIM7000 :=
  match h.queuedSMSReply s with
  | some reply => if s.ClearToSendSMS then (SendSMS s reply.1 reply.2).2 else s
  | none => s

/-- `HandleNoSIMCardFound()`, a virtual member: the body of the base class is
empty, and the override of `LTESensor` only queues a text for its display; the
call is counted. -/
def HandleNoSIMCardFound (s : SIM7000) : SIM7000 :=
  { s with noSIMCardCalls := s.noSIMCardCalls + 1 }

/-- The cases `kATE0CmdHash` and `kIPRCmdHash` of the switch in
`HandleCommandCompleted()`. -/
def SetBaudOrFlowControl (s : SIM7000) : SIM7000 :=
  if s.mRetries ≠ 0 ∧ s.mRetries < kAutobaudEchoRetries then
    SendCommandIgnored s (bytes "AT+IPR=9600") kIPRCmdHash 1000
  else
    SendCommandIgnored s (bytes "AT+IFC=1;+CLTS=1;+CREG=1") kIFCCmdHash 1000

/-- `HandleCommandCompleted()`. -/
def HandleCommandCompleted (h : Host) (s : SIM7000) : SIM7000 :=
  let s1 := { s with mCommandTimeout := s.mCommandTimeout.Set 0 }
  let commandHash := s1.mCommandHash
  let s2 := { s1 with mCommandHash := 0, mCommandState := eReady }
  if s2.mSleepState ≠ eWakingUp then
    let s3 :=
      if commandHash = kATE0CmdHash ∨ commandHash = kIPRCmdHash then SetBaudOrFlowControl s2
      else if commandHash = kIFCCmdHash then CheckLevels s2
      else s2
    ProcessQueuedSMSReply h s3
  else
    TurnOffEchoMode { s2 with mSleepState := eRunning } 0

/-- `HandleCommandTimeout()`. -/
def HandleCommandTimeout (s : SIM7000) : SIM7000 :=
  let s0 := passthroughWrite s (bytes "timeout" ++ [10])
  let commandHash := s0.mCommandHash
  let s1 := { s0 with
    mCommandHash := 0
    mCommandState := eTimeout
    mCommandTimeout := s0.mCommandTimeout.Set 0 }
  if s1.mSleepState ≠ eWakingUp then
    if commandHash = kATE0CmdHash ∧ s1.mRetries ≠ 0 then
      TurnOffEchoMode { s1 with mRetries := s1.mRetries - 1 } (s1.mRetries - 1)
    else s1
  else if s1.rxPin then
    TurnOffEchoMode { s1 with mSleepState := eRunning } kAutobaudEchoRetries
  else
    passthroughWrite { s1 with mCommandState := eError } (bytes "Wakeup/Reset Failed." ++ [10])

/-- `HandleCommandFailed()`. -/
def HandleCommandFailed (s : SIM7000) : SIM7000 :=
  { s with mCommandHash := 0, mCommandState := eError }

/-- `ParseOtherCommandResponse()`, whose body is empty. -/
def ParseOtherCommandResponse (s : SIM7000) : SIM7000 := s

/-- `UpdateTime(inTime)`: a time other than 0 is handed to `UnixTime::SetTime` and
marks the time valid.  The sleep timer kept inside `UnixTime` is not modelled. -/
def UpdateTime (s : SIM7000) (inTime : Nat) : SIM7000 :=
  if inTime ≠ 0 then { s with unixTime := inTime, mTimeIsValid := true } else s

/-- `MessageRead(inMessage, inMessageLen, inSender, inSMSCAddr)`, a virtual member:
the body of the base class, which the override of `LTESensor` calls first; what
the override does next changes members of `LTESensor` only (it may queue a reply,
see `Host`).  The call is recorded in `messagesRead`. -/
def MessageRead (s : SIM7000) (inMessage : List Nat) (inMessageLen : Nat)
    (inSender inSMSCAddr : List Nat) : SIM7000 :=
  let s0 := { s with messagesRead := s.messagesRead ++
    [{ inMessage := cstr inMessage 0, inMessageLen := inMessageLen,
       inSender := inSender, inSMSCAddr := inSMSCAddr }] }
  let s1 := passthroughWrite s0
    ([34] ++ cstr inMessage 0 ++ [34, 44, 32] ++ printDec inMessageLen ++ [44, 32]
      ++ cstr inSender 0 ++ [44, 32] ++ cstr inSMSCAddr 0 ++ [10])
  if s1.mWaitingToProcessMessage ≠ 0 then
    let s2 :=
      if s1.mDeleteMessagesAfterRead then
        { s1 with mWaitingToDeleteMessage := s1.mWaitingToProcessMessage }
      else s1
    { s2 with mWaitingToProcessMessage := 0 }
  else s1

/-! ### The response classifier -/

/-- `HandleMultiLineCommand()`: returns `handled` and the new state.  The local
arrays `smscAddr`, `sender` and `message` start zero-filled in the model. -/
def HandleMultiLineCommand (s : SIM7000) : Bool × SIM7000 :=
  if s.mCommandHash = kCMGLCmdHash ∨ s.mCommandHash = kCMGRCmdHash then
    let s1 := { s with mCommandHash := 0 }
    let a := ExtractAddress s1.mRxBuffer s1.mRxBufferPtr true (List.replicate 16 0) false
    let s2 := { s1 with mRxBufferPtr := s1.mRxBufferPtr + a.1 }
    let t := ParseTPDU s2.mRxBuffer s2.mRxBufferPtr (List.replicate 512 0) (List.replicate 16 0)
    (true, MessageRead s2 t.2.1 t.1 t.2.2 a.2.1)
  else (false, s)

/-- A `char` widened for arithmetic with a `uint16_t`: `char` is signed, so a byte
above 127 is sign-extended. -/
def charToUint16 (c : Nat) : Nat := if c % 256 < 128 then c % 256 else c % 256 + 65280

/-- One step of the hash of `ParseCommandResponse`:
`hash = ((hash + thisChar) * thisChar) % 0x1FFF` in 16-bit unsigned arithmetic. -/
def hashStep (hash thisChar : Nat) : Nat :=
  (((hash + charToUint16 thisChar) % 65536) * charToUint16 thisChar) % 65536 % 8191

/-- The scanning loop of `ParseCommandResponse` over the bytes after the `'+'`:
returns whether the colon was found, the cursor (at the colon or at the end of
the string) and the hash of the characters passed. -/
def ParseScan : List Nat → Nat → Nat → Bool × Nat × Nat
  | [], pos, hash => (false, pos, hash)
  | thisChar :: rest, pos, hash =>
    if thisChar = 0 then (false, pos, hash)
    else if thisChar ≠ 58 then ParseScan rest (pos + 1) (hashStep hash thisChar)
    else (true, pos, hash)

/-- The hash `ParseCommandResponse` computes for a line `+<mnemonic>:`. -/
def commandHash (mnemonic : List Nat) : Nat := (ParseScan (mnemonic ++ [58]) 0 0).2.2

/-- The value `mBars` gets from a raw RSSI (the `kCSQCmdHash` case); `rssi` is a
`uint16_t` and the result is stored in a `uint8_t`. -/
def barsOfRssi (rssi : Nat) : Nat :=
  if rssi = 99 ∨ rssi < 2 then 0
  else if rssi < 10 then (10 + ((rssi - 2) * 10 % 65536) / 8) % 256
  else if rssi < 15 then (20 + ((rssi - 10) * 10 % 65536) / 5) % 256
  else if rssi < 20 then (30 + ((rssi - 15) * 10 % 65536) / 5) % 256
  else (40 + ((rssi - 20) * 10 % 65536) / 11) % 256

/-- The `switch (hash)` of `ParseCommandResponse`, entered with the cursor
`rxBufferPtr` on the first character `thisChar` after the colon and white space.
Returns the state and the cursor. -/
def ParseDispatch (h : Host) (s : SIM7000) (hash rxBufferPtr thisChar : Nat) : SIM7000 × Nat :=
  let buf := s.mRxBuffer
  if hash = kCSQCmdHash then
    let r := GetUInt16Value buf rxBufferPtr
    if r.1 = 44 then ({ s with mBars := barsOfRssi r.2.2 }, r.2.1)
    else ({ s with mBars := 99 }, r.2.1)
  else if hash = kCCLKCmdHash then
    if thisChar = 34 then (UpdateTime s (h.StringToUnixTime buf (rxBufferPtr + 1) false), rxBufferPtr)
    else (s, rxBufferPtr)
  else if hash = kCBCCmdHash then
    let r := GetUInt16Value buf rxBufferPtr
    if r.1 = 44 then
      let b := GetUInt16Value buf (r.2.1 + 1)
      if b.2.2 ≤ 100 then ({ s with mBatteryLevel := b.2.2 }, b.2.1)
      else ({ s with mBatteryLevel := 0 }, b.2.1)
    else (s, r.2.1)
  else if hash = kCREGCmdHash then
    let i := if peek buf (rxBufferPtr + 1) = 44 then 2 else 0
    ({ s with mConnectionStatus := (peek buf (rxBufferPtr + i) % 256 + 256 - 48) % 256 },
     rxBufferPtr)
  else if hash = kCMS_ERRORCmdHash then
    let s1 := { s with mCommandState := eError, mCommandTimeout := s.mCommandTimeout.Set 0 }
    (if s1.mSMSStatus = eSMSWaiting then { s1 with mSMSStatus := eSMSFailed } else s1,
     rxBufferPtr)
  else if hash = kCME_ERRORCmdHash then
    ({ s with mCommandState := eError, mCommandTimeout := s.mCommandTimeout.Set 0 },
     rxBufferPtr)
  else if hash = kCMTICmdHash then
    let t := SkipTillChar 44 true buf rxBufferPtr
    if t.1 then
      let r := GetUInt16Value buf t.2
      let tail := s.mPendingMessagesTail + 1
      ({ s with
          mPendingMessages := poke s.mPendingMessages s.mPendingMessagesTail (r.2.2 % 256)
          mPendingMessagesTail := if tail = sizeofPendingMessages then 0 else tail % 256 },
       r.2.1)
    else (s, t.2)
  else if hash = kCMGLCmdHash ∨ hash = kCMGRCmdHash then
    if thisChar = 34 ∨ peek buf (rxBufferPtr + 2) = 34 ∨ peek buf (rxBufferPtr + 3) = 34 then
      ({ s with mCommandHash := 0 }, rxBufferPtr)
    else (s, rxBufferPtr)
  else if hash = kCMGSCmdHash then
    (if s.mSMSStatus = eSMSWaiting then { s with mSMSStatus := eSMSSent } else s, rxBufferPtr)
  else if hash = kCPINCmdHash then
    (if (CmpBufferP (bytes "NOT INSERTED") buf rxBufferPtr).1 then HandleNoSIMCardFound s else s,
     rxBufferPtr)
  else (s, rxBufferPtr)

/-- `ParseCommandResponse()`: the line in `mRxBuffer` at `mRxBufferPtr` starts
with `'+'`. -/
def ParseCommandResponse (h : Host) (s : SIM7000) : SIM7000 :=
  let sc := ParseScan (s.mRxBuffer.drop (s.mRxBufferPtr + 1)) (s.mRxBufferPtr + 1) 0
  if sc.1 then
    let s1 := { s with mCommandHash := sc.2.2 }
    let w := SkipWhitespaceOnLine s1.mRxBuffer (sc.2.1 + 1)
    if w.1 ≠ 0 ∧ w.1 ≠ 10 then
      let d := ParseDispatch h s1 sc.2.2 w.2 w.1
      { d.1 with mRxBufferPtr := d.2 }
    else { s1 with mRxBufferPtr := w.2 }
  else { s with mRxBufferPtr := sc.2.1 }

/-- The `switch (mRxBufferPtr[0])` of `HandleCommandResponse`. -/
def ClassifyLine (h : Host) (s : SIM7000) : SIM7000 :=
  let buf := s.mRxBuffer
  let c0 := peek buf s.mRxBufferPtr
  if c0 = 42 then
    if (CmpBufferP (bytes "PSU") buf (s.mRxBufferPtr + 1)).1 then
      UpdateTime s (h.StringToUnixTime buf (s.mRxBufferPtr + 9) true)
    else s
  else if c0 = 43 then ParseCommandResponse h s
  else if c0 = 65 then
    if peek buf (s.mRxBufferPtr + 1) = 84 ∨ peek buf (s.mRxBufferPtr + 1) = 116 then s
    else ParseOtherCommandResponse s
  else if c0 = 69 then
    let c := CmpBufferP (bytes "ERROR") buf s.mRxBufferPtr
    if c.1 then HandleCommandFailed { s with mRxBufferPtr := c.2 }
    else ParseOtherCommandResponse s
  else if c0 = 68 then s
  else if c0 = 78 then
    let c := CmpBufferP (bytes "NORMAL POWER DOWN") buf s.mRxBufferPtr
    if c.1 then { s with mRxBufferPtr := c.2, mSleepState := eSleeping }
    else ParseOtherCommandResponse s
  else if c0 = 79 then
    if peek buf (s.mRxBufferPtr + 1) = 75 then HandleCommandCompleted h s else s
  else if c0 = 82 then
    if peek buf (s.mRxBufferPtr + 1) ≠ 68 ∨ peek buf (s.mRxBufferPtr + 2) ≠ 89 then
      ParseOtherCommandResponse s
    else s
  else if c0 = 83 then
    let c := CmpBufferP (bytes "SMS Ready") buf s.mRxBufferPtr
    if c.1 then HandleCommandCompleted h { s with mRxBufferPtr := c.2 } else s
  else ParseOtherCommandResponse s

/-- The record of a call of `HandleCommandResponse`: the line at the cursor is
appended to `linesHandled`. -/
def noteLine (s : SIM7000) : SIM7000 :=
  { s with linesHandled := s.linesHandled ++ [cstr s.mRxBuffer s.mRxBufferPtr] }

/-- `HandleCommandResponse()`: called with a complete line in `mRxBuffer`; the call
is recorded first. -/
def HandleCommandResponse (h : Host) (s : SIM7000) : SIM7000 :=
  let s1 := PauseRx (noteLine s)
  let s2 := { s1 with mCommandTimeout := s1.mCommandTimeout.Start s1.millis }
  let m := if s2.mCommandHash ≠ 0 then HandleMultiLineCommand s2 else (false, s2)
  let s3 := if !m.1 then ClassifyLine h m.2 else m.2
  ResumeRx (FlushRxBuffer s3)

/-! ### Update -/

/-- The first block of `Update()`: the pin timer. -/
def UpdatePins (s : SIM7000) : SIM7000 :=
  if s.mPinPeriod.Passed s.millis then
    let s1 := { s with mPinPeriod := s.mPinPeriod.Set 0, powerPin := true, resetPin := true }
    if s1.mSleepState = eWakingUp then
      { s1 with mCommandTimeout := (s1.mCommandTimeout.Set 7000).Start s1.millis }
    else s1
  else s

/-- The second block of `Update()`: deleting a read message, else reading the
oldest pending one. -/
def UpdateMessages (s : SIM7000) : SIM7000 :=
  if s.mWaitingToDeleteMessage ≠ 0 ∧ s.ClearToSendSMS = true then
    let commandStr := Uint16ToDecStr ((s.mWaitingToDeleteMessage + 65535) % 65536)
      (blit [] 0 (bytes "AT+CMGD=" ++ [0])) 8
    let r := SendCommand s (cstr commandStr 0) 0 5000
    if r.1 then { r.2 with mWaitingToDeleteMessage := 0 } else r.2
  else if s.mWaitingToProcessMessage = 0 ∧ s.mPendingMessagesHead ≠ s.mPendingMessagesTail
      ∧ s.ClearToSend = true then
    let messageIndex := peek s.mPendingMessages s.mPendingMessagesHead % 256
    let commandStr := Uint16ToDecStr messageIndex (blit [] 0 (bytes "AT+CMGR=" ++ [0])) 8
    let r := SendCommand s (cstr commandStr 0) 0 5000
    if r.1 then
      let head := (r.2.mPendingMessagesHead + 1) % 256
      { r.2 with
        mWaitingToProcessMessage := (messageIndex + 1) % 256
        mPendingMessagesHead := if head = sizeofPendingMessages then 0 else head }
    else r.2
  else s

/-- The body of the loop `while (mSerial.available())` of `Update()` for one byte
read.  `rxLen` is a `uint8_t`. -/
def UpdateByte (h : Host) (s : SIM7000) (byteRead : Nat) : SIM7000 :=
  if byteRead = 13 ∨ byteRead = 0 then s
  else if byteRead = 10 then
    let s1 := passthroughWrite s [10]
    if s1.mRxBufferPtr > 0 then
      HandleCommandResponse h
        { s1 with mRxBuffer := poke s1.mRxBuffer s1.mRxBufferPtr 0, mRxBufferPtr := 0 }
    else s1
  else
    let s1 := passthroughWrite s [byteRead]
    let rxLen := s1.mRxBufferPtr % 256
    if rxLen < kRxBufferSize then
      let s2 := { s1 with
        mRxBuffer := poke (poke s1.mRxBuffer s1.mRxBufferPtr byteRead) (s1.mRxBufferPtr + 1) 0
        mRxBufferPtr := s1.mRxBufferPtr + 1 }
      if s2.mSMSStatus = eSMSSending ∧ byteRead = 62 then SendSMSMessage s2 else s2
    else
      let s2 := passthroughWrite { s1 with mRxBufferPtr := 0 }
        ([10] ++ bytes ">>> Buffer overrun" ++ [10])
      HandleCommandResponse h s2

/-- The last block of `Update()`: the command and levels timers. -/
def UpdateTimers (s : SIM7000) : SIM7000 :=
  let s1 := if s.mCommandTimeout.Passed s.millis then HandleCommandTimeout s else s
  if s1.mCheckLevelsPeriod.Passed s1.millis then CheckLevels s1 else s1

/-- `Update()`, with `rx` the bytes `mSerial` delivers during the call.  The
clock and the readiness line are read from the state and do not change during
the call. -/
def Update (h : Host) (s : SIM7000) (rx : List Nat) : SIM7000 :=
  UpdateTimers (rx.foldl (UpdateByte h) (UpdateMessages (UpdatePins s)))

end SIM7000

/-! ## DS18B20Multidrop -/

/-- `struct SDS18B20`: the ROM address, the last temperature read (`int16_t`,
fixed point with 1/16 scale), and the two flags. -/
structure SDS18B20 where
  address : List Nat
  temp : Int
  changed : Bool
  alarm : Bool
deriving DecidableEq, Repr

/-- The members of class `DS18B20Multidrop` that `DataUpdated` and `ResetAlarm`
use, followed by the clock `millis()`.  `mThermometer` has `MAX_DS18B20_COUNT`
entries, of which the first `mCount` are in use. -/
structure DS18B20Multidrop where
  mConversionPeriod : MSPeriod
  mUpdatePeriod : MSPeriod
  mThermometer : List SDS18B20
  mAlarmHigh : Int
  mAlarmLow : Int
  mAlarm : Bool
  mTemperatureChanged : Bool
  mDataIsValid : Bool
  mCount : Nat
  mResolution : Nat
  millis : Nat
deriving DecidableEq, Repr

namespace DS18B20Multidrop

/-- `MAX_DS18B20_COUNT`. -/
def MAX_DS18B20_COUNT : Nat := 4

/-- A zero-initialised `SDS18B20`. -/
def zeroThermometer : SDS18B20 := { address := [], temp := 0, changed := false, alarm := false }

/-- Read of `mThermometer[inIndex]`. -/
def thermometerAt (s : DS18B20Multidrop) (inIndex : Nat) : SDS18B20 :=
  s.mThermometer.getD inIndex zeroThermometer

/-- Write of `mThermometer[inIndex]`; an index past the array changes nothing in
the model. -/
def setThermometer (s : DS18B20Multidrop) (inIndex : Nat) (t : SDS18B20) : DS18B20Multidrop :=
  { s with mThermometer := s.mThermometer.set inIndex t }

/-- `Alarm()`. -/
def Alarm (s : DS18B20Multidrop) : Bool := s.mAlarm

/-- `Alarm(inIndex)`. -/
def AlarmAt (s : DS18B20Multidrop) (inIndex : Nat) : Bool := (s.thermometerAt inIndex).alarm

/-- `ResetAlarm()`: clears the overall alarm flag and the alarm flag of each of the
`mCount` thermometers. -/
def ResetAlarm (s : DS18B20Multidrop) : DS18B20Multidrop :=
  (List.range s.mCount).foldl
    (fun s i => s.setThermometer i { s.thermometerAt i with alarm := false })
    { s with mAlarm := false }

/-- The body of the loop of `DataUpdated` for thermometer `i`.  `scratchPad` is
the result of `ReadScratchPad(i, scratchPad)`: none when it returns false, else
the temperature field `scratchPad.f.temp` read from the thermometer. -/
def DataUpdatedStep (s : DS18B20Multidrop) (i : Nat) (scratchPad : Option Int) :
    DS18B20Multidrop :=
  match scratchPad with
  | some temp =>
    if temp ≠ (s.thermometerAt i).temp then
      let s1 := { s with mTemperatureChanged := true }
      let s2 := s1.setThermometer i { s1.thermometerAt i with changed := true, temp := temp }
      if (s2.thermometerAt i).alarm = false ∧ (temp ≥ s2.mAlarmHigh ∨ temp ≤ s2.mAlarmLow) then
        ({ s2 with mAlarm := true }).setThermometer i { s2.thermometerAt i with alarm := true }
      else s2
    else s
  | none => s

/-- `DataUpdated(inResetAlarms)`: returns `dataUpdated` and the new state.
`readScratchPad i` is what `ReadScratchPad(i, scratchPad)` yields for thermometer
`i` during the call. -/
def DataUpdated (s : DS18B20Multidrop) (inResetAlarms : Bool)
    (readScratchPad : Nat → Option Int) : Bool × DS18B20Multidrop :=
  let dataUpdated := s.mConversionPeriod.Passed s.millis
  if dataUpdated then
    let s1 := { s with mDataIsValid := true }
    let s2 := if inResetAlarms then s1.ResetAlarm else s1
    let s3 := { s2 with mConversionPeriod := s2.mConversionPeriod.Set 0 }
    (dataUpdated,
     (List.range s3.mCount).foldl (fun s i => s.DataUpdatedStep i (readScratchPad i)) s3)
  else (dataUpdated, s)

end DS18B20Multidrop

/-! ## Definitions used to state the theorems -/

open StringUtils TPDU SIM7000 ESleepState ECommandState ESMSStatus

/-- Partner index in a swapped pair. -/
def swapIndex (q : Nat) : Nat := if q % 2 = 0 then q + 1 else q - 1

/-- The state in which `HandleCommandCompleted` calls `ProcessQueuedSMSReply` or,
when the modem is waking up, the state it returns. -/
def completedBeforeReply (s : SIM7000) : SIM7000 :=
  if s.mSleepState ≠ eWakingUp then
    if s.mCommandHash = kATE0CmdHash ∨ s.mCommandHash = kIPRCmdHash then
      SetBaudOrFlowControl
        { s with mCommandTimeout := s.mCommandTimeout.Set 0, mCommandHash := 0,
                 mCommandState := eReady }
    else if s.mCommandHash = kIFCCmdHash then
      CheckLevels
        { s with mCommandTimeout := s.mCommandTimeout.Set 0, mCommandHash := 0,
                 mCommandState := eReady }
    else
      { s with mCommandTimeout := s.mCommandTimeout.Set 0, mCommandHash := 0,
               mCommandState := eReady }
  else
    TurnOffEchoMode
      { s with mCommandTimeout := s.mCommandTimeout.Set 0, mCommandHash := 0,
               mCommandState := eReady, mSleepState := eRunning } 0

/-- A host whose date parser always answers 0 and that has no reply queued. -/
def hostNoClock : Host :=
  { StringToUnixTime := fun _ _ _ => 0, queuedSMSReply := fun _ => none }

/-- A host whose date parser always answers 0 and that has the reply "OK" to the
number "15551234567" queued at every call. -/
def hostWithReply : Host :=
  { StringToUnixTime := fun _ _ _ => 0
    queuedSMSReply := fun _ => some (bytes "15551234567", bytes "OK") }

/-- The line at the cursor is one that `HandleCommandResponse` takes as the
successful end of a command: it starts with "OK" or with "SMS Ready". -/
def completionLine (s : SIM7000) : Prop :=
  (peek s.mRxBuffer s.mRxBufferPtr = 79 ∧ peek s.mRxBuffer (s.mRxBufferPtr + 1) = 75) ∨
  (peek s.mRxBuffer s.mRxBufferPtr = 83 ∧
    (CmpBufferP (bytes "SMS Ready") s.mRxBuffer s.mRxBufferPtr).1 = true)

instance completionLineDecidable (s : SIM7000) : Decidable (completionLine s) := by
  unfold completionLine
  exact inferInstance

/-- Successive calls of `Update` with no byte received; before each call the
clock and the readiness line take the given values. -/
def runUpdates (h : Host) (s : SIM7000) (env : List (Nat × Bool)) : SIM7000 :=
  env.foldl (fun s e => Update h { s with millis := e.1, rxPin := e.2 } []) s

/-- A state in Error with one message index pending and the readiness line high. -/
def errorWithPendingMessage : SIM7000 :=
  { SIM7000.init with mCommandState := eError, rxPin := true, mPendingMessagesTail := 1 }

/-- A state in Error holding the line "+CREG: 1". -/
def errorWithCregLine : SIM7000 :=
  { SIM7000.init with mCommandState := eError, mRxBuffer := bytes "+CREG: 1" ++ [0] }

/-- What holds while a command sent with hash 0 is in flight and the modem is
running: the state is Busy and the command timer is `T`. -/
def inFlight (T : MSPeriod) (s : SIM7000) : Prop :=
  s.mCommandState = eBusy ∧ s.mSleepState = eRunning ∧ s.mCommandHash = 0 ∧ s.mCommandTimeout = T

/-- A state with the levels check due every 100 ms, started at time 0. -/
def readyWithLevelsCheck : SIM7000 :=
  { SIM7000.init with rxPin := true, mCheckLevelsPeriod := { mPeriod := 100, mStart := 0 } }

/-- A running modem with the readiness line high and nothing in flight. -/
def readyModem : SIM7000 := { SIM7000.init with rxPin := true }

/-- The members the SMS and message pipelines keep between calls: the SMS status,
the two single-slot flags and the ring with its cursors. -/
def core (s : SIM7000) : ESMSStatus × Nat × Nat × List Nat × Nat × Nat :=
  (s.mSMSStatus, s.mWaitingToProcessMessage, s.mWaitingToDeleteMessage,
   s.mPendingMessages, s.mPendingMessagesHead, s.mPendingMessagesTail)

/-- A change of the SMS status that a received line may make: none, from Waiting
to Sent or Failed, or from Idle to Sending (a queued reply sent on completion). -/
def smsLineStep (a b : ESMSStatus) : Prop :=
  b = a ∨ (a = eSMSWaiting ∧ (b = eSMSSent ∨ b = eSMSFailed)) ∨
    (a = eSMSIdle ∧ b = eSMSSending)

/-- A change of the SMS status that a received byte may make: that of a line, or
from Sending to Waiting. -/
def smsByteStep (a b : ESMSStatus) : Prop :=
  smsLineStep a b ∨ (a = eSMSSending ∧ b = eSMSWaiting)

/-- The body of the `kCMTICmdHash` case of `ParseCommandResponse` once the index
has been read: the index is stored at the tail of the ring and the tail advances. -/
def QueueMessageIndex (s : SIM7000) (messageIndex : Nat) : SIM7000 :=
  { s with
    mPendingMessages := poke s.mPendingMessages s.mPendingMessagesTail (messageIndex % 256)
    mPendingMessagesTail :=
      if s.mPendingMessagesTail + 1 = sizeofPendingMessages then 0
      else (s.mPendingMessagesTail + 1) % 256 }

/-- At most one of the two single-slot flags is set. -/
def slotsExclusive (s : SIM7000) : Prop :=
  s.mWaitingToProcessMessage = 0 ∨ s.mWaitingToDeleteMessage = 0

/-- The line "+CSQ: rssi,ber" with its line end, as the modem sends it. -/
def csqLine (rssi ber : Nat) : List Nat :=
  bytes "+CSQ: " ++ printDec rssi ++ [44] ++ printDec ber ++ [13, 10]

/-- The line at the cursor starts with "OK". -/
def okLine (s : SIM7000) : Prop :=
  peek s.mRxBuffer s.mRxBufferPtr = 79 ∧ peek s.mRxBuffer (s.mRxBufferPtr + 1) = 75

/-- The line at the cursor starts with "ERROR". -/
def errorLine (s : SIM7000) : Prop :=
  peek s.mRxBuffer s.mRxBufferPtr = 69 ∧
    (CmpBufferP (bytes "ERROR") s.mRxBuffer s.mRxBufferPtr).1 = true

/-- A ready modem holding the line "ERROR". -/
def readyWithErrorLine : SIM7000 :=
  { SIM7000.init with mRxBuffer := bytes "ERROR" ++ [0] }

/-- The line `+CMTI: "SM",index` that announces a new message, without its line
end. -/
def cmtiLine (index : Nat) : List Nat :=
  bytes "+CMTI: " ++ [34] ++ bytes "SM" ++ [34, 44] ++ printDec index

/-- A delete is waiting that `Update` cannot send although it can send a command:
`ClearToSend()` holds and `ClearToSendSMS()` does not (the modem is not registered
on the home network, or an SMS is being sent). -/
def deleteHeldBack (s : SIM7000) : Prop :=
  s.mWaitingToDeleteMessage ≠ 0 ∧ s.ClearToSendSMS = false ∧ s.ClearToSend = true

/-- The state in which an "ATE0" is in flight with `retries` retries left, the
modem not waking up and the readiness line high. -/
def echoInFlight (retries : Nat) (out : List Nat) (s : SIM7000) : Prop :=
  s.mCommandState = eBusy ∧ s.mCommandHash = kATE0CmdHash ∧ s.mRetries = retries ∧
  s.mSleepState ≠ eWakingUp ∧ s.rxPin = true ∧ s.serialOut = out

/-- The pending-message ring: the array and its two cursors. -/
def ring (s : SIM7000) : List Nat × Nat × Nat :=
  (s.mPendingMessages, s.mPendingMessagesHead, s.mPendingMessagesTail)

/-- Both cursors of the ring are inside the array. -/
def ringOK (s : SIM7000) : Prop :=
  s.mPendingMessagesHead < sizeofPendingMessages ∧ s.mPendingMessagesTail < sizeofPendingMessages

/-- The number of slots from the head cursor up to the tail cursor, going round. -/
def pendingCount (s : SIM7000) : Nat :=
  (s.mPendingMessagesTail + sizeofPendingMessages - s.mPendingMessagesHead) % sizeofPendingMessages

/-- The entries of the ring from the head cursor up to the tail cursor, oldest
first; the entries are `uint8_t`. -/
def pendingList (s : SIM7000) : List Nat :=
  (List.range (pendingCount s)).map
    (fun i => peek s.mPendingMessages ((s.mPendingMessagesHead + i) % sizeofPendingMessages) % 256)

/-- The message index that `ClassifyLine` queues for the line at the cursor, if it
queues one: the line starts with '+', its mnemonic hashes to `kCMTICmdHash`, text
follows the colon and contains a comma followed by more text; the index is the
number read after the comma. -/
def announcedIndex (s : SIM7000) : Option Nat :=
  if peek s.mRxBuffer s.mRxBufferPtr = 43 then
    let sc := ParseScan (s.mRxBuffer.drop (s.mRxBufferPtr + 1)) (s.mRxBufferPtr + 1) 0
    let w := SkipWhitespaceOnLine s.mRxBuffer (sc.2.1 + 1)
    let t := SkipTillChar 44 true s.mRxBuffer w.2
    if sc.1 = true ∧ (w.1 ≠ 0 ∧ w.1 ≠ 10) ∧ sc.2.2 = kCMTICmdHash ∧ t.1 = true then
      some (GetUInt16Value s.mRxBuffer t.2).2.2
    else none
  else none

/-- The message index that `HandleCommandResponse` queues for the line at the
cursor, if it queues one: none while the text of a message is expected (the
pending hash is that of +CMGL or +CMGR), else that of `announcedIndex`. -/
def notifiedIndex (s : SIM7000) : Option Nat :=
  if s.mCommandHash = kCMGLCmdHash ∨ s.mCommandHash = kCMGRCmdHash then none
  else announcedIndex s

/-- The read command for a message index, as written to the modem. -/
def readCommand (index : Nat) : List Nat := bytes "AT+CMGR=" ++ printDec index ++ [13, 10]

/-- The indices (below 256) whose read command the second block of `Update`
writes to the modem in state `s`, observed on the serial output. -/
def issuedReads (s : SIM7000) : List Nat :=
  (List.range 256).filter
    (fun k => decide ((UpdateMessages s).serialOut = s.serialOut ++ readCommand k))

/-- The message index queued when byte `b` is received in state `s`, if one is:
the byte is a line feed that closes a non-empty line, and `HandleCommandResponse`
queues an index for that line. -/
def byteNotification (s : SIM7000) (b : Nat) : Option Nat :=
  if b = 10 ∧ 0 < s.mRxBufferPtr then
    notifiedIndex { s with mRxBuffer := poke s.mRxBuffer s.mRxBufferPtr 0, mRxBufferPtr := 0 }
  else none

/-- The loop body of `Update` for one byte, together with a record of the message
indices notified so far and of whether every notification so far carried an index
below 256 and came with fewer than 14 indices pending. -/
def rxTraceStep (h : Host) (t : SIM7000 × List Nat × Bool) (b : Nat) :
    SIM7000 × List Nat × Bool :=
  match byteNotification t.1 b with
  | some k =>
    (UpdateByte h t.1 b, t.2.1 ++ [k], t.2.2 && decide (k < 256 ∧ pendingCount t.1 < 14))
  | none => (UpdateByte h t.1 b, t.2.1, t.2.2)

/-- The message indices notified by the bytes `rx`, received from state `s` on. -/
def notifiedBy (h : Host) (s : SIM7000) (rx : List Nat) : List Nat :=
  (rx.foldl (rxTraceStep h) (s, [], true)).2.1

/-- Every notification among the bytes `rx`, received from state `s` on, carries
an index below 256 and comes with fewer than 14 indices pending. -/
def withinCapacity (h : Host) (s : SIM7000) (rx : List Nat) : Bool :=
  (rx.foldl (rxTraceStep h) (s, [], true)).2.2

/-- The runs of the driver, with the message indices notified and the indices for
which a read command was issued: a run starts in any state with the cursors of
the ring inside the array, the indices then pending counting as notified; a step
is a call of `Update` with any received bytes whose notifications stay within the
capacity, or anything else that leaves the ring as it is (the clock, the
readiness line, calls of the other members). -/
inductive RingRun (h : Host) : SIM7000 → List Nat → List Nat → Prop
  | start (s : SIM7000) : ringOK s → RingRun h s (pendingList s) []
  | update (s : SIM7000) (notified issued rx : List Nat) :
      RingRun h s notified issued →
      withinCapacity h (UpdateMessages (UpdatePins s)) rx = true →
      RingRun h (Update h s rx)
        (notified ++ notifiedBy h (UpdateMessages (UpdatePins s)) rx)
        (issued ++ issuedReads (UpdatePins s))
  | other (s t : SIM7000) (notified issued : List Nat) :
      RingRun h s notified issued → ring t = ring s → RingRun h t notified issued

/-- The bytes of `count` notifications, for the message indices 1, 2, ..., `count`. -/
def cmtiLines (count : Nat) : List Nat :=
  (List.range count).flatMap (fun k => cmtiLine (k + 1) ++ [13, 10])

/-- A run of two calls of `Update` from the initial state with the readiness line
high: the first receives the notifications of the messages 3 and 7, the second
receives nothing. -/
def twoNotificationsRun : SIM7000 :=
  Update hostNoClock
    (Update hostNoClock readyModem (cmtiLine 3 ++ [13, 10] ++ cmtiLine 7 ++ [13, 10])) []

/-- The semi-octet packing of a digit string: the digits swapped in pairs, an odd
count padded with 'F'. -/
def semiOctetChars : List Nat → List Nat
  | [] => []
  | [a] => [70, a]
  | a :: b :: rest => b :: a :: semiOctetChars rest

/-- The hex characters of an SMS-SUBMIT PDU, field by field: zero-length SMSC,
first octet 11, message reference 00, the digit count, the number type, the
semi-octet-packed number, protocol 00, data coding scheme 00, validity period A7,
and the length-prefixed packed body of `Pack7BitToPDU`. -/
def submitPDUChars (number msg : List Nat) (dom : Bool) : List Nat :=
  hexPair 0 ++ hexPair 17 ++ hexPair 0 ++ hexPair number.length
    ++ hexPair (if dom then 129 else 145) ++ semiOctetChars number
    ++ hexPair 0 ++ hexPair 0 ++ hexPair 167 ++ Pack7BitChars msg

/-- A byte stream with the carriage returns and the NUL bytes removed. -/
def stripped (rx : List Nat) : List Nat := rx.filter (fun b => decide (b ≠ 13 ∧ b ≠ 0))

/-- The lines of a byte stream as the specification words them: carriage returns
and NUL bytes removed, split at line feeds, the text after the last line feed left
out (it is not yet a line), empty lines dropped. -/
def specLines (rx : List Nat) : List (List Nat) :=
  (((stripped rx).splitOn 10).dropLast).filter (fun l => !l.isEmpty)

/-- The text after the last line feed of a byte stream, carriage returns and NUL
bytes removed. -/
def specRest (rx : List Nat) : List Nat := ((stripped rx).splitOn 10).getLastD []

instance smsLineStepDecidable (a b : ESMSStatus) : Decidable (smsLineStep a b) := by
  unfold smsLineStep
  exact inferInstance

instance smsByteStepDecidable (a b : ESMSStatus) : Decidable (smsByteStep a b) := by
  unfold smsByteStep
  exact inferInstance

instance slotsExclusiveDecidable (s : SIM7000) : Decidable (slotsExclusive s) := by
  unfold slotsExclusive
  exact inferInstance

instance okLineDecidable (s : SIM7000) : Decidable (okLine s) := by
  unfold okLine
  exact inferInstance

instance errorLineDecidable (s : SIM7000) : Decidable (errorLine s) := by
  unfold errorLine
  exact inferInstance

instance deleteHeldBackDecidable (s : SIM7000) : Decidable (deleteHeldBack s) := by
  unfold deleteHeldBack
  exact inferInstance

instance echoInFlightDecidable (retries : Nat) (out : List Nat) (s : SIM7000) :
    Decidable (echoInFlight retries out s) := by
  unfold echoInFlight
  exact inferInstance

instance ringOKDecidable (s : SIM7000) : Decidable (ringOK s) := by
  unfold ringOK
  exact inferInstance

/-- The upper-case hexadecimal digit of a value below 16, as an ASCII code. -/
def upperHexDigit (v : Nat) : Nat := if v < 10 then 48 + v else 55 + v

/-- The hash formula in exact integer arithmetic: `((hash + c) * c) mod 0x1FFF`
folded from the left over the character codes, starting from 0. -/
def exactHash (mnemonic : List Nat) : Nat :=
  mnemonic.foldl (fun hash c => ((hash + c) * c) % 8191) 0

/-- The hash formula with the sum and the product each reduced modulo 2^16 before
the reduction modulo `0x1FFF`, folded from the left over the character codes,
starting from 0. -/
def wrappedHash (mnemonic : List Nat) : Nat :=
  mnemonic.foldl (fun hash c => ((hash + c) % 65536 * c % 65536) % 8191) 0

/-- The SMS-DELIVER line of the example, SMSC record first. -/
def ackPDULine : List Nat :=
  bytes "07919130364886F2040B915080173313F700001280718122346903E1F11A"

/-- The call of `MessageRead` for the example line: the text "ack" of length 3,
the sender buffer holding "05087133317" and the SMSC buffer holding "19036384682",
each NUL-terminated and filled up with 0xFF. -/
def ackCall : MessageReadCall :=
  { inMessage := bytes "ack"
    inMessageLen := 3
    inSender := bytes "05087133317" ++ [0, 255, 255, 255, 255]
    inSMSCAddr := bytes "19036384682" ++ [0, 255, 255, 255, 255] }

/-- The modem after the header line "+CMGR: 1,,22" has been received in the state
`readyModem`. -/
def readPending : SIM7000 :=
  (bytes "+CMGR: 1,,22" ++ [13, 10]).foldl (UpdateByte hostNoClock) readyModem

/-- The state after "ATE0" has been sent from `readyModem` with the given number
of retries. -/
def echoOffSent (retries : Nat) : SIM7000 := TurnOffEchoMode readyModem retries

/-- The bytes of the given lines as the modem sends them, each ended by CR LF,
received one by one from state `s` on. -/
def receiveLines (h : Host) (s : SIM7000) (lines : List String) : SIM7000 :=
  (lines.flatMap (fun l => bytes l ++ [13, 10])).foldl (UpdateByte h) s

/-- Successive calls of `HandleCommandCompleted`. -/
def completions (h : Host) : Nat → SIM7000 → SIM7000
  | 0, s => s
  | n + 1, s => completions h n (HandleCommandCompleted h s)

/-- The bytes of `count` transmissions of the command "AT+IPR=9600". -/
def iprSent : Nat → List Nat
  | 0 => []
  | count + 1 => bytes "AT+IPR=9600" ++ [13, 10] ++ iprSent count

/-- The value of the length octet of an address record holding `d` digits: the
number of digits in an originating or destination address, the number of octets
that follow (type octet included) in an SMSC address. -/
def addressLengthOctet (inIsSMSC : Bool) (d : Nat) : Nat :=
  if inIsSMSC then (d + d % 2) / 2 + 1 else d

/-- What the loop body of `DataUpdated` makes of one thermometer entry, given the
alarm limits and the result of reading its scratch pad. -/
def stepThermometer (high low : Int) (th : SDS18B20) (scratchPad : Option Int) : SDS18B20 :=
  match scratchPad with
  | some temp =>
    if temp ≠ th.temp then
      { th with changed := true, temp := temp,
                alarm := th.alarm || decide (temp ≥ high ∨ temp ≤ low) }
    else th
  | none => th

/-- One thermometer that reads 40 C (640/16) with its alarm set, the limits being
38 C and 0 C, and a conversion started at time 0 that has completed at time 100. -/
def hotThermometer : DS18B20Multidrop :=
  { mConversionPeriod := { mPeriod := 94, mStart := 0 }
    mUpdatePeriod := { mPeriod := 0, mStart := 0 }
    mThermometer := [{ address := [], temp := 640, changed := false, alarm := true },
      DS18B20Multidrop.zeroThermometer, DS18B20Multidrop.zeroThermometer,
      DS18B20Multidrop.zeroThermometer]
    mAlarmHigh := 608
    mAlarmLow := 0
    mAlarm := true
    mTemperatureChanged := false
    mDataIsValid := true
    mCount := 1
    mResolution := 0
    millis := 100 }

/-- The septets of a text written one after another into a bit string, the first
septet in the lowest seven bits: the number whose base-128 digits are the
character codes, the first character being the lowest digit. -/
def septetStream : List Nat → Nat
  | [] => 0
  | c :: rest => c + 128 * septetStream rest

/-- Octet `j` of the standard GSM packing of a text: bits 8j..8j+7 of the bit
string of its septets. -/
def gsmOctet (text : List Nat) (j : Nat) : Nat := septetStream text / 2 ^ (8 * j) % 256

/-- The standard GSM packing of a text of n septets: the ceil(7n/8) octets of the
bit string of its septets. -/
def gsmPack (text : List Nat) : List Nat :=
  (List.range ((7 * text.length + 7) / 8)).map (gsmOctet text)

/-- The hex characters of a list of octets, two per octet. -/
def hexOctets (octets : List Nat) : List Nat := octets.flatMap hexPair

/-- The text loses its last character in `Pack7BitToPDU`: its length is not a
multiple of 8 and the code of its last character is below 2^((n-1) mod 8). -/
def lastSeptetDropped (text : List Nat) : Prop :=
  text.length % 8 ≠ 0 ∧ peek text (text.length - 1) < 2 ^ ((text.length - 1) % 8)

instance lastSeptetDroppedDecidable (text : List Nat) : Decidable (lastSeptetDropped text) := by
  unfold lastSeptetDropped
  exact inferInstance

/-- The state in which the example line is handed to `HandleCommandResponse`: the
header line "+CMGR: 1,,22" and then the characters of the PDU line have been
received in the state `readyModem`, and the cursor is back at the start of the
line. -/
def ackLineHanded : SIM7000 :=
  { ackPDULine.foldl (UpdateByte hostNoClock) readPending with mRxBufferPtr := 0 }

/-- The hash of the mnemonic of a line: for a line that starts with '+' and has a
colon, the hash (by `hashStep`) of the characters between the two. -/
def mnemonicHash (line : List Nat) : Option Nat :=
  if line.head? = some 43 ∧ 58 ∈ line.tail then
    some ((line.tail.takeWhile (fun c => c != 58)).foldl hashStep 0)
  else none

/-- What makes the line at the cursor of `s` change the SMS status to `b`: a line
with the mnemonic of "+CMGS" received in Waiting (Sent), a line with the mnemonic
of "+CMS ERROR" received in Waiting (Failed), or, in Idle, a completion line ("OK"
or "SMS Ready") after which a reply queued by the host is accepted by `SendSMS`
(Sending). -/
def lineCause (h : Host) (s : SIM7000) (b : ESMSStatus) : Prop :=
  (s.mSMSStatus = eSMSWaiting ∧ b = eSMSSent ∧
    mnemonicHash (cstr s.mRxBuffer s.mRxBufferPtr) = some kCMGSCmdHash) ∨
  (s.mSMSStatus = eSMSWaiting ∧ b = eSMSFailed ∧
    mnemonicHash (cstr s.mRxBuffer s.mRxBufferPtr) = some kCMS_ERRORCmdHash) ∨
  (s.mSMSStatus = eSMSIdle ∧ b = eSMSSending ∧ completionLine s ∧
    ∃ u number msg, h.queuedSMSReply u = some (number, msg) ∧ (SendSMS u number msg).1 = true)

/-- A registered modem in state Ready, with the readiness line high. -/
def connectedModem : SIM7000 := { readyModem with mConnectionStatus := 1 }

/-- What the modem sends while a queued reply is delivered: "OK" for the command
in flight, the prompt, the result "+CMGS: 5" and the final "OK". -/
def replyDialogue : List (List Nat) :=
  [bytes "OK" ++ [13, 10], [13, 10] ++ bytes "> ", [13, 10] ++ bytes "+CMGS: 5" ++ [13, 10],
   [13, 10] ++ bytes "OK" ++ [13, 10]]

/-- The answer of the modem to "AT+CMGR=1": the header, the text of the message
(a PDU) and "OK", each with its line end. -/
def readAnswer : List (List Nat) :=
  [bytes "+CMGR: 1,,22" ++ [13, 10],
   bytes "07919130364886F2040B915080173313F700001280718122346903E1F11A" ++ [13, 10],
   bytes "OK" ++ [13, 10]]

/-- The driver polled with the received bytes `rxs`, one `Update` call per entry,
from state `s`. -/
def updates (h : Host) (s : SIM7000) (rxs : List (List Nat)) : SIM7000 :=
  rxs.foldl (Update h) s

/-- The notifications of the messages 1 and 2 received in one `Update` call,
followed by the answer to each read and by idle calls. -/
def wholeNotificationsRun : SIM7000 :=
  updates hostNoClock readyModem
    [cmtiLine 1 ++ [13, 10] ++ cmtiLine 2 ++ [13, 10], [], readAnswer.flatten, [],
     readAnswer.flatten, [], []]

/-- The same bytes, with the second notification cut after "+CMTI:" by the end of
the first `Update` call; the rest of the line arrives in the next call. -/
def splitNotificationRun : SIM7000 :=
  updates hostNoClock readyModem
    [cmtiLine 1 ++ [13, 10] ++ bytes "+CMTI:", (cmtiLine 2).drop 6 ++ [13, 10],
     readAnswer.flatten, [], [], []]

/-- The notification of message 1, its read, and the notification of message 2
arriving between the header of the answer and the text of the message. -/
def notificationAfterHeaderRun : SIM7000 :=
  updates hostNoClock readyModem
    [cmtiLine 1 ++ [13, 10], [],
     (readAnswer.take 1).flatten ++ cmtiLine 2 ++ [13, 10] ++ (readAnswer.drop 1).flatten,
     [], [], []]

/-! ## Theorems -/

/-! ### Buffers -/

theorem peek_poke (buf : List Nat) (i v j : Nat) :
    peek (poke buf i v) j = if j = i then v else peek buf j := by
  unfold peek poke
  by_cases hi : i < buf.length
  · simp only [hi, if_true]
    by_cases hj : j = i
    · subst hj; simp [List.getD_eq_getElem?_getD, List.getElem?_set, hi]
    · simp [List.getD_eq_getElem?_getD, List.getElem?_set, hj, Ne.symm hj]
  · simp only [hi, if_false, List.getD_eq_getElem?_getD, List.getElem?_append,
      List.getElem?_replicate, List.length_append, List.length_replicate]
    rcases Nat.lt_trichotomy j i with h | h | h
    · have hne : j ≠ i := by omega
      have h1 : j < buf.length + (i - buf.length) := by omega
      simp only [hne, if_false, h1, if_true]
      by_cases hjl : j < buf.length
      · simp [hjl]
      · have : j - buf.length < i - buf.length := by omega
        simp [hjl, this, List.getElem?_eq_none (show buf.length ≤ j by omega)]
    · subst h
      have h1 : ¬ j < buf.length + (j - buf.length) := by omega
      have : j - (buf.length + (j - buf.length)) = 0 := by omega
      simp [h1, this]
    · have hne : j ≠ i := by omega
      have h1 : ¬ j < buf.length + (i - buf.length) := by omega
      obtain ⟨k, hk⟩ : ∃ k, j - (buf.length + (i - buf.length)) = k + 1 :=
        ⟨j - (buf.length + (i - buf.length)) - 1, by omega⟩
      simp [hne, h1, hk, List.getElem?_eq_none (show buf.length ≤ j by omega)]

theorem length_poke (buf : List Nat) (i v : Nat) :
    (poke buf i v).length = max buf.length (i + 1) := by
  unfold poke
  split
  · simp; omega
  · simp; omega

theorem peek_blit (bs : List Nat) : ∀ (buf : List Nat) (pos j : Nat),
    peek (blit buf pos bs) j
      = if pos ≤ j ∧ j < pos + bs.length then peek bs (j - pos) else peek buf j := by
  induction bs with
  | nil =>
    intro buf pos j
    have : ¬ (pos ≤ j ∧ j < pos) := by omega
    simp [blit, this]
  | cons b bs ih =>
    intro buf pos j
    simp only [blit, ih, peek_poke, List.length_cons]
    by_cases h1 : j = pos
    · subst h1; simp [peek]
    · by_cases h2 : pos + 1 ≤ j ∧ j < pos + 1 + bs.length
      · have h3 : pos ≤ j ∧ j < pos + (bs.length + 1) := by omega
        simp only [h2, h3, and_self, if_true]
        obtain ⟨k, hk⟩ : ∃ k, j - pos = k + 1 := ⟨j - pos - 1, by omega⟩
        have : j - (pos + 1) = k := by omega
        simp [peek, hk, this]
      · have h3 : ¬ (pos ≤ j ∧ j < pos + (bs.length + 1)) := by omega
        simp [h2, h3, h1]

theorem peek_nil (j : Nat) : peek [] j = 0 := by simp [peek]

/-! ### C1: the 7-bit packing round trip -/

/-- C1, evaluated on the code: for the seven-character text "1234567", which is
within the send budget, `Pack7BitToPDU` writes the length byte 06 and six octets,
and `UnpackPDUTo7bit` applied to that output returns 6 and the text "123456": the
last character is lost. -/
theorem pack7bit_roundtrip_loses_last_char :
    strlen (bytes "1234567") < ((kTxBufferSize - kPDUSubmitPreambleSize) * 8) / 7 ∧
    cstr (Pack7BitToPDU (bytes "1234567") [] 0).1 0 = bytes "0631D98C56B3DD" ∧
    UnpackPDUTo7bit (Pack7BitToPDU (bytes "1234567") [] 0).1 0 [] 0
      = (6, bytes "123456" ++ [0]) := by
  decide!

/-! ### C2: the phone number round trip -/

theorem decStrLoop_spec (inStr : List Nat) (inPos outPos : Nat) :
    ∀ (n fuel i : Nat) (out : List Nat), i + n ≤ 255 → n ≤ fuel →
      (∀ j, j < n → peek inStr (inPos + (i + j)) % 256 ≠ 0) →
      (fuel = n ∨ peek inStr (inPos + (i + n)) % 256 = 0) →
      (DecStrToSemiOctetStrLoop inStr inPos outPos fuel i (i / 2 * 2) out).1 = i + n ∧
      (DecStrToSemiOctetStrLoop inStr inPos outPos fuel i (i / 2 * 2) out).2.1
        = (i + n) / 2 * 2 ∧
      ∀ p, peek (DecStrToSemiOctetStrLoop inStr inPos outPos fuel i (i / 2 * 2) out).2.2 p
        = if outPos ≤ p ∧ i ≤ swapIndex (p - outPos) ∧ swapIndex (p - outPos) < i + n
          then peek inStr (inPos + swapIndex (p - outPos)) % 256 else peek out p := by
  intro n
  induction n with
  | zero =>
    intro fuel i out _ _ _ hstop
    have hfalse : ∀ p, ¬ (outPos ≤ p ∧ i ≤ swapIndex (p - outPos)
        ∧ swapIndex (p - outPos) < i + 0) := by intro p; omega
    cases fuel with
    | zero =>
      refine ⟨by simp [DecStrToSemiOctetStrLoop], by simp [DecStrToSemiOctetStrLoop], ?_⟩
      intro p
      rw [if_neg (hfalse p)]
      simp [DecStrToSemiOctetStrLoop]
    | succ f =>
      have h0 : peek inStr (inPos + i) % 256 = 0 := by
        rcases hstop with h | h
        · omega
        · simpa using h
      refine ⟨by simp [DecStrToSemiOctetStrLoop, h0], by simp [DecStrToSemiOctetStrLoop, h0], ?_⟩
      intro p
      rw [if_neg (hfalse p)]
      simp [DecStrToSemiOctetStrLoop, h0]
  | succ n ih =>
    intro fuel i out hi hf hne hstop
    obtain ⟨f, rfl⟩ : ∃ f, fuel = f + 1 := ⟨fuel - 1, by omega⟩
    have hc : peek inStr (inPos + i) % 256 ≠ 0 := by simpa using hne 0 (by omega)
    have hstop' : f = n ∨ peek inStr (inPos + (i + 1 + n)) % 256 = 0 := by
      rcases hstop with h | h
      · left; omega
      · right; rw [show i + 1 + n = i + (n + 1) by omega]; exact h
    have hne' : ∀ j, j < n → peek inStr (inPos + (i + 1 + j)) % 256 ≠ 0 := by
      intro j hj
      rw [show i + 1 + j = i + (j + 1) by omega]
      exact hne (j + 1) (by omega)
    have hmod : (i + 1) % 256 = i + 1 := Nat.mod_eq_of_lt (by omega)
    by_cases hodd : i % 2 = 1
    · have hsemi : (i / 2 * 2 + 2) % 256 = (i + 1) / 2 * 2 := by omega
      have key := ih f (i + 1) (poke out (outPos + i / 2 * 2) (peek inStr (inPos + i) % 256))
        (by omega) (by omega) hne' hstop'
      rw [DecStrToSemiOctetStrLoop]
      simp only [hc, if_false, hodd, if_true, hmod, hsemi]
      refine ⟨by rw [key.1]; omega, by rw [key.2.1]; congr 2; omega, ?_⟩
      intro p
      rw [key.2.2 p, peek_poke]
      unfold swapIndex
      split_ifs <;> first | rfl | omega | (congr 2; omega)
    · have hev : i % 2 = 0 := by omega
      have hsemi : i / 2 * 2 = (i + 1) / 2 * 2 := by omega
      have key := ih f (i + 1) (poke out (outPos + i / 2 * 2 + 1) (peek inStr (inPos + i) % 256))
        (by omega) (by omega) hne' hstop'
      rw [DecStrToSemiOctetStrLoop]
      simp only [hc, if_false, hodd, hmod]
      rw [← hsemi] at key
      refine ⟨by rw [key.1]; omega, by rw [key.2.1]; congr 2; omega, ?_⟩
      intro p
      rw [key.2.2 p, peek_poke]
      unfold swapIndex
      split_ifs <;> first | rfl | omega | (congr 2; omega)

theorem peek_mem (l : List Nat) (j : Nat) (h : j < l.length) : peek l j ∈ l := by
  unfold peek
  rw [List.getD_eq_getElem l 0 h]
  exact List.getElem_mem h

theorem peek_of_le (l : List Nat) (j : Nat) (h : l.length ≤ j) : peek l j = 0 := by
  unfold peek
  simp [List.getD_eq_getElem?_getD, List.getElem?_eq_none h]

theorem decStr_encode (num out : List Nat) (outPos : Nat) (hd : num.length ≤ 99)
    (hnz : ∀ c ∈ num, c % 256 ≠ 0) :
    (DecStrToSemiOctetStr num 0 out outPos 99).1 = num.length ∧
    ∀ p, peek (DecStrToSemiOctetStr num 0 out outPos 99).2 p
      = if outPos ≤ p ∧ p - outPos < num.length + num.length % 2 then
          (if swapIndex (p - outPos) < num.length
            then peek num (swapIndex (p - outPos)) % 256 else 70)
        else peek out p := by
  have key := decStrLoop_spec num 0 outPos num.length 99 0 out (by omega) hd
    (by intro j hj; simpa using hnz _ (peek_mem num j hj))
    (by right; simp [peek_of_le num num.length (le_refl _)])
  simp only [Nat.zero_div, Nat.zero_mul, Nat.zero_add] at key
  obtain ⟨k1, k2, k3⟩ := key
  unfold DecStrToSemiOctetStr
  simp only [k1, k2]
  by_cases hodd : num.length % 2 = 1
  · simp only [hodd, if_true]
    refine ⟨trivial, ?_⟩
    intro p
    rw [peek_poke, k3 p]
    unfold swapIndex
    split_ifs <;> first | rfl | omega
  · simp only [hodd, if_false]
    refine ⟨trivial, ?_⟩
    intro p
    rw [k3 p]
    unfold swapIndex
    split_ifs <;> first | rfl | omega

theorem hexPair_value : ∀ n, n < 256 →
    (HexStrToUint8 (hexPair n) 0).1 = n := by
  decide!

theorem HexStrToUint8_of_peek (buf : List Nat) (pos n : Nat) (hn : n < 256)
    (h0 : peek buf pos = peek (hexPair n) 0) (h1 : peek buf (pos + 1) = peek (hexPair n) 1) :
    HexStrToUint8 buf pos = (n, pos + 2) := by
  have h := hexPair_value n hn
  unfold HexStrToUint8 at h ⊢
  simp only [Nat.zero_add] at h
  simp only [h0, h1, h]

theorem extractAddress_decode (buf : List Nat) (pos : Nat) (num addr : List Nat)
    (hd1 : 1 ≤ num.length) (hd : num.length ≤ 15) (hdig : ∀ c ∈ num, 48 ≤ c ∧ c ≤ 57)
    (hlen : (HexStrToUint8 buf pos).1 = num.length)
    (hrec : ∀ q, q < num.length + num.length % 2 →
      peek buf (pos + 4 + q) = if swapIndex q < num.length then peek num (swapIndex q) else 70) :
    (ExtractAddress buf pos false addr false).1 = num.length + num.length % 2 + 4 ∧
    (∀ p, p < num.length → peek (ExtractAddress buf pos false addr false).2.1 p = peek num p) ∧
    peek (ExtractAddress buf pos false addr false).2.1 num.length = 0 ∧
    (∀ p, num.length < p → p < 16 →
      peek (ExtractAddress buf pos false addr false).2.1 p = 255) := by
  have hdigit : ∀ j, j < num.length → 48 ≤ peek num j ∧ peek num j ≤ 57 :=
    fun j hj => hdig _ (peek_mem num j hj)
  have hrl : (num.length + (num.length % 2 + 4)) % 256 = num.length + num.length % 2 + 4 := by
    omega
  have hmax : (num.length + num.length % 2 + 4 + 252) % 256 = num.length + num.length % 2 := by
    omega
  have hchar : ∀ q, q < num.length + num.length % 2 →
      peek buf (pos + 2 + 2 + (0 + q)) % 256 ≠ 0 := by
    intro q hq
    rw [show pos + 2 + 2 + (0 + q) = pos + 4 + q by omega, hrec q hq]
    split_ifs with h
    · have := hdigit _ h; omega
    · decide
  have key := decStrLoop_spec buf (pos + 2 + 2) 0 (num.length + num.length % 2)
    (num.length + num.length % 2) 0 addr (by omega) (le_refl _) hchar (Or.inl rfl)
  simp only [Nat.zero_div, Nat.zero_mul, Nat.zero_add] at key
  obtain ⟨k1, k2, k3⟩ := key
  have hE : (num.length + num.length % 2) % 2 = 0 := by omega
  have hne1 : ¬ ((num.length + num.length % 2) % 2 = 1) := by omega
  -- the decoded buffer before the terminator is stored
  have hdec : ∀ p, peek (DecStrToSemiOctetStr buf (pos + 2 + 2) addr 0
      (num.length + num.length % 2)).2 p
      = if p < num.length + num.length % 2 then
          (if p < num.length then peek num p else 70) else peek addr p := by
    intro p
    unfold DecStrToSemiOctetStr
    simp only [k1, hne1, if_false]
    rw [k3 p]
    by_cases hp : p < num.length + num.length % 2
    · have hs : swapIndex (p - 0) < num.length + num.length % 2 := by
        unfold swapIndex; split_ifs <;> omega
      have hss : swapIndex (swapIndex (p - 0)) = p := by
        unfold swapIndex; split_ifs <;> omega
      simp only [Nat.zero_le, true_and, hs, hp, if_true]
      rw [show pos + 2 + 2 + swapIndex (p - 0) = pos + 4 + swapIndex (p - 0) by omega,
        hrec _ hs, hss]
      split_ifs with h
      · have := hdigit _ h; omega
      · rfl
    · have hs : ¬ swapIndex (p - 0) < num.length + num.length % 2 := by
        unfold swapIndex; split_ifs <;> omega
      simp only [Nat.zero_le, true_and, hs, hp, if_false]
  have hd1' : (DecStrToSemiOctetStr buf (pos + 2 + 2) addr 0
      (num.length + num.length % 2)).1 = num.length + num.length % 2 := by
    unfold DecStrToSemiOctetStr
    simp only [k1, hne1, if_false]
  have haddrLen : (if (num.length + num.length % 2) ≠ 0 ∧
      peek (DecStrToSemiOctetStr buf (pos + 2 + 2) addr 0 (num.length + num.length % 2)).2
        (num.length + num.length % 2 - 1) = 70
      then num.length + num.length % 2 - 1 else num.length + num.length % 2) = num.length := by
    rw [hdec]
    by_cases hodd : num.length % 2 = 1
    · have h1 : num.length + num.length % 2 - 1 < num.length + num.length % 2 := by omega
      have h2 : ¬ (num.length + num.length % 2 - 1 < num.length) := by omega
      simp only [h1, h2, if_true, if_false]
      rw [if_pos ⟨by omega, trivial⟩]; omega
    · have h1 : num.length + num.length % 2 - 1 < num.length + num.length % 2 := by omega
      have h2 : num.length + num.length % 2 - 1 < num.length := by omega
      simp only [h1, h2, if_true]
      have := hdigit _ h2
      rw [if_neg (by omega)]; omega
  have hnz : ¬ (num.length + num.length % 2 + 4 = 0) := by omega
  have hm : (num.length + 1) % 256 = num.length + 1 := by omega
  have hpos2 : (HexStrToUint8 buf pos).2 = pos + 2 := rfl
  unfold ExtractAddress
  simp only [hpos2, Bool.false_eq_true, if_false, hlen, hrl, hmax, hd1', haddrLen,
    ne_eq, hnz, not_false_eq_true, if_true, hm, sizeofTPAddress]
  refine ⟨trivial, ?_, ?_, ?_⟩
  · intro p hp
    split_ifs
    · rw [peek_blit, peek_poke, hdec]
      simp only [List.length_replicate]
      rw [if_neg (by omega), if_neg (by omega), if_pos (by omega), if_pos hp]
    · rw [peek_poke, hdec]
      rw [if_neg (by omega), if_pos (by omega), if_pos hp]
  · split_ifs
    · rw [peek_blit, peek_poke]
      simp only [List.length_replicate]
      rw [if_neg (by omega)]
      simp
    · rw [peek_poke]
      simp
  · intro p hp1 hp2
    rw [if_pos (by omega), peek_blit]
    simp only [List.length_replicate]
    rw [if_pos (by omega)]
    unfold peek
    rw [List.getD_eq_getElem _ _ (by simp; omega)]
    simp

theorem cstr_of_peek (num : List Nat) : ∀ (l : List Nat),
    (∀ p, p < num.length → peek l p = peek num p) → peek l num.length = 0 →
    (∀ c ∈ num, c ≠ 0) → cstr l 0 = num := by
  induction num with
  | nil =>
    intro l _ h0 _
    cases l with
    | nil => simp [cstr]
    | cons a t =>
      have : a = 0 := by simpa [peek] using h0
      simp [cstr, this]
  | cons a t ih =>
    intro l hp h0 hnz
    cases l with
    | nil =>
      have h := hp 0 (by simp)
      have ha : a ≠ 0 := hnz a (by simp)
      simp [peek] at h
      exact absurd h.symm ha
    | cons b l' =>
      have hb : b = a := by simpa [peek] using hp 0 (by simp)
      have ha : a ≠ 0 := hnz a (by simp)
      have ih' := ih l' (by
          intro p hpt
          have := hp (p + 1) (by simp; omega)
          simpa [peek] using this)
        (by simpa [peek] using h0)
        (fun c hc => hnz c (by simp [hc]))
      simp only [cstr, List.drop_zero] at ih' ⊢
      subst hb
      simp [List.takeWhile_cons, ha, ih']

theorem peek_blit_lt (buf : List Nat) (pos : Nat) (bs : List Nat) (j : Nat) (h : j < pos) :
    peek (blit buf pos bs) j = peek buf j := by
  rw [peek_blit, if_neg (by omega)]

theorem hexPair_length (n : Nat) : (hexPair n).length = 2 := rfl

theorem createPDU_address_record (number msg out : List Nat) (dom : Bool)
    (hd : number.length ≤ 15) (hdig : ∀ c ∈ number, 48 ≤ c ∧ c ≤ 57) :
    (HexStrToUint8 (CreateSMSSubmitPDU number msg dom out).2 6).1 = number.length ∧
    ∀ q, q < number.length + number.length % 2 →
      peek (CreateSMSSubmitPDU number msg dom out).2 (6 + 4 + q)
        = if swapIndex q < number.length then peek number (swapIndex q) else 70 := by
  have hnz : ∀ c ∈ number, c % 256 ≠ 0 := by
    intro c hc; have := hdig c hc; omega
  have henc := decStr_encode number
    (blit (blit (blit out 0 (hexPair 0)) 2 (hexPair 17)) 4 (hexPair 0)) 10 (by omega) hnz
  obtain ⟨e1, e2⟩ := henc
  have hfin : ∀ p, 6 ≤ p → p < 10 + (number.length + number.length % 2) →
      peek (CreateSMSSubmitPDU number msg dom out).2 p
        = if p < 8 then peek (hexPair number.length) (p - 6)
          else if p < 10 then peek (hexPair (if dom then 129 else 145)) (p - 8)
          else (if swapIndex (p - 10) < number.length
            then peek number (swapIndex (p - 10)) % 256 else 70) := by
    intro p hp6 hpE
    have hskip : (number.length + 1) % 256 / 2 * 2 = number.length + number.length % 2 := by
      omega
    unfold CreateSMSSubmitPDU Pack7BitToPDU Uint8ToHexStr
    simp only [Nat.zero_add, e1, hskip]
    rw [peek_blit_lt _ _ _ _ (by omega), peek_blit_lt _ _ _ _ (by omega),
      peek_blit_lt _ _ _ _ (by omega), peek_blit_lt _ _ _ _ (by omega)]
    rw [peek_blit, peek_blit, e2]
    simp only [hexPair_length]
    by_cases h8 : p < 8
    · rw [if_neg (by omega), if_pos (by omega), if_pos h8]
    · by_cases h10 : p < 10
      · rw [if_pos (by omega), if_neg h8, if_pos h10]
      · rw [if_neg (by omega), if_neg (by omega), if_pos (by omega), if_neg h8, if_neg h10]
  constructor
  · have h6 := hfin 6 (by omega) (by omega)
    have h7 := hfin 7 (by omega) (by omega)
    simp only [show (6:Nat) < 8 by omega, show (7:Nat) < 8 by omega, if_true] at h6 h7
    rw [HexStrToUint8_of_peek _ 6 number.length (by omega) h6 h7]
  · intro q hq
    have h := hfin (6 + 4 + q) (by omega) (by omega)
    rw [h, if_neg (by omega), if_neg (by omega)]
    rw [show 6 + 4 + q - 10 = q by omega]
    split_ifs with hs
    · have := hdig _ (peek_mem number _ hs); omega
    · rfl

/-- C2: for every phone number of 1 to 15 decimal digits, any message, either
number type and any buffers, decoding the address record that
`CreateSMSSubmitPDU` has written (it starts at character 6 of the PDU: the digit
count, the type byte, the semi-octets of `DecStrToSemiOctetStr`) with
`ExtractAddress` in TPDU mode leaves an address buffer whose NUL-terminated content
is the original number. -/
theorem phone_number_roundtrip (number msg out addr : List Nat) (dom : Bool)
    (h1 : 1 ≤ number.length) (h15 : number.length ≤ 15)
    (hdig : ∀ c ∈ number, 48 ≤ c ∧ c ≤ 57) :
    cstr (ExtractAddress (CreateSMSSubmitPDU number msg dom out).2 6 false addr false).2.1 0
      = number := by
  obtain ⟨r1, r2⟩ := createPDU_address_record number msg out dom h15 hdig
  obtain ⟨_, d1, d2, _⟩ := extractAddress_decode (CreateSMSSubmitPDU number msg dom out).2 6
    number addr h1 h15 hdig r1 r2
  exact cstr_of_peek number _ d1 d2 (fun c hc => by have := hdig c hc; omega)

/-- C2 at the number "5551234567" (and, odd length, "15189723132"). -/
theorem phone_number_roundtrip_witness :
    (1 ≤ (bytes "5551234567").length ∧ (bytes "5551234567").length ≤ 15 ∧
      ∀ c ∈ bytes "5551234567", 48 ≤ c ∧ c ≤ 57) ∧
    cstr (ExtractAddress (CreateSMSSubmitPDU (bytes "5551234567") (bytes "hello") true []).2 6
      false (List.replicate 16 0) false).2.1 0 = bytes "5551234567" ∧
    cstr (ExtractAddress (CreateSMSSubmitPDU (bytes "15189723132") (bytes "hello") false []).2 6
      false (List.replicate 16 0) false).2.1 0 = bytes "15189723132" :=
  ⟨by decide,
   phone_number_roundtrip (bytes "5551234567") (bytes "hello") [] (List.replicate 16 0) true
     (by decide) (by decide) (by decide),
   phone_number_roundtrip (bytes "15189723132") (bytes "hello") [] (List.replicate 16 0) false
     (by decide) (by decide) (by decide)⟩

/-! ### C3: the SMS-SUBMIT example -/

/-- C3 as stated fails: in the PDU for "5551234567" and "hello" the first octet of
the packed body is not 0x68 (the other three octets are as stated). -/
theorem hello_pdu_body_first_octet_ne_0x68 :
    ¬ ((HexStrToUint8 (CreateSMSSubmitPDU (bytes "5551234567") (bytes "hello") true []).2 2).1
          = 0x11 ∧
       (HexStrToUint8 (CreateSMSSubmitPDU (bytes "5551234567") (bytes "hello") true []).2 20).1
          = 0x00 ∧
       (HexStrToUint8 (CreateSMSSubmitPDU (bytes "5551234567") (bytes "hello") true []).2 22).1
          = 0x00 ∧
       (HexStrToUint8 (CreateSMSSubmitPDU (bytes "5551234567") (bytes "hello") true []).2 28).1
          = 0x68) := by
  decide!

/-- C3, amended: `CreateSMSSubmitPDU` for the domestic number "5551234567" and the
text "hello" writes the PDU 0011000A8155153254760000A705E8329BFD06 and returns 18.
The octet after the zero-length SMSC field is 0x11, the protocol byte and the
data-coding-scheme byte are 0x00, the body is announced with length 5, and its
first packed octet is 0xE8: 0x68 for 'h' plus the low bit of 'e' in bit 7. -/
theorem hello_pdu_example :
    (CreateSMSSubmitPDU (bytes "5551234567") (bytes "hello") true []).1 = 18 ∧
    cstr (CreateSMSSubmitPDU (bytes "5551234567") (bytes "hello") true []).2 0
      = bytes "0011000A8155153254760000A705E8329BFD06" ∧
    (HexStrToUint8 (CreateSMSSubmitPDU (bytes "5551234567") (bytes "hello") true []).2 0).1
      = 0x00 ∧
    (HexStrToUint8 (CreateSMSSubmitPDU (bytes "5551234567") (bytes "hello") true []).2 2).1
      = 0x11 ∧
    (HexStrToUint8 (CreateSMSSubmitPDU (bytes "5551234567") (bytes "hello") true []).2 20).1
      = 0x00 ∧
    (HexStrToUint8 (CreateSMSSubmitPDU (bytes "5551234567") (bytes "hello") true []).2 22).1
      = 0x00 ∧
    (HexStrToUint8 (CreateSMSSubmitPDU (bytes "5551234567") (bytes "hello") true []).2 26).1
      = 5 ∧
    (HexStrToUint8 (CreateSMSSubmitPDU (bytes "5551234567") (bytes "hello") true []).2 28).1
      = 0xE8 ∧
    0xE8 = 0x68 + (0x65 % 2) * 2 ^ 7 := by
  decide!

/-! ### C4, C5: the command hash table -/

/-- C4: the table holds 120 constants, they are pairwise distinct, and so are the
hashes `ParseCommandResponse` computes for the 120 mnemonics; hence two entries
of the table with the same hash are the same entry. -/
theorem command_hashes_distinct :
    commandHashTable.length = 120 ∧
    (commandHashTable.map Prod.snd).Nodup ∧
    (commandHashTable.map (fun p => commandHash (bytes p.1))).Nodup ∧
    (∀ p ∈ commandHashTable, ∀ q ∈ commandHashTable, p.2 = q.2 → p = q) := by
  have hnd : (commandHashTable.map Prod.snd).Nodup := by decide!
  refine ⟨by decide, hnd, by decide!, ?_⟩
  intro p hp q hq hpq
  exact List.inj_on_of_nodup_map hnd hp hq hpq

/-- C5: every constant of the table is the hash that the scan of
`ParseCommandResponse` computes, in 16-bit unsigned arithmetic, for the mnemonic
named beside it; for "CFUN" the successive values are 4489, 7840, 1883, 5504. -/
theorem command_hash_constants_match :
    commandHashTable.map (fun p => commandHash (bytes p.1)) = commandHashTable.map Prod.snd ∧
    hashStep 0 67 = 4489 ∧ hashStep 4489 70 = 7840 ∧ hashStep 7840 85 = 1883 ∧
    hashStep 1883 78 = 5504 ∧ bytes "CFUN" = [67, 70, 85, 78] ∧
    commandHash (bytes "CFUN") = kCFUNCmdHash ∧ kCFUNCmdHash = 5504 ∧
    commandHash (bytes "ATE0") = kATE0CmdHash := by
  decide!

/-! ### C6, C7, C8: the guards of SendSMS and SendCommand -/

theorem passthroughWrite_eq (s : SIM7000) (bs : List Nat) :
    passthroughWrite s bs = { s with passthroughOut :=
      if s.mPassthrough then s.passthroughOut ++ bs else s.passthroughOut } := by
  cases s
  simp only [passthroughWrite]
  split <;> simp_all

theorem PauseRx_eq (s : SIM7000) :
    PauseRx s = { s with mRxPaused := true, serialOut :=
      if s.mRxPaused then s.serialOut else s.serialOut ++ [19] } := by
  cases s
  simp only [PauseRx, serialWrite]
  split <;> simp_all

theorem ResumeRx_eq (s : SIM7000) :
    ResumeRx s = { s with mRxPaused := false, serialOut :=
      if s.mRxPaused then s.serialOut ++ [17] else s.serialOut } := by
  cases s
  simp only [ResumeRx, serialWrite]
  split <;> simp_all

/-- C6, evaluated on the code: the budget computed by `SendSMS` is 549 characters;
with the modem connected and idle, `SendSMS` accepts a text of 160 characters for
the number "5551234567", and `CreateSMSSubmitPDU` then writes 308 hex characters
and a NUL, 309 bytes, into `mTxBuffer`, which has `SIM7000_TX_BUFFER_SIZE` = 300. -/
theorem sendSMS_overruns_tx_buffer :
    ((kTxBufferSize - kPDUSubmitPreambleSize) * 8) / 7 = 549 ∧
    SIM7000.init.mTxBuffer.length = SIM7000_TX_BUFFER_SIZE ∧
    (SendSMS { SIM7000.init with rxPin := true, mConnectionStatus := 1 }
      (bytes "5551234567") (List.replicate 160 97)).1 = true ∧
    (SendSMS { SIM7000.init with rxPin := true, mConnectionStatus := 1 }
      (bytes "5551234567") (List.replicate 160 97)).2.mTxBuffer.length = 309 ∧
    (cstr (SendSMS { SIM7000.init with rxPin := true, mConnectionStatus := 1 }
      (bytes "5551234567") (List.replicate 160 97)).2.mTxBuffer 0).length = 308 ∧
    SIM7000_TX_BUFFER_SIZE < 309 := by
  decide!

/-- C7: when `SMSStatus` is not Idle, `SendSMS` returns false and leaves the whole
state as it was: nothing is written to the modem, and `SMSStatus` and the transmit
buffer are unchanged. -/
theorem sendSMS_refused_unless_idle (s : SIM7000) (inPhoneNumber inMessage : List Nat)
    (h : s.mSMSStatus ≠ eSMSIdle) :
    SendSMS s inPhoneNumber inMessage = (false, s) := by
  unfold SendSMS ClearToSendSMS
  simp [h]

/-- C7 at a connected modem whose `SMSStatus` is Sending. -/
theorem sendSMS_refused_unless_idle_witness :
    ({ SIM7000.init with mSMSStatus := eSMSSending, rxPin := true, mConnectionStatus := 1 }
        : SIM7000).mSMSStatus ≠ eSMSIdle ∧
    SendSMS { SIM7000.init with mSMSStatus := eSMSSending, rxPin := true, mConnectionStatus := 1 }
      (bytes "5551234567") (bytes "hello")
      = (false, { SIM7000.init with mSMSStatus := eSMSSending, rxPin := true,
                                    mConnectionStatus := 1 }) :=
  ⟨by decide, sendSMS_refused_unless_idle _ _ _ (by decide)⟩

/-- C8 as stated fails: with `CommandState` Timeout and the readiness line high,
`SendCommand` returns true and sends the command. -/
theorem sendCommand_accepted_from_timeout :
    ({ SIM7000.init with mCommandState := eTimeout, rxPin := true } : SIM7000).mCommandState
      ≠ eReady ∧
    (SendCommand { SIM7000.init with mCommandState := eTimeout, rxPin := true }
      (bytes "AT") 0 1000).1 = true ∧
    (SendCommand { SIM7000.init with mCommandState := eTimeout, rxPin := true }
      (bytes "AT") 0 1000).2.serialOut = bytes "AT" ++ [13, 10] := by
  decide

/-- C8, amended: `SendCommand` returns true exactly when `CommandState` is not Busy
and the readiness line is high.  When the state is Busy or the line is low it
returns false, sends nothing and leaves `CommandState` alone; otherwise (from
Ready, Timeout or Error, line high) it sends the command followed by CR LF and
`CommandState` becomes Busy. -/
theorem sendCommand_gate (s : SIM7000) (inCommandStr : List Nat)
    (inCommandHash inCommandTimeout : Nat) :
    ((SendCommand s inCommandStr inCommandHash inCommandTimeout).1 = true ↔
      (s.mCommandState ≠ eBusy ∧ s.rxPin = true)) ∧
    ((s.mCommandState = eBusy ∨ s.rxPin = false) →
      (SendCommand s inCommandStr inCommandHash inCommandTimeout).1 = false ∧
      (SendCommand s inCommandStr inCommandHash inCommandTimeout).2.serialOut = s.serialOut ∧
      (SendCommand s inCommandStr inCommandHash inCommandTimeout).2.mCommandState
        = s.mCommandState) ∧
    ((s.mCommandState ≠ eBusy ∧ s.rxPin = true) →
      (SendCommand s inCommandStr inCommandHash inCommandTimeout).2.serialOut
        = s.serialOut ++ inCommandStr ++ [13, 10] ∧
      (SendCommand s inCommandStr inCommandHash inCommandTimeout).2.mCommandState = eBusy) := by
  unfold SendCommand ClearToSend IsBusy
  by_cases hb : s.mCommandState = eBusy
  · simp [hb, passthroughWrite_eq]
  · by_cases hp : s.rxPin = true
    · simp [hb, hp, passthroughWrite_eq, serialWrite, FlushRxBuffer]
    · simp [hb, hp, passthroughWrite_eq]

/-! ### C9: the Error state -/

theorem UpdateTime_mCommandState (s : SIM7000) (t : Nat) :
    (UpdateTime s t).mCommandState = s.mCommandState := by
  unfold UpdateTime; split <;> rfl

theorem MessageRead_mCommandState (s : SIM7000) (m : List Nat) (n : Nat) (a b : List Nat) :
    (MessageRead s m n a b).mCommandState = s.mCommandState := by
  unfold MessageRead
  simp only [passthroughWrite_eq]
  split_ifs <;> rfl

theorem HandleMultiLineCommand_mCommandState (s : SIM7000) :
    (HandleMultiLineCommand s).2.mCommandState = s.mCommandState := by
  unfold HandleMultiLineCommand
  split
  · simp only [MessageRead_mCommandState]
  · rfl

theorem HandleMultiLineCommand_buffer (s : SIM7000) (h : (HandleMultiLineCommand s).1 = false) :
    (HandleMultiLineCommand s).2 = s := by
  unfold HandleMultiLineCommand at h ⊢
  by_cases hc : s.mCommandHash = kCMGLCmdHash ∨ s.mCommandHash = kCMGRCmdHash
  · rw [if_pos hc] at h
    exact absurd h (by simp)
  · rw [if_neg hc]

theorem ParseDispatch_error (h : Host) (s : SIM7000) (hash p c : Nat)
    (hErr : s.mCommandState = eError) :
    (ParseDispatch h s hash p c).1.mCommandState = eError := by
  unfold ParseDispatch UpdateTime HandleNoSIMCardFound
  simp only [apply_ite Prod.fst, apply_ite SIM7000.mCommandState, hErr, ite_self]

theorem ParseCommandResponse_error (h : Host) (s : SIM7000)
    (hErr : s.mCommandState = eError) :
    (ParseCommandResponse h s).mCommandState = eError := by
  unfold ParseCommandResponse
  simp only [apply_ite SIM7000.mCommandState, ParseDispatch_error, hErr, ite_self]

theorem ClassifyLine_error (h : Host) (s : SIM7000) (hErr : s.mCommandState = eError)
    (hline : ¬ completionLine s) :
    (ClassifyLine h s).mCommandState = eError := by
  unfold completionLine at hline
  unfold ClassifyLine
  simp only [ParseOtherCommandResponse, HandleCommandFailed]
  by_cases h42 : peek s.mRxBuffer s.mRxBufferPtr = 42
  · rw [if_pos h42]
    split
    · rw [UpdateTime_mCommandState]; exact hErr
    · exact hErr
  rw [if_neg h42]
  by_cases h43 : peek s.mRxBuffer s.mRxBufferPtr = 43
  · rw [if_pos h43]; exact ParseCommandResponse_error h s hErr
  rw [if_neg h43]
  by_cases h65 : peek s.mRxBuffer s.mRxBufferPtr = 65
  · rw [if_pos h65]; split <;> exact hErr
  rw [if_neg h65]
  by_cases h69 : peek s.mRxBuffer s.mRxBufferPtr = 69
  · rw [if_pos h69]; split
    · rfl
    · exact hErr
  rw [if_neg h69]
  by_cases h68 : peek s.mRxBuffer s.mRxBufferPtr = 68
  · rw [if_pos h68]; exact hErr
  rw [if_neg h68]
  by_cases h78 : peek s.mRxBuffer s.mRxBufferPtr = 78
  · rw [if_pos h78]; split <;> exact hErr
  rw [if_neg h78]
  by_cases h79 : peek s.mRxBuffer s.mRxBufferPtr = 79
  · rw [if_pos h79]
    by_cases h75 : peek s.mRxBuffer (s.mRxBufferPtr + 1) = 75
    · exact absurd (Or.inl ⟨h79, h75⟩) hline
    · rw [if_neg h75]; exact hErr
  rw [if_neg h79]
  by_cases h82 : peek s.mRxBuffer s.mRxBufferPtr = 82
  · rw [if_pos h82]; split <;> exact hErr
  rw [if_neg h82]
  by_cases h83 : peek s.mRxBuffer s.mRxBufferPtr = 83
  · rw [if_pos h83]
    by_cases hc : (CmpBufferP (bytes "SMS Ready") s.mRxBuffer s.mRxBufferPtr).1 = true
    · exact absurd (Or.inr ⟨h83, hc⟩) hline
    · rw [if_neg hc]; exact hErr
  rw [if_neg h83]
  exact hErr

theorem HandleCommandResponse_error (h : Host) (s : SIM7000)
    (hErr : s.mCommandState = eError) (hline : ¬ completionLine s) :
    (HandleCommandResponse h s).mCommandState = eError := by
  have e1 : (noteLine s).mCommandState = eError := hErr
  have e2 : ¬ completionLine (noteLine s) := hline
  unfold HandleCommandResponse
  generalize noteLine s = s0 at e1 e2 ⊢
  clear hErr hline
  revert s0
  clear s
  intro s hErr hline
  simp only [PauseRx_eq, ResumeRx_eq, FlushRxBuffer]
  by_cases hh : s.mCommandHash ≠ 0
  · rw [if_pos hh]
    by_cases hm : (HandleMultiLineCommand
        { s with mRxPaused := true,
                 serialOut := if s.mRxPaused = true then s.serialOut else s.serialOut ++ [19],
                 mCommandTimeout := s.mCommandTimeout.Start s.millis }).1 = true
    · simp only [hm, Bool.not_true, Bool.false_eq_true, if_false]
      rw [HandleMultiLineCommand_mCommandState]
      exact hErr
    · have hm' := Bool.eq_false_iff.mpr hm
      simp only [hm', Bool.not_false, if_true]
      rw [HandleMultiLineCommand_buffer _ hm']
      exact ClassifyLine_error h _ hErr hline
  · rw [if_neg hh]
    simp only [Bool.not_false, if_true]
    exact ClassifyLine_error h _ hErr hline

theorem UpdatePins_mCommandState (s : SIM7000) :
    (UpdatePins s).mCommandState = s.mCommandState := by
  unfold UpdatePins
  simp only [apply_ite SIM7000.mCommandState, ite_self]

/-- C9 as stated fails: from Error a received line "OK", or "SMS Ready", sets
`CommandState` to Ready without any call of `ClearError`; and after a command
sent with a 1000 ms timeout is answered by "ERROR" (state Error), the `Update`
made 1000 ms later handles the expiry of the command timer and sets Timeout.
Also, from Error with a message index pending and the readiness line high,
`Update` itself sends AT+CMGR and the state is Busy. -/
theorem error_left_by_ok_line_and_by_timer :
    (Update hostNoClock { SIM7000.init with mCommandState := eError }
      (bytes "OK" ++ [13, 10])).mCommandState = eReady ∧
    (Update hostNoClock { SIM7000.init with mCommandState := eError }
      (bytes "SMS Ready" ++ [13, 10])).mCommandState = eReady ∧
    (Update hostNoClock (SendCommand { SIM7000.init with rxPin := true } (bytes "AT+CMGD=1") 0 1000).2
      (bytes "ERROR" ++ [13, 10])).mCommandState = eError ∧
    (Update hostNoClock
      { Update hostNoClock
          (SendCommand { SIM7000.init with rxPin := true } (bytes "AT+CMGD=1") 0 1000).2
          (bytes "ERROR" ++ [13, 10]) with millis := 1000 } []).mCommandState = eTimeout ∧
    (Update hostNoClock errorWithPendingMessage []).mCommandState = eBusy ∧
    (Update hostNoClock errorWithPendingMessage []).serialOut = bytes "AT+CMGR=0" ++ [13, 10] := by
  decide!

/-- C9, amended: from Error, `CommandState` is still Error after the classifier has
handled any line that does not start with "OK" or "SMS Ready", after the pin-timer
block of `Update`, and after the timer block of `Update` when neither the command
timer nor the levels timer has passed; `ClearError` sets it to Ready. -/
theorem error_state_persistence (h : Host) (s : SIM7000) (hErr : s.mCommandState = eError) :
    (¬ completionLine s → (HandleCommandResponse h s).mCommandState = eError) ∧
    (UpdatePins s).mCommandState = eError ∧
    (s.mCommandTimeout.Passed s.millis = false → s.mCheckLevelsPeriod.Passed s.millis = false →
      (UpdateTimers s).mCommandState = eError) ∧
    (ClearError s).mCommandState = eReady := by
  refine ⟨HandleCommandResponse_error h s hErr, ?_, ?_, rfl⟩
  · rw [UpdatePins_mCommandState]; exact hErr
  · intro h1 h2
    unfold UpdateTimers
    simp only [h1, h2, Bool.false_eq_true, if_false]
    exact hErr

/-- C9, amended, at a state in Error that receives the line "+CREG: 1". -/
theorem error_state_persistence_witness :
    errorWithCregLine.mCommandState = eError ∧
    (HandleCommandResponse hostNoClock errorWithCregLine).mCommandState = eError ∧
    (HandleCommandResponse hostNoClock errorWithCregLine).mConnectionStatus = 1 :=
  ⟨by decide,
   (error_state_persistence hostNoClock errorWithCregLine (by decide)).1 (by decide),
   by decide!⟩

/-! ### C10: the command timeout -/

theorem UpdatePins_inFlight (T : MSPeriod) (s : SIM7000) (hI : inFlight T s) :
    inFlight T (UpdatePins s) ∧ (UpdatePins s).millis = s.millis ∧
    (UpdatePins s).mCheckLevelsPeriod = s.mCheckLevelsPeriod := by
  obtain ⟨h1, h2, h3, h4⟩ := hI
  unfold UpdatePins inFlight
  by_cases hp : s.mPinPeriod.Passed s.millis = true
  · rw [if_pos hp]
    have : ¬ (s.mSleepState = eWakingUp) := by rw [h2]; decide
    rw [if_neg this]
    exact ⟨⟨h1, h2, h3, h4⟩, rfl, rfl⟩
  · rw [if_neg hp]
    exact ⟨⟨h1, h2, h3, h4⟩, rfl, rfl⟩

theorem UpdateMessages_busy (s : SIM7000) (hB : s.mCommandState = eBusy) :
    UpdateMessages s = s := by
  unfold UpdateMessages ClearToSendSMS ConnectedAndClearToSend ClearToSend IsBusy
  simp [hB]

theorem SendCommand_busy (s : SIM7000) (c : List Nat) (a b : Nat) (hB : s.mCommandState = eBusy) :
    SendCommand s c a b = (false, { s with passthroughOut :=
      if s.mPassthrough then s.passthroughOut ++ (bytes "busy" ++ [10]) else s.passthroughOut }) := by
  unfold SendCommand ClearToSend IsBusy
  simp [hB, passthroughWrite_eq]

theorem CheckLevels_inFlight (T : MSPeriod) (s : SIM7000) (hI : inFlight T s) :
    inFlight T (CheckLevels s) := by
  obtain ⟨h1, h2, h3, h4⟩ := hI
  unfold CheckLevels SendCommandIgnored inFlight
  simp only [SendCommand_busy s _ _ _ h1]
  split_ifs <;> exact ⟨h1, h2, h3, h4⟩

theorem UpdateTimers_inFlight (T : MSPeriod) (s : SIM7000) (hI : inFlight T s)
    (hT : T.Passed s.millis = false) : inFlight T (UpdateTimers s) := by
  unfold UpdateTimers
  rw [hI.2.2.2, hT]
  simp only [Bool.false_eq_true, if_false]
  split
  · exact CheckLevels_inFlight T s hI
  · exact hI

theorem Update_inFlight (h : Host) (T : MSPeriod) (s : SIM7000) (t : Nat) (b : Bool)
    (hI : inFlight T s) (hT : T.Passed t = false) :
    inFlight T (Update h { s with millis := t, rxPin := b } []) := by
  have hI' : inFlight T { s with millis := t, rxPin := b } := hI
  obtain ⟨p1, p2, _⟩ := UpdatePins_inFlight T _ hI'
  unfold Update
  simp only [List.foldl_nil]
  rw [UpdateMessages_busy _ p1.1]
  exact UpdateTimers_inFlight T _ p1 (by rw [p2]; exact hT)

theorem runUpdates_inFlight (h : Host) (T : MSPeriod) (env : List (Nat × Bool)) :
    ∀ s, inFlight T s → (∀ e ∈ env, T.Passed e.1 = false) →
      inFlight T (runUpdates h s env) := by
  induction env with
  | nil => intro s hI _; exact hI
  | cons e rest ih =>
    intro s hI hall
    unfold runUpdates
    simp only [List.foldl_cons]
    exact ih _ (Update_inFlight h T s e.1 e.2 hI (hall e (by simp)))
      (fun e' he' => hall e' (by simp [he']))

theorem Update_timeout (h : Host) (T : MSPeriod) (s : SIM7000) (t : Nat) (b : Bool)
    (hI : inFlight T s) (hT : T.Passed t = true)
    (hL : s.mCheckLevelsPeriod.Passed t = false) :
    (Update h { s with millis := t, rxPin := b } []).mCommandState = eTimeout := by
  have hI' : inFlight T { s with millis := t, rxPin := b } := hI
  obtain ⟨p1, p2, p3⟩ := UpdatePins_inFlight T _ hI'
  unfold Update
  simp only [List.foldl_nil]
  rw [UpdateMessages_busy _ p1.1]
  generalize UpdatePins { s with millis := t, rxPin := b } = u at p1 p2 p3
  obtain ⟨q1, q2, q3, q4⟩ := p1
  have hT' : u.mCommandTimeout.Passed u.millis = true := by rw [q4, p2]; exact hT
  have hL' : u.mCheckLevelsPeriod.Passed u.millis = false := by rw [p3, p2]; exact hL
  have hne : ¬ (u.mSleepState = eWakingUp) := by rw [q2]; decide
  have hk : ¬ ((0 : Nat) = kATE0CmdHash) := by decide
  unfold UpdateTimers HandleCommandTimeout
  simp only [hT', if_true, passthroughWrite_eq, q3, ne_eq, hne, not_false_eq_true, hk,
    false_and, if_false, hL', Bool.false_eq_true]

theorem SendCommand_inFlight (s : SIM7000) (cmd : List Nat) (t : Nat)
    (hReady : s.mCommandState = eReady) (hRun : s.mSleepState = eRunning)
    (hPin : s.rxPin = true) :
    (SendCommand s cmd 0 t).1 = true ∧
    inFlight { mPeriod := t % 65536 % 2 ^ 32, mStart := s.millis % 2 ^ 32 }
      (SendCommand s cmd 0 t).2 ∧
    (SendCommand s cmd 0 t).2.mCheckLevelsPeriod = s.mCheckLevelsPeriod := by
  unfold SendCommand ClearToSend IsBusy inFlight
  simp [hReady, hPin, passthroughWrite_eq, serialWrite, FlushRxBuffer, hRun, MSPeriod.Set,
    MSPeriod.Start]

/-- C10 as stated fails: with the levels check due at the same moment, the first
`Update` after the 100 ms deadline ends with `CommandState` Busy, not Timeout:
`HandleCommandTimeout` sets Timeout and `CheckLevels` then sends AT+CSQ;+CBC. -/
theorem timeout_masked_by_levels_check :
    readyWithLevelsCheck.mCommandState = eReady ∧
    readyWithLevelsCheck.mSleepState = eRunning ∧
    readyWithLevelsCheck.rxPin = true ∧
    (SendCommand readyWithLevelsCheck (bytes "AT") 0 100).1 = true ∧
    (Update hostNoClock
      { (SendCommand readyWithLevelsCheck (bytes "AT") 0 100).2 with millis := 99 } []).mCommandState
      = eBusy ∧
    (Update hostNoClock
      { (SendCommand readyWithLevelsCheck (bytes "AT") 0 100).2 with millis := 100 } []).mCommandState
      = eBusy ∧
    (Update hostNoClock
      { (SendCommand readyWithLevelsCheck (bytes "AT") 0 100).2 with millis := 100 } []).serialOut
      = bytes "AT" ++ [13, 10] ++ bytes "AT+CSQ;+CBC" ++ [13, 10] := by
  decide!

/-- C10, amended: from Ready, modem Running, readiness line high,
`SendCommand(text, 0, 100)` succeeds and starts the command timer at the current
clock.  With no byte received, `CommandState` is Busy after every `Update` made
while fewer than 100 ms have elapsed on the 32-bit clock, whatever the readiness
line does.  At the first `Update` made when 100 ms or more have elapsed it becomes
Timeout, provided the levels timer has not passed at that `Update`; `ClearError`
then returns it to Ready. -/
theorem command_timeout_at_deadline (h : Host) (s : SIM7000) (cmd : List Nat)
    (env : List (Nat × Bool)) (t : Nat) (b : Bool)
    (hReady : s.mCommandState = eReady) (hRun : s.mSleepState = eRunning)
    (hPin : s.rxPin = true)
    (hBefore : ∀ e ∈ env,
      ({ mPeriod := 100, mStart := s.millis % 2 ^ 32 } : MSPeriod).Elapsed e.1 < 100)
    (hAfter : 100 ≤ ({ mPeriod := 100, mStart := s.millis % 2 ^ 32 } : MSPeriod).Elapsed t)
    (hLevels : (runUpdates h (SendCommand s cmd 0 100).2 env).mCheckLevelsPeriod.Passed t
      = false) :
    (SendCommand s cmd 0 100).1 = true ∧
    (SendCommand s cmd 0 100).2.mCommandState = eBusy ∧
    (SendCommand s cmd 0 100).2.mCommandTimeout
      = { mPeriod := 100, mStart := s.millis % 2 ^ 32 } ∧
    (∀ k, (runUpdates h (SendCommand s cmd 0 100).2 (env.take k)).mCommandState = eBusy) ∧
    (Update h { runUpdates h (SendCommand s cmd 0 100).2 env with millis := t, rxPin := b }
      []).mCommandState = eTimeout ∧
    (ClearError (Update h
      { runUpdates h (SendCommand s cmd 0 100).2 env with millis := t, rxPin := b }
      [])).mCommandState = eReady := by
  obtain ⟨a1, a2, _⟩ := SendCommand_inFlight s cmd 100 hReady hRun hPin
  have hT : (100 % 65536 % 2 ^ 32 : Nat) = 100 := by norm_num
  rw [hT] at a2
  have hB : ∀ e ∈ env,
      ({ mPeriod := 100, mStart := s.millis % 2 ^ 32 } : MSPeriod).Passed e.1 = false := by
    intro e he
    have := hBefore e he
    simp only [MSPeriod.Passed, Bool.and_eq_false_imp, decide_eq_false_iff_not]
    intro _
    omega
  have hA : ({ mPeriod := 100, mStart := s.millis % 2 ^ 32 } : MSPeriod).Passed t = true := by
    simp only [MSPeriod.Passed, Bool.and_eq_true, decide_eq_true_eq]
    exact ⟨by decide, hAfter⟩
  refine ⟨a1, a2.1, a2.2.2.2, ?_, ?_, rfl⟩
  · intro k
    exact (runUpdates_inFlight h _ (env.take k) _ a2
      (fun e he => hB e (List.mem_of_mem_take he))).1
  · exact Update_timeout h _ _ t b (runUpdates_inFlight h _ env _ a2 hB) hA hLevels

/-- C10, amended, for updates at 50 ms and 99 ms and then at 100 ms. -/
theorem command_timeout_at_deadline_witness :
    (Update hostNoClock
      { runUpdates hostNoClock (SendCommand readyModem (bytes "AT") 0 100).2
          [(50, true), (99, true)] with millis := 100, rxPin := true } []).mCommandState
      = eTimeout ∧
    (runUpdates hostNoClock (SendCommand readyModem (bytes "AT") 0 100).2
      [(50, true), (99, true)]).mCommandState = eBusy :=
  ⟨(command_timeout_at_deadline hostNoClock readyModem (bytes "AT") [(50, true), (99, true)]
      100 true (by decide) (by decide) (by decide) (by decide!) (by decide!) (by decide!)).2.2.2.2.1,
   by decide!⟩

/-! ### Frame lemmas: the SMS status, the message slots and the ring -/

theorem core_passthroughWrite (s : SIM7000) (bs : List Nat) :
    core (passthroughWrite s bs) = core s := by
  rw [passthroughWrite_eq]; rfl

theorem core_PauseRx (s : SIM7000) : core (PauseRx s) = core s := by
  rw [PauseRx_eq]; rfl

theorem core_ResumeRx (s : SIM7000) : core (ResumeRx s) = core s := by
  rw [ResumeRx_eq]; rfl

theorem core_SendCommand (s : SIM7000) (c : List Nat) (a b : Nat) :
    core (SendCommand s c a b).2 = core s := by
  unfold SendCommand
  split
  · simp only [core_passthroughWrite]; rfl
  · simp only [core_passthroughWrite]

theorem core_SendCommandIgnored (s : SIM7000) (c : List Nat) (a b : Nat) :
    core (SendCommandIgnored s c a b) = core s := core_SendCommand s c a b

theorem core_CheckLevels (s : SIM7000) : core (CheckLevels s) = core s := by
  unfold CheckLevels
  dsimp only
  split_ifs <;> first | rfl | exact core_SendCommandIgnored _ _ _ _

theorem core_TurnOffEchoMode (s : SIM7000) (r : Nat) : core (TurnOffEchoMode s r) = core s := by
  unfold TurnOffEchoMode
  rw [core_SendCommandIgnored]; rfl

theorem core_SetBaudOrFlowControl (s : SIM7000) : core (SetBaudOrFlowControl s) = core s := by
  unfold SetBaudOrFlowControl
  split <;> rw [core_SendCommandIgnored]

theorem core_completedBeforeReply (s : SIM7000) :
    core (completedBeforeReply s) = core s := by
  unfold completedBeforeReply
  split_ifs <;>
    first
    | rfl
    | exact core_SetBaudOrFlowControl _
    | exact core_CheckLevels _
    | exact core_TurnOffEchoMode _ _

theorem core_HandleCommandTimeout (s : SIM7000) :
    core (HandleCommandTimeout s) = core s := by
  unfold HandleCommandTimeout
  simp only [passthroughWrite_eq]
  split_ifs <;> first | rfl | exact core_TurnOffEchoMode _ _

theorem core_UpdateTime (s : SIM7000) (t : Nat) : core (UpdateTime s t) = core s := by
  unfold UpdateTime; split <;> rfl

theorem core_UpdatePins (s : SIM7000) : core (UpdatePins s) = core s := by
  unfold UpdatePins
  dsimp only
  split_ifs <;> rfl

theorem core_UpdateTimers (s : SIM7000) : core (UpdateTimers s) = core s := by
  unfold UpdateTimers
  dsimp only
  split_ifs <;>
    first
    | rfl
    | exact core_CheckLevels _
    | exact core_HandleCommandTimeout _
    | exact (core_CheckLevels _).trans (core_HandleCommandTimeout _)

theorem sms_of_core {s t : SIM7000} (h : core t = core s) : t.mSMSStatus = s.mSMSStatus :=
  congrArg (fun c => c.1) h

theorem HandleCommandCompleted_eq (h : Host) (s : SIM7000) :
    HandleCommandCompleted h s
      = if s.mSleepState ≠ eWakingUp then ProcessQueuedSMSReply h (completedBeforeReply s)
        else completedBeforeReply s := by
  unfold HandleCommandCompleted completedBeforeReply
  simp only []
  split_ifs <;> rfl

theorem SendSMS_refused (s : SIM7000) (a m : List Nat) (hs : (SendSMS s a m).1 = false) :
    (SendSMS s a m).2 = s := by
  unfold SendSMS at hs ⊢
  simp only [] at hs ⊢
  by_cases hsent : (s.ClearToSendSMS &&
    decide (strlen m < ((kTxBufferSize - kPDUSubmitPreambleSize) * 8) / 7)) = true
  · rw [if_pos hsent] at hs
    exact absurd hs (by simp)
  · rw [if_neg hsent]

theorem SendSMS_accepted (s : SIM7000) (a m : List Nat) (hs : (SendSMS s a m).1 = true) :
    s.ClearToSendSMS = true ∧ s.mSMSStatus = eSMSIdle ∧
    (SendSMS s a m).2.mSMSStatus = eSMSSending := by
  unfold SendSMS at hs ⊢
  simp only [] at hs ⊢
  by_cases hsent : (s.ClearToSendSMS &&
    decide (strlen m < ((kTxBufferSize - kPDUSubmitPreambleSize) * 8) / 7)) = true
  · rw [if_pos hsent]
    have hc : s.ClearToSendSMS = true := by
      simp only [Bool.and_eq_true] at hsent
      exact hsent.1
    refine ⟨hc, ?_, rfl⟩
    simp only [ClearToSendSMS, Bool.and_eq_true, beq_iff_eq] at hc
    exact hc.2
  · rw [if_neg hsent] at hs
    exact absurd hs (by simp)

theorem ProcessQueuedSMSReply_cases (h : Host) (s : SIM7000) (P : SIM7000 → Prop)
    (h0 : P s)
    (hS : ∀ a m, h.queuedSMSReply s = some (a, m) → (SendSMS s a m).1 = true →
      P (SendSMS s a m).2) :
    P (ProcessQueuedSMSReply h s) := by
  unfold ProcessQueuedSMSReply
  cases hq : h.queuedSMSReply s with
  | none => exact h0
  | some reply =>
    simp only []
    by_cases hc : s.ClearToSendSMS = true
    · rw [if_pos hc]
      cases hs : (SendSMS s reply.1 reply.2).1
      · rw [SendSMS_refused s _ _ hs]; exact h0
      · exact hS reply.1 reply.2 (by rw [hq]) hs
    · rw [if_neg hc]; exact h0

theorem ProcessQueuedSMSReply_busy (h : Host) (s : SIM7000) (hb : s.mCommandState = eBusy) :
    ProcessQueuedSMSReply h s = s := by
  have hc : s.ClearToSendSMS = false := by
    simp only [ClearToSendSMS, ConnectedAndClearToSend, ClearToSend, IsBusy, hb, beq_self_eq_true,
      Bool.not_true, Bool.false_and, Bool.and_false]
  unfold ProcessQueuedSMSReply
  split
  · rw [hc]; rfl
  · rfl

theorem HandleCommandCompleted_cases (h : Host) (s : SIM7000) (P : SIM7000 → Prop)
    (h0 : P (completedBeforeReply s))
    (hS : ∀ a m, s.mSleepState ≠ eWakingUp →
      h.queuedSMSReply (completedBeforeReply s) = some (a, m) →
      (SendSMS (completedBeforeReply s) a m).1 = true →
      P (SendSMS (completedBeforeReply s) a m).2) :
    P (HandleCommandCompleted h s) := by
  rw [HandleCommandCompleted_eq]
  by_cases hw : s.mSleepState ≠ eWakingUp
  · rw [if_pos hw]
    exact ProcessQueuedSMSReply_cases h _ P h0 (fun a m hq hs => hS a m hw hq hs)
  · rw [if_neg hw]; exact h0

theorem SendSMS_ring (s : SIM7000) (a m : List Nat) : ring (SendSMS s a m).2 = ring s := by
  unfold SendSMS
  simp only [ring]
  split <;> rfl

theorem SendSMS_mCommandState (s : SIM7000) (a m : List Nat) :
    (SendSMS s a m).2.mCommandState = s.mCommandState := by
  unfold SendSMS
  simp only []
  split <;> rfl

theorem SendSMS_mCommandHash (s : SIM7000) (a m : List Nat) :
    (SendSMS s a m).2.mCommandHash = s.mCommandHash := by
  unfold SendSMS
  simp only []
  split <;> rfl

theorem SendSMS_mRxBuffer (s : SIM7000) (a m : List Nat) :
    (SendSMS s a m).2.mRxBuffer = s.mRxBuffer := by
  unfold SendSMS
  simp only []
  split <;> rfl

theorem SendSMS_linesHandled (s : SIM7000) (a m : List Nat) :
    (SendSMS s a m).2.linesHandled = s.linesHandled := by
  unfold SendSMS
  simp only []
  split <;> rfl

theorem SendSMS_messagesRead (s : SIM7000) (a m : List Nat) :
    (SendSMS s a m).2.messagesRead = s.messagesRead := by
  unfold SendSMS
  simp only []
  split <;> rfl

theorem SendSMS_sms (s : SIM7000) (a m : List Nat) :
    (SendSMS s a m).2.mSMSStatus = s.mSMSStatus ∨
    (s.mSMSStatus = eSMSIdle ∧ (SendSMS s a m).2.mSMSStatus = eSMSSending) := by
  cases hs : (SendSMS s a m).1
  · left; rw [SendSMS_refused s a m hs]
  · right; exact (SendSMS_accepted s a m hs).2

theorem ParseDispatch_cases (h : Host) (s : SIM7000) (hash p c : Nat) (P : SIM7000 → Prop)
    (h0 : P s)
    (hBars : ∀ b, P { s with mBars := b })
    (hTime : ∀ t, P (UpdateTime s t))
    (hBat : ∀ b, P { s with mBatteryLevel := b })
    (hReg : ∀ b, P { s with mConnectionStatus := b })
    (hCMS : s.mSMSStatus = eSMSWaiting →
      P { s with mCommandState := eError, mCommandTimeout := s.mCommandTimeout.Set 0,
                 mSMSStatus := eSMSFailed })
    (hCME : P { s with mCommandState := eError, mCommandTimeout := s.mCommandTimeout.Set 0 })
    (hCMTI : hash = kCMTICmdHash → ∀ i, P (QueueMessageIndex s i))
    (hCMGR : P { s with mCommandHash := 0 })
    (hCMGS : s.mSMSStatus = eSMSWaiting → P { s with mSMSStatus := eSMSSent })
    (hPIN : P (HandleNoSIMCardFound s)) :
    P (ParseDispatch h s hash p c).1 := by
  unfold ParseDispatch
  simp only []
  by_cases h1 : hash = kCSQCmdHash
  · rw [if_pos h1]; split
    · exact hBars _
    · exact hBars _
  rw [if_neg h1]
  by_cases h2 : hash = kCCLKCmdHash
  · rw [if_pos h2]; split
    · exact hTime _
    · exact h0
  rw [if_neg h2]
  by_cases h3 : hash = kCBCCmdHash
  · rw [if_pos h3]; split
    · split
      · exact hBat _
      · exact hBat _
    · exact h0
  rw [if_neg h3]
  by_cases h4 : hash = kCREGCmdHash
  · rw [if_pos h4]; exact hReg _
  rw [if_neg h4]
  by_cases h5 : hash = kCMS_ERRORCmdHash
  · rw [if_pos h5]
    by_cases hw : s.mSMSStatus = eSMSWaiting
    · rw [if_pos hw]; exact hCMS hw
    · rw [if_neg hw]; exact hCME
  rw [if_neg h5]
  by_cases h6 : hash = kCME_ERRORCmdHash
  · rw [if_pos h6]; exact hCME
  rw [if_neg h6]
  by_cases h7 : hash = kCMTICmdHash
  · rw [if_pos h7]; split
    · exact hCMTI h7 _
    · exact h0
  rw [if_neg h7]
  by_cases h8 : hash = kCMGLCmdHash ∨ hash = kCMGRCmdHash
  · rw [if_pos h8]; split
    · exact hCMGR
    · exact h0
  rw [if_neg h8]
  by_cases h9 : hash = kCMGSCmdHash
  · rw [if_pos h9]
    by_cases hw : s.mSMSStatus = eSMSWaiting
    · rw [if_pos hw]; exact hCMGS hw
    · rw [if_neg hw]; exact h0
  rw [if_neg h9]
  by_cases h10 : hash = kCPINCmdHash
  · rw [if_pos h10]; split
    · exact hPIN
    · exact h0
  rw [if_neg h10]
  exact h0

theorem ClassifyLine_cases (h : Host) (s : SIM7000) (P : SIM7000 → Prop)
    (h0 : P s)
    (hT : ∀ t, P (UpdateTime s t))
    (hP : peek s.mRxBuffer s.mRxBufferPtr = 43 → P (ParseCommandResponse h s))
    (hF : ∀ p, P (HandleCommandFailed { s with mRxBufferPtr := p }))
    (hN : ∀ p, P { s with mRxBufferPtr := p, mSleepState := eSleeping })
    (hC : ∀ p, P (HandleCommandCompleted h { s with mRxBufferPtr := p })) :
    P (ClassifyLine h s) := by
  unfold ClassifyLine
  simp only [ParseOtherCommandResponse]
  by_cases h42 : peek s.mRxBuffer s.mRxBufferPtr = 42
  · rw [if_pos h42]
    split
    · exact hT _
    · exact h0
  rw [if_neg h42]
  by_cases h43 : peek s.mRxBuffer s.mRxBufferPtr = 43
  · rw [if_pos h43]; exact hP h43
  rw [if_neg h43]
  by_cases h65 : peek s.mRxBuffer s.mRxBufferPtr = 65
  · rw [if_pos h65]; split <;> exact h0
  rw [if_neg h65]
  by_cases h69 : peek s.mRxBuffer s.mRxBufferPtr = 69
  · rw [if_pos h69]; split
    · exact hF _
    · exact h0
  rw [if_neg h69]
  by_cases h68 : peek s.mRxBuffer s.mRxBufferPtr = 68
  · rw [if_pos h68]; exact h0
  rw [if_neg h68]
  by_cases h78 : peek s.mRxBuffer s.mRxBufferPtr = 78
  · rw [if_pos h78]; split
    · exact hN _
    · exact h0
  rw [if_neg h78]
  by_cases h79 : peek s.mRxBuffer s.mRxBufferPtr = 79
  · rw [if_pos h79]; split
    · exact hC s.mRxBufferPtr
    · exact h0
  rw [if_neg h79]
  by_cases h82 : peek s.mRxBuffer s.mRxBufferPtr = 82
  · rw [if_pos h82]; split <;> exact h0
  rw [if_neg h82]
  by_cases h83 : peek s.mRxBuffer s.mRxBufferPtr = 83
  · rw [if_pos h83]; split
    · exact hC _
    · exact h0
  rw [if_neg h83]
  exact h0

theorem MessageRead_sms (s : SIM7000) (m : List Nat) (n : Nat) (a b : List Nat) :
    (MessageRead s m n a b).mSMSStatus = s.mSMSStatus := by
  cases s
  simp only [MessageRead, passthroughWrite]
  split_ifs <;> rfl

theorem HandleMultiLineCommand_sms (s : SIM7000) :
    (HandleMultiLineCommand s).2.mSMSStatus = s.mSMSStatus := by
  unfold HandleMultiLineCommand
  split
  · simp only [MessageRead_sms]
  · rfl

theorem core_ResumeFlush (s : SIM7000) : core (ResumeRx (FlushRxBuffer s)) = core s := by
  rw [core_ResumeRx]; rfl

theorem HandleCommandResponse_ptr (h : Host) (s : SIM7000) :
    (HandleCommandResponse h s).mRxBufferPtr = 0 := by
  unfold HandleCommandResponse
  simp only [ResumeRx_eq, FlushRxBuffer]

/-! ### C18: the bound of the receive buffer -/

theorem UpdateByte_plain (h : Host) (s : SIM7000) (b : Nat)
    (hb : b ≠ 13 ∧ b ≠ 0 ∧ b ≠ 10) (hs : s.mSMSStatus ≠ eSMSSending)
    (hp : s.mPassthrough = false) :
    UpdateByte h s b = { s with
      mRxBuffer := poke (poke s.mRxBuffer s.mRxBufferPtr b) (s.mRxBufferPtr + 1) 0
      mRxBufferPtr := s.mRxBufferPtr + 1 } := by
  have hw : passthroughWrite s [b] = s := by
    unfold passthroughWrite; rw [hp]; rfl
  have hlen : s.mRxBufferPtr % 256 < kRxBufferSize := by
    unfold kRxBufferSize SIM7000_RX_BUFFER_SIZE; omega
  unfold UpdateByte
  rw [if_neg (by omega), if_neg hb.2.2]
  dsimp only
  rw [hw, if_pos hlen, if_neg (fun hx => hs hx.1)]

theorem foldl_UpdateByte_plain (h : Host) (b : Nat) (hb : b ≠ 13 ∧ b ≠ 0 ∧ b ≠ 10) (n : Nat) :
    ∀ s : SIM7000, s.mSMSStatus ≠ eSMSSending → s.mPassthrough = false →
      ∃ buf, (List.replicate n b).foldl (UpdateByte h) s
          = { s with mRxBuffer := buf, mRxBufferPtr := s.mRxBufferPtr + n } ∧
        buf.length = if n = 0 then s.mRxBuffer.length
          else max s.mRxBuffer.length (s.mRxBufferPtr + n + 1) := by
  induction n with
  | zero => intro s _ _; exact ⟨s.mRxBuffer, rfl, rfl⟩
  | succ n ih =>
    intro s hs hp
    rw [List.replicate_succ, List.foldl_cons, UpdateByte_plain h s b hb hs hp]
    obtain ⟨buf, e1, e2⟩ := ih { s with
      mRxBuffer := poke (poke s.mRxBuffer s.mRxBufferPtr b) (s.mRxBufferPtr + 1) 0
      mRxBufferPtr := s.mRxBufferPtr + 1 } hs hp
    refine ⟨buf, ?_, ?_⟩
    · rw [e1]
      show ({ s with mRxBuffer := buf, mRxBufferPtr := s.mRxBufferPtr + 1 + n } : SIM7000) = _
      rw [Nat.add_assoc, Nat.add_comm 1 n]
    · dsimp only at e2
      rw [e2]
      by_cases hn : n = 0
      · rw [if_pos hn, if_neg (by omega), hn]
        simp only [length_poke]
        omega
      · rw [if_neg hn, if_neg (by omega)]
        simp only [length_poke]
        omega

set_option maxRecDepth 100000 in
/-- C18 (failing input): after 512 bytes 'A' with no line feed the receive cursor
stands at 512, beyond the capacity of 511, nothing has been dispatched, and the
terminator has been written past the end of the 512-byte buffer: `rxLen` is a
`uint8_t`, so the test `rxLen < kRxBufferSize` never fails. -/
theorem rx_buffer_overrun_by_512_bytes :
    (Update hostNoClock SIM7000.init (List.replicate 512 65)).mRxBufferPtr = 512 ∧
    (Update hostNoClock SIM7000.init (List.replicate 512 65)).mRxBuffer.length = 513 ∧
    SIM7000.init.mRxBuffer.length = 512 ∧ kRxBufferSize = 511 := by
  have h0 : UpdateMessages (UpdatePins SIM7000.init) = SIM7000.init := by decide!
  have ht : ∀ (buf : List Nat) (p : Nat),
      UpdateTimers { SIM7000.init with mRxBuffer := buf, mRxBufferPtr := p }
        = { SIM7000.init with mRxBuffer := buf, mRxBufferPtr := p } := by
    intro buf p; rfl
  obtain ⟨buf, e1, e2⟩ := foldl_UpdateByte_plain hostNoClock 65 (by decide) 512 SIM7000.init
    (by decide) rfl
  unfold Update
  rw [h0, e1, ht]
  refine ⟨rfl, ?_, by decide!, by decide⟩
  show buf.length = 513
  rw [e2]
  decide!

/-! ### C19: the signal bars -/

/-- C19 (counterexample): the line "+CSQ: 31,0" stores 50 bars, which is not in
40..49. -/
theorem csq_raw_31_gives_50 :
    (Update hostNoClock SIM7000.init (csqLine 31 0)).mBars = 50 := by
  decide!

set_option maxRecDepth 100000 in
theorem csq_table_all :
    ∀ r ∈ List.range 32 ++ [99], ∀ ber ∈ List.range 8 ++ [99],
      (Update hostNoClock SIM7000.init (csqLine r ber)).mBars = barsOfRssi r := by
  decide!

theorem barsOfRssi_ranges :
    ∀ r ∈ List.range 32 ++ [99],
      (r < 2 ∨ r = 99 → barsOfRssi r = 0) ∧
      (2 ≤ r ∧ r ≤ 9 → 10 ≤ barsOfRssi r ∧ barsOfRssi r ≤ 19) ∧
      (10 ≤ r ∧ r ≤ 14 → 20 ≤ barsOfRssi r ∧ barsOfRssi r ≤ 29) ∧
      (15 ≤ r ∧ r ≤ 19 → 30 ≤ barsOfRssi r ∧ barsOfRssi r ≤ 39) ∧
      (20 ≤ r ∧ r ≤ 30 → 40 ≤ barsOfRssi r ∧ barsOfRssi r ≤ 49) ∧
      (r = 31 → barsOfRssi r = 50) := by
  decide!

theorem mem_range_or {n k : Nat} (a : Nat) (h : n ≤ a ∨ n = k) : n ∈ List.range (a + 1) ++ [k] := by
  rcases h with h | h
  · exact List.mem_append_left _ (List.mem_range.2 (by omega))
  · exact List.mem_append_right _ (by simp [h])

theorem ParseDispatch_bars (h : Host) (s : SIM7000) (p c : Nat)
    (hc : (GetUInt16Value s.mRxBuffer p).1 = 44) :
    (ParseDispatch h s kCSQCmdHash p c).1.mBars
      = barsOfRssi (GetUInt16Value s.mRxBuffer p).2.2 := by
  unfold ParseDispatch
  simp only []
  rw [if_pos trivial, if_pos hc]

/-- C19 (amended): in any state, the +CSQ case of `ParseCommandResponse` stores
`barsOfRssi` of the number it reads before the comma; on the line
"+CSQ: rssi,ber" received in the initial state, for every raw RSSI 0..31 and 99
(and every error rate 0..7 and 99), the stored bars value is `barsOfRssi rssi`,
which is 0 when rssi < 2 or rssi = 99, lies in 10..19 for rssi 2..9, in 20..29
for 10..14, in 30..39 for 15..19, in 40..49 for 20..30, and is 50 for rssi 31. -/
theorem csq_bars_ranges (rssi ber : Nat) (hr : rssi ≤ 31 ∨ rssi = 99)
    (hb : ber ≤ 7 ∨ ber = 99) :
    (∀ (h : Host) (s : SIM7000) (p c : Nat), (GetUInt16Value s.mRxBuffer p).1 = 44 →
      (ParseDispatch h s kCSQCmdHash p c).1.mBars
        = barsOfRssi (GetUInt16Value s.mRxBuffer p).2.2) ∧
    (Update hostNoClock SIM7000.init (csqLine rssi ber)).mBars = barsOfRssi rssi ∧
    (rssi < 2 ∨ rssi = 99 → barsOfRssi rssi = 0) ∧
    (2 ≤ rssi ∧ rssi ≤ 9 → 10 ≤ barsOfRssi rssi ∧ barsOfRssi rssi ≤ 19) ∧
    (10 ≤ rssi ∧ rssi ≤ 14 → 20 ≤ barsOfRssi rssi ∧ barsOfRssi rssi ≤ 29) ∧
    (15 ≤ rssi ∧ rssi ≤ 19 → 30 ≤ barsOfRssi rssi ∧ barsOfRssi rssi ≤ 39) ∧
    (20 ≤ rssi ∧ rssi ≤ 30 → 40 ≤ barsOfRssi rssi ∧ barsOfRssi rssi ≤ 49) ∧
    (rssi = 31 → barsOfRssi rssi = 50) :=
  ⟨ParseDispatch_bars, csq_table_all rssi (mem_range_or 31 hr) ber (mem_range_or 7 hb),
   barsOfRssi_ranges rssi (mem_range_or 31 hr)⟩

/-- C19, amended, at the line "+CSQ: 31,0". -/
theorem csq_bars_ranges_witness :
    (Update hostNoClock SIM7000.init (csqLine 31 0)).mBars = barsOfRssi 31 ∧
      barsOfRssi 31 = 50 :=
  ⟨(csq_bars_ranges 31 0 (Or.inl (by decide)) (Or.inl (by decide))).2.1,
   (csq_bars_ranges 31 0 (Or.inl (by decide)) (Or.inl (by decide))).2.2.2.2.2.2.2 rfl⟩

/-! ### C11: late terminal lines -/

/-- C11 (counterexample): with CommandState Ready and no pending hash, the late
line "ERROR" leaves CommandState at Error. -/
theorem late_error_line_sets_error :
    SIM7000.init.mCommandState = eReady ∧ SIM7000.init.mCommandHash = 0 ∧
    (Update hostNoClock SIM7000.init (bytes "ERROR" ++ [13, 10])).mCommandState = eError := by
  decide!

theorem HandleCommandResponse_noHash (h : Host) (s : SIM7000) (hHash : s.mCommandHash = 0) :
    HandleCommandResponse h s = ResumeRx (FlushRxBuffer (ClassifyLine h
      { PauseRx (noteLine s) with mCommandTimeout := (PauseRx (noteLine s)).mCommandTimeout.Start (PauseRx (noteLine s)).millis })) := by
  have h1 : (PauseRx (noteLine s)).mCommandHash = 0 := by rw [PauseRx_eq]; exact hHash
  unfold HandleCommandResponse
  simp only [h1, ne_eq, not_true_eq_false, if_false, Bool.not_false, if_true]

theorem ResumeFlush_mCommandState (s : SIM7000) :
    (ResumeRx (FlushRxBuffer s)).mCommandState = s.mCommandState := by
  rw [ResumeRx_eq]; rfl

/-- C11 (amended): with no pending hash (whatever the CommandState, Ready in
particular), a late line "OK" leaves CommandState at Ready when the modem is not
waking up, and a late line "ERROR" sets CommandState to Error. -/
theorem late_terminal_line (h : Host) (s : SIM7000) (hHash : s.mCommandHash = 0) :
    (okLine s → s.mSleepState ≠ eWakingUp →
      (HandleCommandResponse h s).mCommandState = eReady) ∧
    (errorLine s → (HandleCommandResponse h s).mCommandState = eError) := by
  rw [HandleCommandResponse_noHash h s hHash, ResumeFlush_mCommandState]
  have hb : ({ PauseRx (noteLine s) with mCommandTimeout := (PauseRx (noteLine s)).mCommandTimeout.Start (PauseRx (noteLine s)).millis } : SIM7000).mRxBuffer = s.mRxBuffer := by rw [PauseRx_eq]; rfl
  have hp : ({ PauseRx (noteLine s) with mCommandTimeout := (PauseRx (noteLine s)).mCommandTimeout.Start (PauseRx (noteLine s)).millis } : SIM7000).mRxBufferPtr = s.mRxBufferPtr := by rw [PauseRx_eq]; rfl
  have hs : ({ PauseRx (noteLine s) with mCommandTimeout := (PauseRx (noteLine s)).mCommandTimeout.Start (PauseRx (noteLine s)).millis } : SIM7000).mSleepState = s.mSleepState := by rw [PauseRx_eq]; rfl
  have hh : ({ PauseRx (noteLine s) with mCommandTimeout := (PauseRx (noteLine s)).mCommandTimeout.Start (PauseRx (noteLine s)).millis } : SIM7000).mCommandHash = 0 := by rw [PauseRx_eq]; exact hHash
  generalize ({ PauseRx (noteLine s) with mCommandTimeout := (PauseRx (noteLine s)).mCommandTimeout.Start (PauseRx (noteLine s)).millis } : SIM7000) = t at hb hp hs hh ⊢
  constructor
  · rintro ⟨h79, h75⟩ hw
    rw [← hb, ← hp] at h79 h75
    rw [← hs] at hw
    unfold ClassifyLine
    simp only [h79, h75, if_true, Nat.reduceEqDiff, if_false]
    refine HandleCommandCompleted_cases h t (fun u => u.mCommandState = eReady) ?_
      (fun a m _ _ _ => (SendSMS_mCommandState _ a m).trans ?_) <;>
    · unfold completedBeforeReply
      simp only [hw, ne_eq, not_false_eq_true, if_true, hh]
      rw [if_neg (by decide), if_neg (by decide)]
  · rintro ⟨h69, hc⟩
    rw [← hb, ← hp] at h69 hc
    unfold ClassifyLine
    simp only [h69, hc, if_true, Nat.reduceEqDiff, if_false]
    rfl

/-- C11, amended, at the initial state holding the line "ERROR". -/
theorem late_terminal_line_witness :
    (HandleCommandResponse hostNoClock readyWithErrorLine).mCommandState = eError :=
  (late_terminal_line hostNoClock readyWithErrorLine rfl).2 ⟨by decide, by decide⟩

/-! ### One received byte -/

theorem smsByteStep_of_line {a b : ESMSStatus} (h : smsLineStep a b) : smsByteStep a b :=
  Or.inl h

theorem ring_of_core {s t : SIM7000} (h : core t = core s) : ring t = ring s := by
  have h1 := congrArg (fun c => c.2.2.2) h
  exact h1

theorem ParseDispatch_ring (h : Host) (s : SIM7000) (hash p c : Nat) :
    ring (ParseDispatch h s hash p c).1 =
      if hash = kCMTICmdHash ∧ (SkipTillChar 44 true s.mRxBuffer p).1 = true then
        ring (QueueMessageIndex s
          (GetUInt16Value s.mRxBuffer (SkipTillChar 44 true s.mRxBuffer p).2).2.2)
      else ring s := by
  by_cases hh : hash = kCMTICmdHash
  · subst hh
    unfold ParseDispatch
    simp only []
    rw [if_neg (by decide), if_neg (by decide), if_neg (by decide), if_neg (by decide),
      if_neg (by decide), if_neg (by decide), if_pos trivial]
    by_cases ht : (SkipTillChar 44 true s.mRxBuffer p).1 = true
    · rw [if_pos ht, if_pos (show True ∧ _ from ⟨trivial, ht⟩)]; rfl
    · rw [if_neg ht, if_neg (show ¬ (True ∧ _) from fun hx => ht hx.2)]
  · rw [if_neg (fun hx => hh hx.1)]
    exact ParseDispatch_cases h s hash p c (fun t => ring t = ring s) rfl (fun _ => rfl)
      (fun _ => ring_of_core (core_UpdateTime _ _)) (fun _ => rfl) (fun _ => rfl)
      (fun _ => rfl) rfl (fun hx => absurd hx hh) rfl (fun _ => rfl) rfl

theorem ParseCommandResponse_ring (h : Host) (s : SIM7000)
    (h43 : peek s.mRxBuffer s.mRxBufferPtr = 43) :
    ring (ParseCommandResponse h s) =
      match announcedIndex s with
      | some k => ring (QueueMessageIndex s k)
      | none => ring s := by
  unfold ParseCommandResponse announcedIndex
  rw [if_pos h43]
  dsimp only
  by_cases hsc : (ParseScan (s.mRxBuffer.drop (s.mRxBufferPtr + 1)) (s.mRxBufferPtr + 1) 0).1 = true
  · rw [if_pos hsc]
    by_cases hw : (SkipWhitespaceOnLine s.mRxBuffer
        ((ParseScan (s.mRxBuffer.drop (s.mRxBufferPtr + 1)) (s.mRxBufferPtr + 1) 0).2.1 + 1)).1 ≠ 0 ∧
        (SkipWhitespaceOnLine s.mRxBuffer
        ((ParseScan (s.mRxBuffer.drop (s.mRxBufferPtr + 1)) (s.mRxBufferPtr + 1) 0).2.1 + 1)).1 ≠ 10
    · rw [if_pos hw]
      have := ParseDispatch_ring h
        { s with mCommandHash := (ParseScan (s.mRxBuffer.drop (s.mRxBufferPtr + 1)) (s.mRxBufferPtr + 1) 0).2.2 }
        (ParseScan (s.mRxBuffer.drop (s.mRxBufferPtr + 1)) (s.mRxBufferPtr + 1) 0).2.2
        (SkipWhitespaceOnLine s.mRxBuffer
          ((ParseScan (s.mRxBuffer.drop (s.mRxBufferPtr + 1)) (s.mRxBufferPtr + 1) 0).2.1 + 1)).2
        (SkipWhitespaceOnLine s.mRxBuffer
          ((ParseScan (s.mRxBuffer.drop (s.mRxBufferPtr + 1)) (s.mRxBufferPtr + 1) 0).2.1 + 1)).1
      refine Eq.trans (b := _) this ?_
      split_ifs with h1 h2 h2
      · rfl
      · exact absurd ⟨hsc, hw, h1.1, h1.2⟩ h2
      · exact absurd ⟨h2.2.2.1, h2.2.2.2⟩ h1
      · rfl
    · rw [if_neg hw, if_neg (fun hx => hw hx.2.1)]
      rfl
  · rw [if_neg hsc, if_neg (fun hx => hsc hx.1)]
    rfl

theorem ClassifyLine_ring (h : Host) (s : SIM7000) :
    ring (ClassifyLine h s) =
      match announcedIndex s with
      | some k => ring (QueueMessageIndex s k)
      | none => ring s := by
  by_cases h43 : peek s.mRxBuffer s.mRxBufferPtr = 43
  · have : ClassifyLine h s = ParseCommandResponse h s := by
      unfold ClassifyLine
      simp only [h43, Nat.reduceEqDiff, if_false, if_true]
    rw [this]
    exact ParseCommandResponse_ring h s h43
  · have hn : announcedIndex s = none := by
      unfold announcedIndex
      rw [if_neg h43]
    rw [hn]
    exact ClassifyLine_cases h s (fun t => ring t = ring s) rfl
      (fun _ => ring_of_core (core_UpdateTime _ _))
      (fun hx => absurd hx h43)
      (fun _ => rfl) (fun _ => rfl)
      (fun _ => HandleCommandCompleted_cases h _ (fun t => ring t = ring s)
        (ring_of_core (core_completedBeforeReply _))
        (fun a m _ _ _ => (SendSMS_ring _ a m).trans (ring_of_core (core_completedBeforeReply _))))

theorem MessageRead_ring (s : SIM7000) (m : List Nat) (n : Nat) (a b : List Nat) :
    ring (MessageRead s m n a b) = ring s := by
  cases s
  simp only [MessageRead, passthroughWrite]
  split_ifs <;> rfl

theorem HandleMultiLineCommand_ring (s : SIM7000) :
    ring (HandleMultiLineCommand s).2 = ring s := by
  unfold HandleMultiLineCommand
  split
  · simp only [MessageRead_ring]; rfl
  · rfl

theorem HandleCommandResponse_split (h : Host) (s : SIM7000) :
    ∃ s2, core s2 = core s ∧ s2.mRxBuffer = s.mRxBuffer ∧ s2.mRxBufferPtr = s.mRxBufferPtr ∧
      s2.mCommandHash = s.mCommandHash ∧
      HandleCommandResponse h s = ResumeRx (FlushRxBuffer
        (if s.mCommandHash = kCMGLCmdHash ∨ s.mCommandHash = kCMGRCmdHash then
          (HandleMultiLineCommand s2).2
         else ClassifyLine h s2)) := by
  have key : ∀ s2 : SIM7000,
      (if !(if s2.mCommandHash ≠ 0 then HandleMultiLineCommand s2 else (false, s2)).1 then
          ClassifyLine h (if s2.mCommandHash ≠ 0 then HandleMultiLineCommand s2 else (false, s2)).2
         else (if s2.mCommandHash ≠ 0 then HandleMultiLineCommand s2 else (false, s2)).2)
      = (if s2.mCommandHash = kCMGLCmdHash ∨ s2.mCommandHash = kCMGRCmdHash then
          (HandleMultiLineCommand s2).2
         else ClassifyLine h s2) := by
    intro s2
    by_cases hm : s2.mCommandHash = kCMGLCmdHash ∨ s2.mCommandHash = kCMGRCmdHash
    · have h0 : s2.mCommandHash ≠ 0 := by
        rcases hm with hm | hm <;> rw [hm] <;> decide
      have h1 : (HandleMultiLineCommand s2).1 = true := by
        unfold HandleMultiLineCommand; rw [if_pos hm]
      rw [if_pos h0, if_pos hm, h1]; rfl
    · have h1 : HandleMultiLineCommand s2 = (false, s2) := by
        unfold HandleMultiLineCommand; rw [if_neg hm]
      rw [if_neg hm]
      by_cases h0 : s2.mCommandHash ≠ 0
      · rw [if_pos h0, h1]; rfl
      · rw [if_neg h0]; rfl
  have hh : (PauseRx (noteLine s)).mCommandHash = s.mCommandHash := by rw [PauseRx_eq]; rfl
  refine ⟨{ PauseRx (noteLine s) with mCommandTimeout := (PauseRx (noteLine s)).mCommandTimeout.Start (PauseRx (noteLine s)).millis },
    core_PauseRx (noteLine s), by rw [PauseRx_eq]; rfl, by rw [PauseRx_eq]; rfl, hh, ?_⟩
  have := key { PauseRx (noteLine s) with mCommandTimeout := (PauseRx (noteLine s)).mCommandTimeout.Start (PauseRx (noteLine s)).millis }
  rw [show ({ PauseRx (noteLine s) with mCommandTimeout := (PauseRx (noteLine s)).mCommandTimeout.Start (PauseRx (noteLine s)).millis } : SIM7000).mCommandHash = s.mCommandHash from hh] at this
  rw [← this, ← hh]
  rfl

theorem announcedIndex_congr {s t : SIM7000} (hb : t.mRxBuffer = s.mRxBuffer)
    (hp : t.mRxBufferPtr = s.mRxBufferPtr) : announcedIndex t = announcedIndex s := by
  unfold announcedIndex
  rw [hb, hp]

theorem HandleCommandResponse_ring (h : Host) (s : SIM7000) :
    ring (HandleCommandResponse h s) =
      match notifiedIndex s with
      | some k => ring (QueueMessageIndex s k)
      | none => ring s := by
  obtain ⟨s2, hc, hb, hp, _, he⟩ := HandleCommandResponse_split h s
  rw [he, ring_of_core (core_ResumeFlush _)]
  unfold notifiedIndex
  by_cases hm : s.mCommandHash = kCMGLCmdHash ∨ s.mCommandHash = kCMGRCmdHash
  · rw [if_pos hm, if_pos hm, HandleMultiLineCommand_ring, ring_of_core hc]
  · rw [if_neg hm, if_neg hm, ClassifyLine_ring, announcedIndex_congr hb hp]
    have hr := ring_of_core hc
    cases announcedIndex s with
    | none => exact hr
    | some k =>
      simp only [ring, QueueMessageIndex, Prod.mk.injEq] at hr ⊢
      rw [hr.1, hr.2.2]
      exact ⟨rfl, hr.2.1, rfl⟩

theorem ring_push (s t : SIM7000) (k : Nat) (hr : ring t = ring (QueueMessageIndex s k))
    (hok : ringOK s) :
    ringOK t ∧ (pendingCount s < 14 → k < 256 →
      pendingList t = pendingList s ++ [k] ∧
      t.mPendingMessagesHead ≠ t.mPendingMessagesTail) := by
  unfold ring QueueMessageIndex at hr
  simp only [Prod.mk.injEq] at hr
  obtain ⟨h1, h2, h3⟩ := hr
  simp only [ringOK, pendingList, pendingCount, sizeofPendingMessages] at *
  rw [h1, h2, h3]
  obtain ⟨hH, hT⟩ := hok
  refine ⟨⟨hH, by split_ifs <;> omega⟩, ?_⟩
  intro hroom hk
  have hc : ((if s.mPendingMessagesTail + 1 = 15 then 0 else (s.mPendingMessagesTail + 1) % 256)
      + 15 - s.mPendingMessagesHead) % 15
      = (s.mPendingMessagesTail + 15 - s.mPendingMessagesHead) % 15 + 1 := by
    split_ifs <;> omega
  refine ⟨?_, by split_ifs <;> omega⟩
  rw [hc, List.range_succ, List.map_append, List.map_singleton]
  congr 1
  · apply List.map_congr_left
    intro i hi
    rw [List.mem_range] at hi
    rw [peek_poke, if_neg (by omega)]
  · rw [peek_poke, if_pos (by omega)]
    simp only [List.cons.injEq, and_true]
    omega

theorem ring_pop (s t : SIM7000) (h1 : t.mPendingMessages = s.mPendingMessages)
    (h2 : t.mPendingMessagesHead
      = if (s.mPendingMessagesHead + 1) % 256 = sizeofPendingMessages then 0
        else (s.mPendingMessagesHead + 1) % 256)
    (h3 : t.mPendingMessagesTail = s.mPendingMessagesTail)
    (hok : ringOK s) (hne : s.mPendingMessagesHead ≠ s.mPendingMessagesTail) :
    ringOK t ∧
    pendingList s = (peek s.mPendingMessages s.mPendingMessagesHead % 256) :: pendingList t := by
  simp only [ringOK, pendingList, pendingCount, sizeofPendingMessages] at *
  rw [h1, h2, h3]
  obtain ⟨hH, hT⟩ := hok
  refine ⟨⟨by split_ifs <;> omega, hT⟩, ?_⟩
  have hc : (s.mPendingMessagesTail + 15 - s.mPendingMessagesHead) % 15
      = ((s.mPendingMessagesTail + 15 -
          (if (s.mPendingMessagesHead + 1) % 256 = 15 then 0
           else (s.mPendingMessagesHead + 1) % 256)) % 15) + 1 := by
    split_ifs <;> omega
  rw [hc, List.range_succ_eq_map, List.map_cons, List.map_map]
  congr 1
  · rw [Nat.add_zero, Nat.mod_eq_of_lt hH]
  · apply List.map_congr_left
    intro i _
    simp only [Function.comp_apply]
    congr 2
    split_ifs <;> omega

theorem ring_empty_iff (s : SIM7000) (hok : ringOK s) :
    s.mPendingMessagesHead = s.mPendingMessagesTail ↔ pendingList s = [] := by
  unfold ringOK at hok
  unfold pendingList pendingCount
  simp only [sizeofPendingMessages] at *
  rw [List.map_eq_nil_iff, List.range_eq_nil]
  omega

theorem pendingList_congr {s t : SIM7000} (h : ring t = ring s) :
    ringOK t = ringOK s ∧ pendingCount t = pendingCount s ∧ pendingList t = pendingList s := by
  unfold ring at h
  simp only [Prod.mk.injEq] at h
  unfold ringOK pendingList pendingCount
  rw [h.1, h.2.1, h.2.2]
  exact ⟨rfl, rfl, rfl⟩

theorem decLoop_ne_zero : ∀ (fuel n : Nat) (acc : List Nat), (∀ c ∈ acc, c ≠ 0) →
    ∀ c ∈ Uint16ToDecStrLoop fuel n acc, c ≠ 0 := by
  intro fuel
  induction fuel with
  | zero => intro n acc h; exact h
  | succ f ih =>
    intro n acc h
    unfold Uint16ToDecStrLoop
    have h2 : ∀ c ∈ (n % 10 + 48) :: acc, c ≠ 0 := by
      intro c hc
      rcases List.mem_cons.1 hc with hc | hc
      · omega
      · exact h c hc
    split
    · exact ih _ _ h2
    · exact h2

theorem cstr_command (pre : List Nat) (x : Nat) (hpre : ∀ c ∈ pre, c ≠ 0) :
    cstr (Uint16ToDecStr x (blit [] 0 (pre ++ [0])) pre.length) 0
      = pre ++ Uint16ToDecStrLoop 5 (x % 65536) [] := by
  apply cstr_of_peek
  · intro p hp
    unfold Uint16ToDecStr
    rw [peek_blit, peek_blit]
    simp only [List.length_append, List.length_singleton] at hp ⊢
    by_cases h1 : p < pre.length
    · rw [if_neg (by omega), if_pos (by omega)]
      unfold peek
      simp only [Nat.sub_zero, List.getD_eq_getElem?_getD]
      rw [List.getElem?_append_left (by omega), List.getElem?_append_left h1]
    · rw [if_pos (by omega)]
      unfold peek
      simp only [List.getD_eq_getElem?_getD]
      rw [List.getElem?_append_left (by omega), List.getElem?_append_right (by omega)]
  · unfold Uint16ToDecStr
    rw [peek_blit, if_pos (by simp)]
    unfold peek
    simp [List.getD_eq_getElem?_getD]
  · intro c hc
    rcases List.mem_append.1 hc with hc | hc
    · exact hpre c hc
    · exact decLoop_ne_zero 5 _ [] (by simp) c hc

set_option maxRecDepth 100000 in
theorem printDec_value :
    ∀ k < 256, (GetUInt16ValueLoop (printDec k) 0 0).2.2 = k := by
  decide!

theorem printDec_inj {k m : Nat} (hk : k < 256) (hm : m < 256) (h : printDec k = printDec m) :
    k = m := by
  rw [← printDec_value k hk, ← printDec_value m hm, h]

theorem filter_range_eq (n idx : Nat) (p : Nat → Bool) (hidx : idx < n)
    (hp : ∀ k, k < n → (p k = true ↔ k = idx)) : (List.range n).filter p = [idx] := by
  induction n with
  | zero => omega
  | succ n ih =>
    rw [List.range_succ, List.filter_append]
    by_cases h : idx < n
    · rw [ih h (fun k hk => hp k (by omega))]
      have : p n = false := by
        cases hpn : p n
        · rfl
        · exact absurd ((hp n (by omega)).1 hpn) (by omega)
      simp [this]
    · have hn : idx = n := by omega
      have h1 : (List.range n).filter p = [] := by
        rw [List.filter_eq_nil_iff]
        intro k hk
        rw [List.mem_range] at hk
        intro hpk
        have := (hp k (by omega)).1 hpk
        omega
      have h2 : p n = true := (hp n (by omega)).2 hn.symm
      rw [h1]
      simp [h2, hn]

theorem SendCommand_serialOut (s : SIM7000) (c : List Nat) (a b : Nat) :
    (SendCommand s c a b).2.serialOut
      = if s.ClearToSend = true then s.serialOut ++ (c ++ [13, 10]) else s.serialOut := by
  unfold SendCommand
  split
  · simp only [passthroughWrite_eq, serialWrite, FlushRxBuffer]
  · simp only [passthroughWrite_eq]

theorem SendCommand_fst (s : SIM7000) (c : List Nat) (a b : Nat) :
    (SendCommand s c a b).1 = s.ClearToSend := by
  unfold SendCommand
  split
  · rename_i hc; rw [hc]
  · rename_i hc; simp only [Bool.not_eq_true] at hc; rw [hc]

theorem UpdateMessages_cases (s : SIM7000) :
    (((s.mWaitingToDeleteMessage ≠ 0 ∧ s.ClearToSendSMS = true) ∨
        ¬ (s.mWaitingToProcessMessage = 0 ∧ s.mPendingMessagesHead ≠ s.mPendingMessagesTail
          ∧ s.ClearToSend = true)) ∧
      ring (UpdateMessages s) = ring s ∧
      ((UpdateMessages s).serialOut = s.serialOut ∨
        ∃ x, (UpdateMessages s).serialOut
          = s.serialOut ++ ((bytes "AT+CMGD=" ++ Uint16ToDecStrLoop 5 x []) ++ [13, 10]))) ∨
    (s.mPendingMessagesHead ≠ s.mPendingMessagesTail ∧
      (UpdateMessages s).mPendingMessages = s.mPendingMessages ∧
      (UpdateMessages s).mPendingMessagesHead
        = (if (s.mPendingMessagesHead + 1) % 256 = sizeofPendingMessages then 0
           else (s.mPendingMessagesHead + 1) % 256) ∧
      (UpdateMessages s).mPendingMessagesTail = s.mPendingMessagesTail ∧
      (UpdateMessages s).serialOut
        = s.serialOut ++ readCommand (peek s.mPendingMessages s.mPendingMessagesHead % 256)) := by
  unfold UpdateMessages
  by_cases h1 : s.mWaitingToDeleteMessage ≠ 0 ∧ s.ClearToSendSMS = true
  · rw [if_pos h1]
    left
    dsimp only
    have hcmd := cstr_command (bytes "AT+CMGD=") ((s.mWaitingToDeleteMessage + 65535) % 65536)
      (by decide)
    rw [show (bytes "AT+CMGD=").length = 8 from rfl] at hcmd
    rw [hcmd]
    generalize (s.mWaitingToDeleteMessage + 65535) % 65536 % 65536 = x
    have hr := ring_of_core (core_SendCommand s (bytes "AT+CMGD=" ++ Uint16ToDecStrLoop 5 x [])
      0 5000)
    have ho := SendCommand_serialOut s (bytes "AT+CMGD=" ++ Uint16ToDecStrLoop 5 x []) 0 5000
    have hout : (SendCommand s (bytes "AT+CMGD=" ++ Uint16ToDecStrLoop 5 x []) 0
        5000).2.serialOut = s.serialOut ∨
        ∃ y, (SendCommand s (bytes "AT+CMGD=" ++ Uint16ToDecStrLoop 5 x []) 0 5000).2.serialOut
          = s.serialOut ++ ((bytes "AT+CMGD=" ++ Uint16ToDecStrLoop 5 y []) ++ [13, 10]) := by
      rw [ho]
      split
      · exact Or.inr ⟨_, rfl⟩
      · exact Or.inl rfl
    split
    · exact ⟨Or.inl h1, hr, hout⟩
    · exact ⟨Or.inl h1, hr, hout⟩
  rw [if_neg h1]
  by_cases h2 : s.mWaitingToProcessMessage = 0 ∧ s.mPendingMessagesHead ≠ s.mPendingMessagesTail
      ∧ s.ClearToSend = true
  · rw [if_pos h2]
    right
    dsimp only
    have hcmd := cstr_command (bytes "AT+CMGR=")
      (peek s.mPendingMessages s.mPendingMessagesHead % 256) (by decide)
    rw [show (bytes "AT+CMGR=").length = 8 from rfl,
      Nat.mod_eq_of_lt (show peek s.mPendingMessages s.mPendingMessagesHead % 256 < 65536 by omega)]
      at hcmd
    rw [hcmd]
    have hr := ring_of_core (core_SendCommand s (bytes "AT+CMGR=" ++
      Uint16ToDecStrLoop 5 (peek s.mPendingMessages s.mPendingMessagesHead % 256) []) 0 5000)
    have ho := SendCommand_serialOut s (bytes "AT+CMGR=" ++
      Uint16ToDecStrLoop 5 (peek s.mPendingMessages s.mPendingMessagesHead % 256) []) 0 5000
    have hf := SendCommand_fst s (bytes "AT+CMGR=" ++
      Uint16ToDecStrLoop 5 (peek s.mPendingMessages s.mPendingMessagesHead % 256) []) 0 5000
    rw [if_pos h2.2.2] at ho
    rw [h2.2.2] at hf
    unfold ring at hr
    simp only [Prod.mk.injEq] at hr
    rw [if_pos hf]
    refine ⟨h2.2.1, hr.1, ?_, hr.2.2, ?_⟩
    · show (if ((SendCommand s _ 0 5000).2.mPendingMessagesHead + 1) % 256 = sizeofPendingMessages
        then 0 else ((SendCommand s _ 0 5000).2.mPendingMessagesHead + 1) % 256) = _
      rw [hr.2.1]
    · show (SendCommand s _ 0 5000).2.serialOut = _
      rw [ho]
      unfold readCommand printDec
      simp only [List.append_assoc]
  rw [if_neg h2]
  exact Or.inl ⟨Or.inr h2, rfl, Or.inl rfl⟩

theorem readCommand_ne_delete (x k : Nat) :
    (bytes "AT+CMGD=" ++ Uint16ToDecStrLoop 5 x []) ++ [13, 10] ≠ readCommand k := by
  intro h
  have := congrArg (fun l => l.getD 6 0) h
  unfold readCommand at this
  rw [show bytes "AT+CMGD=" = [65, 84, 43, 67, 77, 71, 68, 61] from by decide,
    show bytes "AT+CMGR=" = [65, 84, 43, 67, 77, 71, 82, 61] from by decide] at this
  simp at this

theorem readCommand_inj {k m : Nat} (hk : k < 256) (hm : m < 256)
    (h : readCommand k = readCommand m) : k = m := by
  unfold readCommand at h
  rw [List.append_assoc, List.append_assoc] at h
  have h1 := List.append_cancel_left h
  have h2 := List.append_cancel_right h1
  exact printDec_inj hk hm h2

theorem UpdateMessages_ring (s : SIM7000) (hok : ringOK s) :
    ringOK (UpdateMessages s) ∧
    pendingList s = issuedReads s ++ pendingList (UpdateMessages s) ∧
    (s.mWaitingToProcessMessage = 0 → s.ClearToSend = true →
      ¬ (s.mWaitingToDeleteMessage ≠ 0 ∧ s.ClearToSendSMS = true) →
      issuedReads s = (pendingList s).take 1) := by
  unfold issuedReads
  rcases UpdateMessages_cases s with ⟨hbr, hr, ho⟩ | ⟨hne, h1, h2, h3, ho⟩
  · have hc := pendingList_congr hr
    have hnil : (List.range 256).filter
        (fun k => decide ((UpdateMessages s).serialOut = s.serialOut ++ readCommand k)) = [] := by
      rw [List.filter_eq_nil_iff]
      intro k _
      simp only [decide_eq_true_eq]
      rcases ho with ho | ⟨x, ho⟩
      · rw [ho]
        intro h
        have := congrArg List.length h
        unfold readCommand at this
        simp at this
      · rw [ho]
        intro h
        exact readCommand_ne_delete x k (List.append_cancel_left h)
    rw [hnil, hc.2.2]
    refine ⟨hc.1 ▸ hok, rfl, ?_⟩
    intro hproc hcts hdel
    rcases hbr with hbr | hbr
    · exact absurd hbr hdel
    · have he : s.mPendingMessagesHead = s.mPendingMessagesTail := by
        by_contra hne
        exact hbr ⟨hproc, hne, hcts⟩
      rw [(ring_empty_iff s hok).1 he]
      rfl
  · have hp := ring_pop s (UpdateMessages s) h1 h2 h3 hok hne
    have hone : (List.range 256).filter
        (fun k => decide ((UpdateMessages s).serialOut = s.serialOut ++ readCommand k))
        = [peek s.mPendingMessages s.mPendingMessagesHead % 256] := by
      apply filter_range_eq 256 _ _ (by omega)
      intro k hk
      simp only [decide_eq_true_eq]
      rw [ho]
      constructor
      · intro h
        exact (readCommand_inj (by omega) hk (List.append_cancel_left h)).symm
      · intro h; rw [h]
    rw [hone]
    refine ⟨hp.1, hp.2, ?_⟩
    intro _ _ _
    rw [hp.2]
    rfl

theorem notifiedIndex_congr {s t : SIM7000} (hh : t.mCommandHash = s.mCommandHash)
    (hb : t.mRxBuffer = s.mRxBuffer) (hp : t.mRxBufferPtr = s.mRxBufferPtr) :
    notifiedIndex t = notifiedIndex s := by
  unfold notifiedIndex
  rw [hh, announcedIndex_congr hb hp]

theorem ring_Queue_congr {s t : SIM7000} (k : Nat) (h : ring t = ring s) :
    ring (QueueMessageIndex t k) = ring (QueueMessageIndex s k) := by
  unfold ring at h
  simp only [Prod.mk.injEq] at h
  unfold ring QueueMessageIndex
  simp only [h.1, h.2.1, h.2.2]

theorem SendSMSMessage_ring (s : SIM7000) : ring (SendSMSMessage s) = ring s := by
  unfold SendSMSMessage
  split <;> rfl

theorem UpdateByte_ring (h : Host) (s : SIM7000) (b : Nat) :
    ring (UpdateByte h s b) =
      match byteNotification s b with
      | some k => ring (QueueMessageIndex s k)
      | none => ring s := by
  have hr1 : ∀ bs, ring (passthroughWrite s bs) = ring s :=
    fun bs => ring_of_core (core_passthroughWrite s bs)
  have hp1 : ∀ bs, (passthroughWrite s bs).mRxBufferPtr = s.mRxBufferPtr := by
    intro bs; rw [passthroughWrite_eq]
  have hb1 : ∀ bs, (passthroughWrite s bs).mRxBuffer = s.mRxBuffer := by
    intro bs; rw [passthroughWrite_eq]
  have hh1 : ∀ bs, (passthroughWrite s bs).mCommandHash = s.mCommandHash := by
    intro bs; rw [passthroughWrite_eq]
  unfold UpdateByte byteNotification
  by_cases h1 : b = 13 ∨ b = 0
  · rw [if_pos h1, if_neg (by omega)]
  rw [if_neg h1]
  by_cases h2 : b = 10
  · rw [if_pos h2]
    dsimp only
    by_cases hp : 0 < s.mRxBufferPtr
    · rw [if_pos (show (passthroughWrite s [10]).mRxBufferPtr > 0 by rw [hp1]; exact hp),
        if_pos (show b = 10 ∧ 0 < s.mRxBufferPtr from ⟨h2, hp⟩), HandleCommandResponse_ring]
      have hn : notifiedIndex
          { passthroughWrite s [10] with
            mRxBuffer := poke (passthroughWrite s [10]).mRxBuffer
              (passthroughWrite s [10]).mRxBufferPtr 0
            mRxBufferPtr := 0 }
          = notifiedIndex
            { s with mRxBuffer := poke s.mRxBuffer s.mRxBufferPtr 0, mRxBufferPtr := 0 } :=
        notifiedIndex_congr (hh1 _) (by show poke _ _ 0 = poke _ _ 0; rw [hb1, hp1]) rfl
      rw [hn]
      cases notifiedIndex
        { s with mRxBuffer := poke s.mRxBuffer s.mRxBufferPtr 0, mRxBufferPtr := 0 } with
      | none => exact hr1 _
      | some k => exact ring_Queue_congr k (hr1 [10])
    · rw [if_neg (show ¬ (passthroughWrite s [10]).mRxBufferPtr > 0 by rw [hp1]; exact hp),
        if_neg (show ¬ (b = 10 ∧ 0 < s.mRxBufferPtr) from fun hx => hp hx.2)]
      exact hr1 _
  rw [if_neg h2, if_neg (show ¬ (b = 10 ∧ 0 < s.mRxBufferPtr) from fun hx => h2 hx.1)]
  dsimp only
  have hlen : (passthroughWrite s [b]).mRxBufferPtr % 256 < kRxBufferSize := by
    unfold kRxBufferSize SIM7000_RX_BUFFER_SIZE; omega
  rw [if_pos hlen]
  split
  · rw [SendSMSMessage_ring]; exact hr1 _
  · exact hr1 _

theorem ringOK_step (h : Host) (s : SIM7000) (b : Nat) (hok : ringOK s) :
    ringOK (UpdateByte h s b) := by
  have hr := UpdateByte_ring h s b
  cases hn : byteNotification s b with
  | none =>
    rw [hn] at hr
    exact (pendingList_congr hr).1 ▸ hok
  | some k =>
    rw [hn] at hr
    exact (ring_push s _ k hr hok).1

theorem rxTrace_inv (h : Host) (rx : List Nat) :
    ∀ (s : SIM7000) (n0 : List Nat) (ok0 : Bool), ringOK s →
      (rx.foldl (rxTraceStep h) (s, n0, ok0)).1 = rx.foldl (UpdateByte h) s ∧
      ringOK (rx.foldl (UpdateByte h) s) ∧
      ((rx.foldl (rxTraceStep h) (s, n0, ok0)).2.2 = true →
        ok0 = true ∧ ∃ new, (rx.foldl (rxTraceStep h) (s, n0, ok0)).2.1 = n0 ++ new ∧
          pendingList (rx.foldl (UpdateByte h) s) = pendingList s ++ new) := by
  induction rx with
  | nil =>
    intro s n0 ok0 hok
    exact ⟨rfl, hok, fun hk => ⟨hk, [], by simp, by simp⟩⟩
  | cons b rx ih =>
    intro s n0 ok0 hok
    rw [List.foldl_cons, List.foldl_cons]
    have hr := UpdateByte_ring h s b
    have hok1 := ringOK_step h s b hok
    have hstep : rxTraceStep h (s, n0, ok0) b =
        (match byteNotification s b with
        | some k =>
          (UpdateByte h s b, n0 ++ [k], ok0 && decide (k < 256 ∧ pendingCount s < 14))
        | none => (UpdateByte h s b, n0, ok0)) := rfl
    rw [hstep]
    cases hn : byteNotification s b with
    | none =>
      rw [hn] at hr
      dsimp only
      obtain ⟨e1, e2, e3⟩ := ih (UpdateByte h s b) n0 ok0 hok1
      refine ⟨e1, e2, fun hk => ?_⟩
      obtain ⟨k1, new, k2, k3⟩ := e3 hk
      exact ⟨k1, new, k2, by rw [k3, (pendingList_congr hr).2.2]⟩
    | some k =>
      rw [hn] at hr
      dsimp only
      obtain ⟨e1, e2, e3⟩ := ih (UpdateByte h s b) (n0 ++ [k])
        (ok0 && decide (k < 256 ∧ pendingCount s < 14)) hok1
      refine ⟨e1, e2, fun hk => ?_⟩
      obtain ⟨k1, new, k2, k3⟩ := e3 hk
      simp only [Bool.and_eq_true, decide_eq_true_eq] at k1
      have hpush := (ring_push s _ k hr hok).2 k1.2.2 k1.2.1
      refine ⟨k1.1, k :: new, by rw [k2]; simp, ?_⟩
      rw [k3, hpush.1]; simp

set_option maxRecDepth 100000 in
/-- C13 (counterexample): from the initial state (the readiness line low, so that
no read is issued), after 15 notifications head equals tail although 15 indices
were notified and none was read, and the 16th notification overwrites the entry
of the first. -/
theorem ring_full_is_taken_for_empty :
    notifiedBy hostNoClock SIM7000.init (cmtiLines 15) = List.range' 1 15 ∧
    (Update hostNoClock SIM7000.init (cmtiLines 15)).mPendingMessagesHead
      = (Update hostNoClock SIM7000.init (cmtiLines 15)).mPendingMessagesTail ∧
    (Update hostNoClock SIM7000.init (cmtiLines 15)).mPendingMessages = List.range' 1 15 ∧
    (Update hostNoClock SIM7000.init (cmtiLines 16)).mPendingMessages
      = 16 :: List.range' 2 14 ∧
    pendingList (Update hostNoClock SIM7000.init (cmtiLines 16)) = [16] := by
  decide!

/-- C13 (amended): when every notification among the received bytes carries an
index below 256 and comes with fewer than 14 indices pending, the byte loop of
`Update` (in which no read is issued) leaves the entries that were pending
queued, in their order, followed by the notified indices in the order of their
arrival, and the cursors stay inside the array; for cursors inside the array,
head equals tail exactly when no index is pending. -/
theorem ring_keeps_entries_within_capacity (h : Host) (s : SIM7000) (rx : List Nat)
    (hok : ringOK s) (hcap : withinCapacity h s rx = true) :
    pendingList (rx.foldl (UpdateByte h) s) = pendingList s ++ notifiedBy h s rx ∧
    ringOK (rx.foldl (UpdateByte h) s) ∧
    ((rx.foldl (UpdateByte h) s).mPendingMessagesHead
        = (rx.foldl (UpdateByte h) s).mPendingMessagesTail ↔
      pendingList s ++ notifiedBy h s rx = []) := by
  obtain ⟨_, hok2, e3⟩ := rxTrace_inv h rx s [] true hok
  obtain ⟨_, new, k2, k3⟩ := e3 hcap
  have hn : notifiedBy h s rx = new := by
    unfold notifiedBy; rw [k2]; rfl
  rw [hn, ← k3]
  exact ⟨rfl, hok2, ring_empty_iff _ hok2⟩

set_option maxRecDepth 100000 in
/-- C13, amended, at fourteen notifications received in the initial state. -/
theorem ring_keeps_entries_within_capacity_witness :
    pendingList ((cmtiLines 14).foldl (UpdateByte hostNoClock) SIM7000.init)
      = pendingList SIM7000.init ++ notifiedBy hostNoClock SIM7000.init (cmtiLines 14) ∧
    notifiedBy hostNoClock SIM7000.init (cmtiLines 14) = List.range' 1 14 :=
  ⟨(ring_keeps_entries_within_capacity hostNoClock SIM7000.init (cmtiLines 14)
      ⟨by decide, by decide⟩ (by decide!)).1, by decide!⟩

/-! ### C20: the SMS-SUBMIT layout -/

theorem peek_append (a b : List Nat) (p : Nat) :
    peek (a ++ b) p = if p < a.length then peek a p else peek b (p - a.length) := by
  unfold peek
  simp only [List.getD_eq_getElem?_getD]
  split
  · rename_i h; rw [List.getElem?_append_left h]
  · rename_i h; rw [List.getElem?_append_right (by omega)]

theorem kHexChars_ne_zero : ∀ i < 16, peek kHexChars i ≠ 0 := by decide

theorem hexPair_ne_zero (n : Nat) : ∀ c ∈ hexPair n, c ≠ 0 := by
  intro c hc
  unfold hexPair at hc
  simp only [List.mem_cons, List.mem_singleton, List.not_mem_nil, or_false] at hc
  rcases hc with hc | hc
  · rw [hc]; exact kHexChars_ne_zero _ (by omega)
  · rw [hc]; exact kHexChars_ne_zero _ (by omega)

theorem semiOctetChars_length : ∀ (n : Nat) (num : List Nat), num.length = n →
    (semiOctetChars num).length = n + n % 2 := by
  intro n
  induction n using Nat.strong_induction_on with
  | _ n ih =>
    intro num hn
    match num, hn with
    | [], hn => simp at hn; subst hn; rfl
    | [a], hn => simp at hn; subst hn; rfl
    | a :: b :: rest, hn =>
      simp only [List.length_cons] at hn
      simp only [semiOctetChars, List.length_cons]
      rw [ih rest.length (by omega) rest rfl]
      omega

theorem semiOctetChars_peek : ∀ (n : Nat) (num : List Nat), num.length = n →
    ∀ q, q < n + n % 2 →
      peek (semiOctetChars num) q
        = if swapIndex q < num.length then peek num (swapIndex q) else 70 := by
  intro n
  induction n using Nat.strong_induction_on with
  | _ n ih =>
    intro num hn q hq
    match num, hn with
    | [], hn => simp at hn; subst hn; omega
    | [a], hn =>
      simp at hn; subst hn
      have : q = 0 ∨ q = 1 := by omega
      rcases this with h | h <;> subst h <;> simp [semiOctetChars, swapIndex, peek]
    | a :: b :: rest, hn =>
      simp only [List.length_cons] at hn
      rcases Nat.lt_or_ge q 2 with h2 | h2
      · have : q = 0 ∨ q = 1 := by omega
        rcases this with h | h <;> subst h <;> simp [semiOctetChars, swapIndex, peek]
      · obtain ⟨r, hr⟩ : ∃ r, q = r + 2 := ⟨q - 2, by omega⟩
        subst hr
        have h1 := ih rest.length (by omega) rest rfl r (by omega)
        have hs : swapIndex (r + 2) = swapIndex r + 2 := by
          unfold swapIndex
          split_ifs <;> omega
        have hp : ∀ (l : List Nat) (x y j : Nat), peek (x :: y :: l) (j + 2) = peek l j := by
          intro l x y j; simp [peek]
        simp only [semiOctetChars, hp, h1, hs, List.length_cons]
        have : (swapIndex r + 2 < rest.length + 1 + 1) ↔ (swapIndex r < rest.length) := by omega
        simp only [this]

theorem semiOctetChars_ne_zero (num : List Nat) (hd : ∀ c ∈ num, c ≠ 0) :
    ∀ c ∈ semiOctetChars num, c ≠ 0 := by
  intro c hc
  obtain ⟨q, hq, rfl⟩ : ∃ q, q < (semiOctetChars num).length ∧ peek (semiOctetChars num) q = c := by
    obtain ⟨i, hi, hget⟩ := List.getElem_of_mem hc
    refine ⟨i, hi, ?_⟩
    unfold peek
    rw [List.getD_eq_getElem _ 0 hi]
    exact hget
  rw [semiOctetChars_length num.length num rfl] at hq
  rw [semiOctetChars_peek num.length num rfl q hq]
  split
  · rename_i h; exact hd _ (peek_mem num _ h)
  · decide

theorem Pack7BitEnd_acc (sp octet : Nat) (acc : List Nat) (hacc : ∀ c ∈ acc, c ≠ 0) :
    (∀ c ∈ (Pack7BitEnd sp octet acc).2, c ≠ 0) ∧
    (Pack7BitEnd sp octet acc).2.length ≤ acc.length + 2 := by
  unfold Pack7BitEnd
  split
  · refine ⟨?_, by simp [hexPair_length]⟩
    intro c hc
    rcases List.mem_append.1 hc with h | h
    · exact hacc c h
    · exact hexPair_ne_zero _ c h
  · exact ⟨hacc, by simp⟩

theorem Pack7BitLoop_acc : ∀ (n : Nat) (rest : List Nat), rest.length = n →
    ∀ (sp octet shift : Nat) (acc : List Nat), (∀ c ∈ acc, c ≠ 0) →
      (∀ c ∈ (Pack7BitLoop rest sp octet shift acc).2, c ≠ 0) ∧
      (Pack7BitLoop rest sp octet shift acc).2.length ≤ acc.length + 2 * (n + 1) := by
  intro n
  induction n using Nat.strong_induction_on with
  | _ n ih =>
    intro rest hn sp octet shift acc hacc
    match rest, hn with
    | [], hn =>
      unfold Pack7BitLoop
      have := Pack7BitEnd_acc (sp + 1) octet acc hacc
      exact ⟨this.1, by omega⟩
    | septet :: rest1, hn =>
      simp only [List.length_cons] at hn
      unfold Pack7BitLoop
      split
      · have := Pack7BitEnd_acc (sp + 1) octet acc hacc
        exact ⟨this.1, by omega⟩
      · have hacc1 : ∀ c ∈ acc ++ hexPair ((octet + (septet % 256) * 2 ^ (7 - shift)) % 256),
            c ≠ 0 := by
          intro c hc
          rcases List.mem_append.1 hc with h | h
          · exact hacc c h
          · exact hexPair_ne_zero _ c h
        have hl1 : (acc ++ hexPair ((octet + (septet % 256) * 2 ^ (7 - shift)) % 256)).length
            = acc.length + 2 := by simp [hexPair_length]
        dsimp only
        split
        · have := ih rest1.length (by omega) rest1 rfl (sp + 1)
            ((septet % 256) / 2 ^ (shift + 1)) (shift + 1) _ hacc1
          exact ⟨this.1, by rw [hl1] at this; omega⟩
        · match rest1, hn with
          | [], hn => exact ⟨hacc1, by rw [hl1]; omega⟩
          | octet1 :: rest2, hn =>
            simp only [List.length_cons] at hn
            dsimp only
            split
            · exact ⟨hacc1, by rw [hl1]; omega⟩
            · have := ih rest2.length (by omega) rest2 rfl (sp + 2) (octet1 % 256) 0 _ hacc1
              exact ⟨this.1, by rw [hl1] at this; omega⟩

theorem Pack7BitChars_acc (msg : List Nat) :
    (∀ c ∈ Pack7BitChars msg, c ≠ 0) ∧
    (Pack7BitChars msg).length = 2 + (Pack7BitScan msg).2.length ∧
    (Pack7BitScan msg).2.length ≤ 2 * msg.length := by
  have hscan : (∀ c ∈ (Pack7BitScan msg).2, c ≠ 0) ∧
      (Pack7BitScan msg).2.length ≤ 2 * msg.length := by
    unfold Pack7BitScan
    match msg with
    | [] => exact ⟨by simp, by simp⟩
    | octet :: rest =>
      dsimp only
      split
      · exact ⟨by simp, by simp⟩
      · have := Pack7BitLoop_acc rest.length rest rfl 1 (octet % 256) 0 [] (by simp)
        refine ⟨this.1, ?_⟩
        have h2 := this.2
        simp only [List.length_nil, List.length_cons] at h2 ⊢
        omega
  refine ⟨?_, by unfold Pack7BitChars; simp [hexPair_length], hscan.2⟩
  intro c hc
  unfold Pack7BitChars at hc
  rcases List.mem_append.1 hc with h | h
  · exact hexPair_ne_zero _ c h
  · exact hscan.1 c h

theorem createPDU_peek (number msg out : List Nat) (dom : Bool)
    (hd : number.length ≤ 15) (hdig : ∀ c ∈ number, 48 ≤ c ∧ c ≤ 57) (p : Nat)
    (hp : p ≤ (submitPDUChars number msg dom).length) :
    peek (CreateSMSSubmitPDU number msg dom out).2 p
      = peek (submitPDUChars number msg dom ++ [0]) p := by
  have hnz : ∀ c ∈ number, c % 256 ≠ 0 := by
    intro c hc; have := hdig c hc; omega
  obtain ⟨e1, e2⟩ := decStr_encode number
    (blit (blit (blit out 0 (hexPair 0)) 2 (hexPair 17)) 4 (hexPair 0)) 10 (by omega) hnz
  have hskip : (number.length + 1) % 256 / 2 * 2 = number.length + number.length % 2 := by
    omega
  have hsl := semiOctetChars_length number.length number rfl
  have hB := (Pack7BitChars_acc msg).2.1
  unfold submitPDUChars at hp ⊢
  simp only [List.length_append, hexPair_length, hsl] at hp
  unfold CreateSMSSubmitPDU Pack7BitToPDU Uint8ToHexStr
  simp only [Nat.zero_add, e1, hskip]
  simp only [peek_blit, peek_append, e2, List.length_append, hexPair_length, hsl,
    List.length_singleton]
  generalize (if dom = true then 129 else 145) = ty
  have hcases : p < 2 ∨ (2 ≤ p ∧ p < 4) ∨ (4 ≤ p ∧ p < 6) ∨ (6 ≤ p ∧ p < 8) ∨ (8 ≤ p ∧ p < 10) ∨
      (10 + (number.length + number.length % 2) ≤ p ∧
        p < 12 + (number.length + number.length % 2)) ∨
      (12 + (number.length + number.length % 2) ≤ p ∧
        p < 14 + (number.length + number.length % 2)) ∨
      (14 + (number.length + number.length % 2) ≤ p ∧
        p < 16 + (number.length + number.length % 2)) ∨
      (16 + (number.length + number.length % 2) ≤ p ∧
        p < 16 + (number.length + number.length % 2) + (Pack7BitChars msg).length) ∨
      (p = 16 + (number.length + number.length % 2) + (Pack7BitChars msg).length) ∨
      (10 ≤ p ∧ p < 10 + (number.length + number.length % 2)) := by omega
  rcases hcases with h | h | h | h | h | h | h | h | h | h | h
  iterate 10
    · (repeat (first | rw [if_pos (by omega)] | rw [if_neg (by omega)]))
      all_goals (first | rfl | (congr 1; omega))
  · repeat (first | rw [if_pos (by omega)] | rw [if_neg (by omega)])
    have hsp := semiOctetChars_peek number.length number rfl (p - 10) (by omega)
    by_cases hs : swapIndex (p - 10) < number.length
    · rw [if_pos hs] at hsp ⊢
      repeat (first | rw [if_pos (by omega)] | rw [if_neg (by omega)])
      rw [show p - (2 + 2 + 2 + 2 + 2) = p - 10 from rfl, hsp]
      have := hdig _ (peek_mem number _ hs)
      omega
    · rw [if_neg hs] at hsp ⊢
      repeat (first | rw [if_pos (by omega)] | rw [if_neg (by omega)])
      rw [show p - (2 + 2 + 2 + 2 + 2) = p - 10 from rfl, hsp]

theorem createPDU_cstr (number msg out : List Nat) (dom : Bool)
    (hd : number.length ≤ 15) (hdig : ∀ c ∈ number, 48 ≤ c ∧ c ≤ 57) :
    cstr (CreateSMSSubmitPDU number msg dom out).2 0 = submitPDUChars number msg dom := by
  apply cstr_of_peek
  · intro p hp
    rw [createPDU_peek number msg out dom hd hdig p (by omega), peek_append, if_pos hp]
  · rw [createPDU_peek number msg out dom hd hdig _ (le_refl _), peek_append,
      if_neg (by omega), Nat.sub_self]
    rfl
  · intro c hc
    unfold submitPDUChars at hc
    simp only [List.mem_append] at hc
    rcases hc with ((((((((h | h) | h) | h) | h) | h) | h) | h) | h) | h
    all_goals first
      | exact hexPair_ne_zero _ c h
      | exact (Pack7BitChars_acc msg).1 c h
      | exact semiOctetChars_ne_zero number (fun x hx => by have := hdig x hx; omega) c h

theorem createPDU_return (number msg out : List Nat) (dom : Bool)
    (hd : number.length ≤ 15) (hdig : ∀ c ∈ number, 48 ≤ c ∧ c ≤ 57) :
    (CreateSMSSubmitPDU number msg dom out).1
      = ((submitPDUChars number msg dom).length / 2 - 1) % 256 := by
  have hnz : ∀ c ∈ number, c % 256 ≠ 0 := by
    intro c hc; have := hdig c hc; omega
  obtain ⟨e1, _⟩ := decStr_encode number
    (blit (blit (blit out 0 (hexPair 0)) 2 (hexPair 17)) 4 (hexPair 0)) 10 (by omega) hnz
  have hsl := semiOctetChars_length number.length number rfl
  have hB := (Pack7BitChars_acc msg).2.1
  unfold submitPDUChars
  simp only [List.length_append, hexPair_length, hsl, hB]
  unfold CreateSMSSubmitPDU Pack7BitToPDU Uint8ToHexStr
  simp only [Nat.zero_add, e1]
  omega

/-- C20 (amended): for every phone number of at most 15 digits, domestic flag,
message text and buffer, the C string that `CreateSMSSubmitPDU` leaves in the
buffer is, in order, the hex octets 00, 11, 00, the digit count, 81 or 91, the
semi-octet-packed number, 00, 00, A7 and the length-prefixed packed body of
`Pack7BitToPDU`; the value returned is half the number of hex characters written,
minus one, taken modulo 256 (it is a `uint8_t`), which for a text of at most 160
characters is the number of octets written after the SMSC octet. -/
theorem submit_pdu_layout (number msg out : List Nat) (dom : Bool)
    (hd : number.length ≤ 15) (hdig : ∀ c ∈ number, 48 ≤ c ∧ c ≤ 57) :
    cstr (CreateSMSSubmitPDU number msg dom out).2 0 = submitPDUChars number msg dom ∧
    (CreateSMSSubmitPDU number msg dom out).1
      = ((cstr (CreateSMSSubmitPDU number msg dom out).2 0).length / 2 - 1) % 256 ∧
    (msg.length ≤ 160 →
      (CreateSMSSubmitPDU number msg dom out).1
        = (cstr (CreateSMSSubmitPDU number msg dom out).2 0).length / 2 - 1) := by
  have hc := createPDU_cstr number msg out dom hd hdig
  have hr := createPDU_return number msg out dom hd hdig
  rw [hc]
  refine ⟨rfl, hr, ?_⟩
  intro hm
  rw [hr]
  apply Nat.mod_eq_of_lt
  have hsl := semiOctetChars_length number.length number rfl
  have hB := Pack7BitChars_acc msg
  unfold submitPDUChars
  simp only [List.length_append, hexPair_length, hsl, hB.2.1]
  omega

/-- C20, amended, at the number "5551234567" and the text "hello". -/
theorem submit_pdu_layout_witness :
    cstr (CreateSMSSubmitPDU (bytes "5551234567") (bytes "hello") true []).2 0
      = submitPDUChars (bytes "5551234567") (bytes "hello") true ∧
    submitPDUChars (bytes "5551234567") (bytes "hello") true
      = bytes "0011000A8155153254760000A705E8329BFD06" :=
  ⟨(submit_pdu_layout (bytes "5551234567") (bytes "hello") [] true (by decide)
      (by decide)).1, by decide!⟩

set_option maxRecDepth 100000 in
/-- C20 (counterexample): for a text of 300 characters 'a' the PDU has 277 octets,
276 of them after the SMSC octet, and the value returned is 20. -/
theorem submit_pdu_return_wraps :
    (CreateSMSSubmitPDU (bytes "5551234567") (List.replicate 300 97) true []).1 = 20 ∧
    (cstr (CreateSMSSubmitPDU (bytes "5551234567") (List.replicate 300 97) true []).2 0).length
      / 2 - 1 = 276 := by
  rw [createPDU_return _ _ _ _ (by decide) (by decide),
    createPDU_cstr _ _ _ _ (by decide) (by decide)]
  decide!

/-! ### C17: line framing -/

theorem rxbuf_SendCommand (s : SIM7000) (c : List Nat) (a b : Nat) :
    (SendCommand s c a b).2.mRxBuffer = s.mRxBuffer := by
  unfold SendCommand
  split <;> simp only [passthroughWrite_eq, serialWrite, FlushRxBuffer]

theorem rxbuf_CheckLevels (s : SIM7000) : (CheckLevels s).mRxBuffer = s.mRxBuffer := by
  unfold CheckLevels SendCommandIgnored
  dsimp only
  split_ifs <;> first | rfl | exact rxbuf_SendCommand _ _ _ _

theorem rxbuf_TurnOffEchoMode (s : SIM7000) (r : Nat) :
    (TurnOffEchoMode s r).mRxBuffer = s.mRxBuffer := by
  unfold TurnOffEchoMode SendCommandIgnored
  rw [rxbuf_SendCommand]

theorem rxbuf_SetBaudOrFlowControl (s : SIM7000) :
    (SetBaudOrFlowControl s).mRxBuffer = s.mRxBuffer := by
  unfold SetBaudOrFlowControl SendCommandIgnored
  split <;> rw [rxbuf_SendCommand]

theorem rxbuf_completedBeforeReply (s : SIM7000) :
    (completedBeforeReply s).mRxBuffer = s.mRxBuffer := by
  unfold completedBeforeReply
  split_ifs <;>
    first
    | rfl
    | exact rxbuf_SetBaudOrFlowControl _
    | exact rxbuf_CheckLevels _
    | exact rxbuf_TurnOffEchoMode _ _

theorem rxbuf_HandleCommandCompleted (h : Host) (s : SIM7000) :
    (HandleCommandCompleted h s).mRxBuffer = s.mRxBuffer :=
  HandleCommandCompleted_cases h s (fun t => t.mRxBuffer = s.mRxBuffer)
    (rxbuf_completedBeforeReply s)
    (fun a m _ _ _ => (SendSMS_mRxBuffer _ a m).trans (rxbuf_completedBeforeReply s))

theorem rxbuf_UpdateTime (s : SIM7000) (t : Nat) : (UpdateTime s t).mRxBuffer = s.mRxBuffer := by
  unfold UpdateTime; split <;> rfl

theorem rxbuf_ParseCommandResponse (h : Host) (s : SIM7000) :
    (ParseCommandResponse h s).mRxBuffer = s.mRxBuffer := by
  unfold ParseCommandResponse
  dsimp only
  split_ifs
  · exact ParseDispatch_cases h _ _ _ _ (fun t => t.mRxBuffer = s.mRxBuffer) rfl (fun _ => rfl)
      (fun _ => rxbuf_UpdateTime _ _) (fun _ => rfl) (fun _ => rfl)
      (fun _ => rfl) rfl (fun _ _ => rfl) rfl (fun _ => rfl) rfl
  · rfl
  · rfl

theorem rxbuf_ClassifyLine (h : Host) (s : SIM7000) :
    (ClassifyLine h s).mRxBuffer = s.mRxBuffer :=
  ClassifyLine_cases h s (fun t => t.mRxBuffer = s.mRxBuffer) rfl
    (fun _ => rxbuf_UpdateTime _ _)
    (fun _ => rxbuf_ParseCommandResponse h s)
    (fun _ => rfl) (fun _ => rfl)
    (fun _ => rxbuf_HandleCommandCompleted h _)

theorem rxbuf_MessageRead (s : SIM7000) (m : List Nat) (n : Nat) (a b : List Nat) :
    (MessageRead s m n a b).mRxBuffer = s.mRxBuffer := by
  cases s
  simp only [MessageRead, passthroughWrite]
  split_ifs <;> rfl

theorem rxbuf_HandleMultiLineCommand (s : SIM7000) :
    (HandleMultiLineCommand s).2.mRxBuffer = s.mRxBuffer := by
  unfold HandleMultiLineCommand
  split
  · simp only [rxbuf_MessageRead]
  · rfl

theorem rxbuf_ResumeFlush (s : SIM7000) :
    (ResumeRx (FlushRxBuffer s)).mRxBuffer = s.mRxBuffer := by
  rw [ResumeRx_eq]; rfl

theorem rxbuf_HandleCommandResponse (h : Host) (s : SIM7000) :
    (HandleCommandResponse h s).mRxBuffer = s.mRxBuffer := by
  obtain ⟨s2, _, hb, _, _, he⟩ := HandleCommandResponse_split h s
  rw [he, rxbuf_ResumeFlush]
  split
  · rw [rxbuf_HandleMultiLineCommand, hb]
  · rw [rxbuf_ClassifyLine, hb]

theorem splitOn_first (cur rest : List Nat) (hc : ∀ c ∈ cur, c ≠ 10) :
    (cur ++ 10 :: rest).splitOn 10 = cur :: rest.splitOn 10 := by
  unfold List.splitOn
  apply List.splitOnP_first
  · intro x hx
    simpa using hc x hx
  · simp

theorem splitOn_head (rest : List Nat) : ∀ (cur : List Nat), (∀ c ∈ cur, c ≠ 10) →
    ∃ hd tl, (cur ++ rest).splitOn 10 = (cur ++ hd) :: tl := by
  intro cur
  induction cur with
  | nil =>
    intro _
    cases hsp : rest.splitOn 10 with
    | nil => exact absurd hsp (List.splitOnP_ne_nil _ _)
    | cons hd tl => exact ⟨hd, tl, by simpa using hsp⟩
  | cons x xs ih =>
    intro hc
    obtain ⟨hd, tl, e⟩ := ih (fun c hcx => hc c (List.mem_cons_of_mem _ hcx))
    refine ⟨hd, tl, ?_⟩
    have hx : x ≠ 10 := hc x (List.mem_cons_self _ _)
    unfold List.splitOn at e ⊢
    rw [List.cons_append, List.splitOnP_cons, if_neg (by simpa using hx), e]
    rfl

theorem dropLast_getLastD_cons (a : List Nat) (l : List (List Nat)) (hl : l ≠ []) :
    (a :: l).dropLast = a :: l.dropLast ∧ (a :: l).getLastD [] = l.getLastD [] := by
  cases l with
  | nil => exact absurd rfl hl
  | cons y ys => exact ⟨rfl, by simp [List.getLastD_cons]⟩

theorem stripped_cons (b : Nat) (rx : List Nat) :
    stripped (b :: rx) = if b = 13 ∨ b = 0 then stripped rx else b :: stripped rx := by
  unfold stripped
  rw [List.filter_cons]
  by_cases hb : b = 13 ∨ b = 0
  · rw [if_pos hb, if_neg (by simp; omega)]
  · rw [if_neg hb, if_pos (by simp; omega)]


/-! ### C26: two hex digits and back -/

theorem hexPair_digits : ∀ b, b < 256 →
    hexPair b = [upperHexDigit (b / 16), upperHexDigit (b % 16)] := by
  decide!

/-- C26: for every byte value `b`, `Uint8ToHexStr` stores the two upper-case hex
digits of `b` (the high one first, a leading zero included) at the buffer position,
changes no other byte, and returns the position advanced by 2; `HexStrToUint8`
applied to the buffer at that position returns `b` and the cursor advanced by 2. -/
theorem hex_byte_roundtrip (b : Nat) (hb : b < 256) (buf : List Nat) (pos : Nat) :
    (Uint8ToHexStr b buf pos).2 = pos + 2 ∧
    peek (Uint8ToHexStr b buf pos).1 pos = upperHexDigit (b / 16) ∧
    peek (Uint8ToHexStr b buf pos).1 (pos + 1) = upperHexDigit (b % 16) ∧
    (∀ j, j ≠ pos → j ≠ pos + 1 → peek (Uint8ToHexStr b buf pos).1 j = peek buf j) ∧
    HexStrToUint8 (Uint8ToHexStr b buf pos).1 pos = (b, pos + 2) := by
  have h0 : peek (Uint8ToHexStr b buf pos).1 pos = peek (hexPair b) 0 := by
    unfold Uint8ToHexStr
    rw [peek_blit, if_pos ⟨le_refl _, by simp [hexPair_length]⟩, Nat.sub_self]
  have h1 : peek (Uint8ToHexStr b buf pos).1 (pos + 1) = peek (hexPair b) 1 := by
    unfold Uint8ToHexStr
    rw [peek_blit, if_pos ⟨by omega, by simp [hexPair_length]⟩, Nat.add_sub_cancel_left]
  refine ⟨rfl, ?_, ?_, ?_, HexStrToUint8_of_peek _ pos b hb h0 h1⟩
  · rw [h0, hexPair_digits b hb]; rfl
  · rw [h1, hexPair_digits b hb]; rfl
  · intro j hj0 hj1
    unfold Uint8ToHexStr
    rw [peek_blit, hexPair_length, if_neg (by omega)]

/-- C26 at the byte 0x0A, stored as "0A" at position 3 of an empty buffer. -/
theorem hex_byte_roundtrip_witness :
    10 < 256 ∧
    cstr (Uint8ToHexStr 10 [] 3).1 3 = bytes "0A" ∧
    HexStrToUint8 (Uint8ToHexStr 10 [] 3).1 3 = (10, 5) :=
  ⟨by decide, by decide, (hex_byte_roundtrip 10 (by decide) [] 3).2.2.2.2⟩

/-! ### C21: the offset of the user data -/

/-- C21, amended: for an SMS-DELIVER record (message type 0) whose originating
address holds `d` digits (1 ≤ d ≤ 15), so that the address field ends
`4 + d + d mod 2` characters after the first octet, `ParseTPDU` unpacks the user
data from the character 18 past the end of the address field: the length it
returns is the octet read there and the message is what `UnpackPDUTo7bit` gives
there. -/
theorem parseTPDU_skips_18_characters (buf : List Nat) (pos : Nat) (num msg sender : List Nat)
    (hty : (HexStrToUint8 buf pos).1 % 4 = 0)
    (h1 : 1 ≤ num.length) (h15 : num.length ≤ 15) (hdig : ∀ c ∈ num, 48 ≤ c ∧ c ≤ 57)
    (hlen : (HexStrToUint8 buf (pos + 2)).1 = num.length)
    (hrec : ∀ q, q < num.length + num.length % 2 →
      peek buf (pos + 2 + 4 + q) = if swapIndex q < num.length then peek num (swapIndex q) else 70) :
    (ParseTPDU buf pos msg sender).1
      = (HexStrToUint8 buf (pos + 2 + (4 + num.length + num.length % 2) + 18)).1 ∧
    (ParseTPDU buf pos msg sender).2.1
      = (UnpackPDUTo7bit buf (pos + 2 + (4 + num.length + num.length % 2) + 18) msg 0).2 ∧
    cstr (ParseTPDU buf pos msg sender).2.2 0 = num := by
  obtain ⟨d0, d1, d2, _⟩ := extractAddress_decode buf (pos + 2) num sender h1 h15 hdig hlen hrec
  have hpos2 : (HexStrToUint8 buf pos).2 = pos + 2 := rfl
  have hoff : pos + 2 + (num.length + num.length % 2 + 4) + (2 + 2 + 14)
      = pos + 2 + (4 + num.length + num.length % 2) + 18 := by omega
  unfold ParseTPDU
  simp only [hty, if_true, hpos2, d0, hoff]
  refine ⟨rfl, trivial, ?_⟩
  exact cstr_of_peek num _ d1 d2 (fun c hc => by have := hdig c hc; omega)

/-- C21 at the SMS-DELIVER record of the example line, which starts at character
16: the address "05087133317" ends at character 34, the length octet 03 is read
at character 52. -/
theorem parseTPDU_skips_18_characters_witness :
    (ParseTPDU ackPDULine 16 [] []).1 = (HexStrToUint8 ackPDULine (16 + 2 + (4 + 11 + 1) + 18)).1 ∧
    (ParseTPDU ackPDULine 16 [] []).2.1 = (UnpackPDUTo7bit ackPDULine (16 + 2 + (4 + 11 + 1) + 18) [] 0).2 ∧
    cstr (ParseTPDU ackPDULine 16 [] []).2.2 0 = bytes "05087133317" :=
  parseTPDU_skips_18_characters ackPDULine 16 (bytes "05087133317") [] []
    (by decide!) (by decide) (by decide) (by decide) (by decide!) (by decide!)

/-- C21, evaluated on the code: in the example record the address field ends at
character 34; `ParseTPDU` returns the length 3 and the text "ack", which is what
`UnpackPDUTo7bit` reads at character 34 + 18, whereas the octet 20 characters
past the address is E1 (225). -/
theorem parseTPDU_user_data_not_at_20 :
    (ExtractAddress ackPDULine 18 false [] false).1 = 16 ∧
    (ParseTPDU ackPDULine 16 [] []).1 = 3 ∧
    cstr (ParseTPDU ackPDULine 16 [] []).2.1 0 = bytes "ack" ∧
    UnpackPDUTo7bit ackPDULine (34 + 18) [] 0 = (3, bytes "ack" ++ [0]) ∧
    (UnpackPDUTo7bit ackPDULine (34 + 20) [] 0).1 = 225 := by
  decide!

/-! ### C23: the hash formula -/

theorem ParseScan_hash (m : List Nat) (hm : ∀ c ∈ m, c ≠ 0 ∧ c ≠ 58 ∧ c < 128) :
    ∀ pos hash, (ParseScan (m ++ [58]) pos hash).2.2
      = m.foldl (fun hash c => ((hash + c) % 65536 * c % 65536) % 8191) hash := by
  induction m with
  | nil => intro pos hash; simp [ParseScan]
  | cons a t ih =>
    intro pos hash
    obtain ⟨ha0, ha58, ha⟩ := hm a (by simp)
    have hc : charToUint16 a = a := by
      unfold charToUint16
      rw [if_pos (by omega)]; omega
    rw [List.cons_append, ParseScan, if_neg ha0, if_pos ha58, List.foldl_cons,
      ih (fun c hc => hm c (by simp [hc]))]
    simp only [hashStep, hc]

/-- C23, amended: for every mnemonic of the command list, the hash that
`ParseCommandResponse` computes equals the formula with the sum and the product
each reduced modulo 2^16 (the width of `uint16_t` and of `unsigned int` on the
target) before the reduction modulo `0x1FFF`; it is the constant of the table. -/
theorem command_hash_is_wrapped_formula :
    commandHashTable.map (fun p => commandHash (bytes p.1))
      = commandHashTable.map (fun p => wrappedHash (bytes p.1)) ∧
    commandHashTable.map (fun p => wrappedHash (bytes p.1)) = commandHashTable.map Prod.snd := by
  have hchars : ∀ p ∈ commandHashTable, ∀ c ∈ bytes p.1, c ≠ 0 ∧ c ≠ 58 ∧ c < 128 := by
    decide
  have h1 : commandHashTable.map (fun p => commandHash (bytes p.1))
      = commandHashTable.map (fun p => wrappedHash (bytes p.1)) := by
    apply List.map_congr_left
    intro p hp
    exact ParseScan_hash (bytes p.1) (hchars p hp) 0 0
  refine ⟨h1, ?_⟩
  rw [← h1]
  decide!

/-- C23, evaluated on the code: for "CFUN" the formula in exact integer arithmetic
gives 2763 (its second step gives 7872) while the code computes 5504 (second step
7840), and the two differ for every one of the 120 mnemonics of the list. -/
theorem command_hash_differs_from_exact_formula :
    exactHash (bytes "CFUN") = 2763 ∧ commandHash (bytes "CFUN") = 5504 ∧
    exactHash (bytes "CF") = 7872 ∧ commandHash (bytes "CF") = 7840 ∧
    (commandHashTable.filter
      (fun p => decide (commandHash (bytes p.1) = exactHash (bytes p.1)))) = [] := by
  decide!

/-! ### C30: the baud-rate command -/

theorem SendCommand_ready (s : SIM7000) (cmd : List Nat) (hash t : Nat)
    (hpin : s.rxPin = true) (hbusy : s.mCommandState ≠ eBusy) :
    (SendCommandIgnored s cmd hash t).serialOut = s.serialOut ++ (cmd ++ [13, 10]) ∧
    (SendCommandIgnored s cmd hash t).mCommandHash = hash % 65536 ∧
    (SendCommandIgnored s cmd hash t).mCommandState = eBusy ∧
    (SendCommandIgnored s cmd hash t).mRetries = s.mRetries ∧
    (SendCommandIgnored s cmd hash t).mSleepState = s.mSleepState ∧
    (SendCommandIgnored s cmd hash t).rxPin = s.rxPin := by
  have hc : s.ClearToSend = true := by
    simp only [ClearToSend, IsBusy, hpin, Bool.and_true, Bool.not_eq_true', beq_eq_false_iff_ne,
      ne_eq]
    exact hbusy
  unfold SendCommandIgnored SendCommand
  rw [if_pos hc]
  simp only [passthroughWrite_eq, serialWrite, FlushRxBuffer]
  refine ⟨?_, ?_, ?_, ?_, ?_, ?_⟩ <;> first | rfl | trivial

theorem ipr_follow_on_step (h : Host) (s : SIM7000)
    (hh : s.mCommandHash = kIPRCmdHash)
    (hw : s.mSleepState ≠ eWakingUp) (hpin : s.rxPin = true) :
    (HandleCommandCompleted h s).serialOut
      = s.serialOut ++ ((if s.mRetries ≠ 0 ∧ s.mRetries < kAutobaudEchoRetries
          then bytes "AT+IPR=9600" else bytes "AT+IFC=1;+CLTS=1;+CREG=1") ++ [13, 10]) ∧
    (HandleCommandCompleted h s).mCommandHash
      = (if s.mRetries ≠ 0 ∧ s.mRetries < kAutobaudEchoRetries then kIPRCmdHash
          else kIFCCmdHash) ∧
    (HandleCommandCompleted h s).mCommandState = eBusy ∧
    (HandleCommandCompleted h s).mRetries = s.mRetries ∧
    (HandleCommandCompleted h s).mSleepState = s.mSleepState ∧
    (HandleCommandCompleted h s).rxPin = true := by
  have key : (completedBeforeReply s).serialOut
      = s.serialOut ++ ((if s.mRetries ≠ 0 ∧ s.mRetries < kAutobaudEchoRetries
          then bytes "AT+IPR=9600" else bytes "AT+IFC=1;+CLTS=1;+CREG=1") ++ [13, 10]) ∧
    (completedBeforeReply s).mCommandHash
      = (if s.mRetries ≠ 0 ∧ s.mRetries < kAutobaudEchoRetries then kIPRCmdHash
          else kIFCCmdHash) ∧
    (completedBeforeReply s).mCommandState = eBusy ∧
    (completedBeforeReply s).mRetries = s.mRetries ∧
    (completedBeforeReply s).mSleepState = s.mSleepState ∧
    (completedBeforeReply s).rxPin = true := by
    unfold completedBeforeReply
    rw [if_pos hw, if_pos (Or.inr hh)]
    unfold SetBaudOrFlowControl
    simp only []
    by_cases hr : s.mRetries ≠ 0 ∧ s.mRetries < kAutobaudEchoRetries
    · rw [if_pos hr, if_pos hr, if_pos hr]
      obtain ⟨a, b, c, d, e, f⟩ := SendCommand_ready
        { s with mCommandTimeout := s.mCommandTimeout.Set 0, mCommandHash := 0, mCommandState := eReady }
        (bytes "AT+IPR=9600") kIPRCmdHash 1000 hpin (by simp)
      exact ⟨a, b, c, d, e, f.trans hpin⟩
    · rw [if_neg hr, if_neg hr, if_neg hr]
      obtain ⟨a, b, c, d, e, f⟩ := SendCommand_ready
        { s with mCommandTimeout := s.mCommandTimeout.Set 0, mCommandHash := 0, mCommandState := eReady }
        (bytes "AT+IFC=1;+CLTS=1;+CREG=1") kIFCCmdHash 1000 hpin (by simp)
      exact ⟨a, b, c, d, e, f.trans hpin⟩
  rw [HandleCommandCompleted_eq, if_pos hw, ProcessQueuedSMSReply_busy h _ key.2.2.1]
  exact key

/-- C30: when "AT+IPR=9600" completes (the pending hash is `kIPRCmdHash`, the
modem is not waking up and the readiness line is high), `HandleCommandCompleted`
sends "AT+IPR=9600" again if the retry counter is in 1..9 and
"AT+IFC=1;+CLTS=1;+CREG=1" otherwise; the retry counter is left as it is, and
after a resend the pending hash is again `kIPRCmdHash`. -/
theorem ipr_completion_follow_on (h : Host) (s : SIM7000)
    (hh : s.mCommandHash = kIPRCmdHash)
    (hw : s.mSleepState ≠ eWakingUp) (hpin : s.rxPin = true) :
    (HandleCommandCompleted h s).serialOut
      = s.serialOut ++ ((if s.mRetries ≠ 0 ∧ s.mRetries < kAutobaudEchoRetries
          then bytes "AT+IPR=9600" else bytes "AT+IFC=1;+CLTS=1;+CREG=1") ++ [13, 10]) ∧
    (HandleCommandCompleted h s).mCommandHash
      = (if s.mRetries ≠ 0 ∧ s.mRetries < kAutobaudEchoRetries then kIPRCmdHash
          else kIFCCmdHash) ∧
    (HandleCommandCompleted h s).mCommandState = eBusy ∧
    (HandleCommandCompleted h s).mRetries = s.mRetries ∧
    (HandleCommandCompleted h s).mSleepState = s.mSleepState ∧
    (HandleCommandCompleted h s).rxPin = true :=
  ipr_follow_on_step h s hh hw hpin

/-- C30 at a state in which "AT+IPR=9600" is in flight with 9 retries left: its
completion sends "AT+IPR=9600" again. -/
theorem ipr_completion_follow_on_witness :
    (HandleCommandCompleted hostNoClock
      { readyModem with mCommandHash := kIPRCmdHash, mCommandState := eBusy, mRetries := 9 }).serialOut
      = bytes "AT+IPR=9600" ++ [13, 10] :=
  (ipr_completion_follow_on hostNoClock
    { readyModem with mCommandHash := kIPRCmdHash, mCommandState := eBusy, mRetries := 9 }
    rfl (by decide) rfl).1

theorem ipr_completions (h : Host) (n : Nat) : ∀ (s : SIM7000), s.mCommandHash = kIPRCmdHash →
    s.mSleepState ≠ eWakingUp → s.rxPin = true →
    (s.mRetries ≠ 0 ∧ s.mRetries < kAutobaudEchoRetries) →
    (completions h n s).serialOut = s.serialOut ++ iprSent n := by
  induction n with
  | zero => intro s _ _ _ _; simp [completions, iprSent]
  | succ n ih =>
    intro s hh hw hpin hr
    obtain ⟨a, b, _, d, e, f⟩ := ipr_follow_on_step h s hh hw hpin
    rw [if_pos hr] at a b
    rw [completions, ih _ b (by rw [e]; exact hw) f (by rw [d]; exact hr), a]
    simp [iprSent, List.append_assoc]

/-- C30, evaluated on the code: "ATE0" is sent with 10 retries and times out once,
so that the resent "ATE0" is answered with 9 retries left; its "OK" sends
"AT+IPR=9600", and each further "OK" sends "AT+IPR=9600" again, the flow-control
command never being sent. -/
theorem ipr_sent_again_after_ok :
    (HandleCommandTimeout (echoOffSent 10)).mRetries = 9 ∧
    (receiveLines hostNoClock (HandleCommandTimeout (echoOffSent 10)) ["OK", "OK", "OK"]).serialOut
      = bytes "ATE0" ++ [13, 10] ++ bytes "ATE0" ++ [13, 10]
        ++ [19] ++ bytes "AT+IPR=9600" ++ [13, 10, 17]
        ++ [19] ++ bytes "AT+IPR=9600" ++ [13, 10, 17]
        ++ [19] ++ bytes "AT+IPR=9600" ++ [13, 10, 17] ∧
    (receiveLines hostNoClock (HandleCommandTimeout (echoOffSent 10))
      ["OK", "OK", "OK"]).mCommandHash = kIPRCmdHash := by
  decide!

/-! ### C29: the pending hash and unsolicited lines -/

theorem ResumeFlush_mCommandHash (s : SIM7000) :
    (ResumeRx (FlushRxBuffer s)).mCommandHash = s.mCommandHash := by
  rw [ResumeRx_eq]; rfl

theorem ParseCommandResponse_hash (h : Host) (s : SIM7000)
    (hcolon : (ParseScan (s.mRxBuffer.drop (s.mRxBufferPtr + 1)) (s.mRxBufferPtr + 1) 0).1 = true) :
    (ParseCommandResponse h s).mCommandHash
        = (ParseScan (s.mRxBuffer.drop (s.mRxBufferPtr + 1)) (s.mRxBufferPtr + 1) 0).2.2 ∨
    (ParseCommandResponse h s).mCommandHash = 0 := by
  unfold ParseCommandResponse
  simp only [hcolon, if_true]
  split
  · apply ParseDispatch_cases h _ _ _ _
      (fun x => x.mCommandHash = (ParseScan (s.mRxBuffer.drop (s.mRxBufferPtr + 1))
        (s.mRxBufferPtr + 1) 0).2.2 ∨ x.mCommandHash = 0)
    · exact Or.inl rfl
    · intro b; exact Or.inl rfl
    · intro t; unfold UpdateTime; split <;> exact Or.inl rfl
    · intro b; exact Or.inl rfl
    · intro b; exact Or.inl rfl
    · intro _; exact Or.inl rfl
    · exact Or.inl rfl
    · intro _ i; exact Or.inl rfl
    · exact Or.inr rfl
    · intro _; exact Or.inl rfl
    · exact Or.inl rfl
  · exact Or.inl rfl

/-- C29, amended: a line that starts with '+' and has a colon replaces the
pending hash, whatever `SendCommand` recorded: unless the text of a message is
expected (pending hash of +CMGL or +CMGR), after `HandleCommandResponse` the
pending hash is the hash of the line's own mnemonic, or 0. -/
theorem plus_line_replaces_pending_hash (h : Host) (s : SIM7000)
    (hN : ¬ (s.mCommandHash = kCMGLCmdHash ∨ s.mCommandHash = kCMGRCmdHash))
    (hplus : peek s.mRxBuffer s.mRxBufferPtr = 43)
    (hcolon : (ParseScan (s.mRxBuffer.drop (s.mRxBufferPtr + 1)) (s.mRxBufferPtr + 1) 0).1 = true) :
    (HandleCommandResponse h s).mCommandHash
        = (ParseScan (s.mRxBuffer.drop (s.mRxBufferPtr + 1)) (s.mRxBufferPtr + 1) 0).2.2 ∨
    (HandleCommandResponse h s).mCommandHash = 0 := by
  obtain ⟨s2, _, hb, hp, _, he⟩ := HandleCommandResponse_split h s
  rw [he, if_neg hN, ResumeFlush_mCommandHash]
  have hc : ClassifyLine h s2 = ParseCommandResponse h s2 := by
    unfold ClassifyLine
    simp only [hb, hp, hplus]
    rw [if_neg (by decide), if_pos trivial]
  rw [hc, ← hb, ← hp]
  exact ParseCommandResponse_hash h s2 (by rw [hb, hp]; exact hcolon)

/-- C29 at the line "+CREG: 1" received while "ATE0" is in flight: the pending
hash becomes that of +CREG. -/
theorem plus_line_replaces_pending_hash_witness :
    (echoOffSent 0).mCommandHash = kATE0CmdHash ∧
    ((HandleCommandResponse hostNoClock
        { echoOffSent 0 with mRxBuffer := bytes "+CREG: 1" ++ [0] }).mCommandHash = kCREGCmdHash ∨
     (HandleCommandResponse hostNoClock
        { echoOffSent 0 with mRxBuffer := bytes "+CREG: 1" ++ [0] }).mCommandHash = 0) :=
  ⟨by decide!,
   plus_line_replaces_pending_hash hostNoClock
     { echoOffSent 0 with mRxBuffer := bytes "+CREG: 1" ++ [0] } (by decide!) (by decide!)
     (by decide!)⟩

/-- C29, evaluated on the code: "ATE0" is sent and answered with "OK": the
flow-control command follows.  With the line "+CREG: 1" received between "ATE0"
and its "OK", the pending hash is that of +CREG when the "OK" arrives, and
`HandleCommandCompleted` sends nothing: the modem is left Ready with only the
flow-control bytes XOFF and XON written after "ATE0". -/
theorem creg_line_discards_pending_hash :
    (echoOffSent 0).mCommandHash = kATE0CmdHash ∧
    (receiveLines hostNoClock (echoOffSent 0) ["OK"]).serialOut
      = bytes "ATE0" ++ [13, 10] ++ [19] ++ bytes "AT+IFC=1;+CLTS=1;+CREG=1" ++ [13, 10, 17] ∧
    (receiveLines hostNoClock (echoOffSent 0) ["+CREG: 1"]).mCommandHash = kCREGCmdHash ∧
    (receiveLines hostNoClock (echoOffSent 0) ["+CREG: 1", "OK"]).serialOut
      = bytes "ATE0" ++ [13, 10] ++ [19, 17, 19, 17] ∧
    (receiveLines hostNoClock (echoOffSent 0) ["+CREG: 1", "OK"]).mCommandState = eReady ∧
    (receiveLines hostNoClock (echoOffSent 0) ["+CREG: 1", "OK"]).mCommandHash = 0 := by
  decide!

/-! ### C22: the decoded address buffer -/

theorem extractAddress_layout (buf : List Nat) (pos : Nat) (num addr : List Nat)
    (isSMSC wantFormat : Bool)
    (hd1 : 1 ≤ num.length) (hd : num.length ≤ 15) (hdig : ∀ c ∈ num, 48 ≤ c ∧ c ≤ 57)
    (hrl : (if isSMSC = true then ((HexStrToUint8 buf pos).1 + ((HexStrToUint8 buf pos).1 + 2)) % 256
        else ((HexStrToUint8 buf pos).1 + ((HexStrToUint8 buf pos).1 % 2 + 4)) % 256)
      = num.length + num.length % 2 + 4)
    (hrec : ∀ q, q < num.length + num.length % 2 →
      peek buf (pos + 4 + q) = if swapIndex q < num.length then peek num (swapIndex q) else 70) :
    (ExtractAddress buf pos isSMSC addr wantFormat).1 = num.length + num.length % 2 + 4 ∧
    ∀ p, peek (ExtractAddress buf pos isSMSC addr wantFormat).2.1 p
      = if p < num.length then peek num p else if p = num.length then 0
        else if p < 16 then 255 else peek addr p := by
  have hdigit : ∀ j, j < num.length → 48 ≤ peek num j ∧ peek num j ≤ 57 :=
    fun j hj => hdig _ (peek_mem num j hj)
  have hmax : (num.length + num.length % 2 + 4 + 252) % 256 = num.length + num.length % 2 := by
    omega
  have hchar : ∀ q, q < num.length + num.length % 2 →
      peek buf (pos + 2 + 2 + (0 + q)) % 256 ≠ 0 := by
    intro q hq
    rw [show pos + 2 + 2 + (0 + q) = pos + 4 + q by omega, hrec q hq]
    split_ifs with h
    · have := hdigit _ h; omega
    · decide
  have key := decStrLoop_spec buf (pos + 2 + 2) 0 (num.length + num.length % 2)
    (num.length + num.length % 2) 0 addr (by omega) (le_refl _) hchar (Or.inl rfl)
  simp only [Nat.zero_div, Nat.zero_mul, Nat.zero_add] at key
  obtain ⟨k1, k2, k3⟩ := key
  have hE : (num.length + num.length % 2) % 2 = 0 := by omega
  have hne1 : ¬ ((num.length + num.length % 2) % 2 = 1) := by omega
  have hdec : ∀ p, peek (DecStrToSemiOctetStr buf (pos + 2 + 2) addr 0
      (num.length + num.length % 2)).2 p
      = if p < num.length + num.length % 2 then
          (if p < num.length then peek num p else 70) else peek addr p := by
    intro p
    unfold DecStrToSemiOctetStr
    simp only [k1, hne1, if_false]
    rw [k3 p]
    by_cases hp : p < num.length + num.length % 2
    · have hs : swapIndex (p - 0) < num.length + num.length % 2 := by
        unfold swapIndex; split_ifs <;> omega
      have hss : swapIndex (swapIndex (p - 0)) = p := by
        unfold swapIndex; split_ifs <;> omega
      simp only [Nat.zero_le, true_and, hs, hp, if_true]
      rw [show pos + 2 + 2 + swapIndex (p - 0) = pos + 4 + swapIndex (p - 0) by omega,
        hrec _ hs, hss]
      split_ifs with h
      · have := hdigit _ h; omega
      · rfl
    · have hs : ¬ swapIndex (p - 0) < num.length + num.length % 2 := by
        unfold swapIndex; split_ifs <;> omega
      simp only [Nat.zero_le, true_and, hs, hp, if_false]
  have hd1' : (DecStrToSemiOctetStr buf (pos + 2 + 2) addr 0
      (num.length + num.length % 2)).1 = num.length + num.length % 2 := by
    unfold DecStrToSemiOctetStr
    simp only [k1, hne1, if_false]
  have haddrLen : (if (num.length + num.length % 2) ≠ 0 ∧
      peek (DecStrToSemiOctetStr buf (pos + 2 + 2) addr 0 (num.length + num.length % 2)).2
        (num.length + num.length % 2 - 1) = 70
      then num.length + num.length % 2 - 1 else num.length + num.length % 2) = num.length := by
    rw [hdec]
    by_cases hodd : num.length % 2 = 1
    · have h1 : num.length + num.length % 2 - 1 < num.length + num.length % 2 := by omega
      have h2 : ¬ (num.length + num.length % 2 - 1 < num.length) := by omega
      simp only [h1, h2, if_true, if_false]
      rw [if_pos ⟨by omega, trivial⟩]; omega
    · have h1 : num.length + num.length % 2 - 1 < num.length + num.length % 2 := by omega
      have h2 : num.length + num.length % 2 - 1 < num.length := by omega
      simp only [h1, h2, if_true]
      have := hdigit _ h2
      rw [if_neg (by omega)]; omega
  have hnz : ¬ (num.length + num.length % 2 + 4 = 0) := by omega
  have hm : (num.length + 1) % 256 = num.length + 1 := by omega
  have hpos2 : (HexStrToUint8 buf pos).2 = pos + 2 := rfl
  unfold ExtractAddress
  simp only [hpos2, hrl, hmax, hd1', haddrLen,
    ne_eq, hnz, not_false_eq_true, if_true, hm, sizeofTPAddress]
  refine ⟨trivial, ?_⟩
  intro p
  have hrep : ∀ k, k < 16 - (num.length + 1) →
      peek (List.replicate (16 - (num.length + 1)) 255) k = 255 := by
    intro k hk
    unfold peek
    rw [List.getD_eq_getElem _ _ (by simp; omega)]
    simp
  by_cases h16 : num.length + 1 < 16
  · rw [if_pos h16, peek_blit, peek_poke, hdec]
    simp only [List.length_replicate]
    split_ifs <;> first | rfl | (exfalso; omega) | (apply hrep; omega)
  · rw [if_neg h16, peek_poke, hdec]
    split_ifs <;> first | rfl | (exfalso; omega)

/-- C22: for an address record holding `d` digits (1 ≤ d ≤ 15; the length octet,
the type octet, then the digits swapped in pairs, an odd count padded with 'F'),
in SMSC form or not, `ExtractAddress` returns the record length `d + d mod 2 + 4`
and leaves the 16-byte address buffer with the `d` digits in bytes 0..d-1, NUL in
byte `d` and 0xFF in the bytes d+1..15; no byte past the 16th is changed. -/
theorem extractAddress_buffer_layout (buf : List Nat) (pos : Nat) (num addr : List Nat)
    (isSMSC wantFormat : Bool)
    (hd1 : 1 ≤ num.length) (hd : num.length ≤ 15) (hdig : ∀ c ∈ num, 48 ≤ c ∧ c ≤ 57)
    (hlen : (HexStrToUint8 buf pos).1 = addressLengthOctet isSMSC num.length)
    (hrec : ∀ q, q < num.length + num.length % 2 →
      peek buf (pos + 4 + q) = if swapIndex q < num.length then peek num (swapIndex q) else 70) :
    (ExtractAddress buf pos isSMSC addr wantFormat).1 = num.length + num.length % 2 + 4 ∧
    (∀ p, p < num.length → peek (ExtractAddress buf pos isSMSC addr wantFormat).2.1 p = peek num p) ∧
    peek (ExtractAddress buf pos isSMSC addr wantFormat).2.1 num.length = 0 ∧
    (∀ p, num.length < p → p < 16 →
      peek (ExtractAddress buf pos isSMSC addr wantFormat).2.1 p = 255) ∧
    (∀ p, 16 ≤ p → peek (ExtractAddress buf pos isSMSC addr wantFormat).2.1 p = peek addr p) ∧
    cstr (ExtractAddress buf pos isSMSC addr wantFormat).2.1 0 = num := by
  have hrl : (if isSMSC = true
        then ((HexStrToUint8 buf pos).1 + ((HexStrToUint8 buf pos).1 + 2)) % 256
        else ((HexStrToUint8 buf pos).1 + ((HexStrToUint8 buf pos).1 % 2 + 4)) % 256)
      = num.length + num.length % 2 + 4 := by
    rw [hlen]
    unfold addressLengthOctet
    cases isSMSC
    · simp only [Bool.false_eq_true, if_false]; omega
    · simp only [if_true]; omega
  obtain ⟨e1, e2⟩ := extractAddress_layout buf pos num addr isSMSC wantFormat hd1 hd hdig hrl hrec
  have d1 : ∀ p, p < num.length →
      peek (ExtractAddress buf pos isSMSC addr wantFormat).2.1 p = peek num p := by
    intro p hp; rw [e2, if_pos hp]
  have d2 : peek (ExtractAddress buf pos isSMSC addr wantFormat).2.1 num.length = 0 := by
    rw [e2, if_neg (by omega), if_pos rfl]
  refine ⟨e1, d1, d2, ?_, ?_, ?_⟩
  · intro p hp1 hp2
    rw [e2, if_neg (by omega), if_neg (by omega), if_pos hp2]
  · intro p hp
    rw [e2, if_neg (by omega), if_neg (by omega), if_neg (by omega)]
  · exact cstr_of_peek num _ d1 d2 (fun c hc => by have := hdig c hc; omega)

/-- C22 at the two address records of the example line: the SMSC record at
character 0 and the originating address at character 18, both of 11 digits (odd,
so padded with 'F'); the buffers hold the digits, NUL and four bytes 0xFF. -/
theorem extractAddress_buffer_layout_witness :
    (ExtractAddress ackPDULine 0 true (List.replicate 16 0) false).2.1
      = bytes "19036384682" ++ [0, 255, 255, 255, 255] ∧
    cstr (ExtractAddress ackPDULine 0 true (List.replicate 16 0) false).2.1 0
      = bytes "19036384682" ∧
    cstr (ExtractAddress ackPDULine 18 false (List.replicate 16 0) true).2.1 0
      = bytes "05087133317" :=
  ⟨by decide!,
   (extractAddress_buffer_layout ackPDULine 0 (bytes "19036384682") (List.replicate 16 0)
      true false (by decide) (by decide) (by decide) (by decide!) (by decide!)).2.2.2.2.2,
   (extractAddress_buffer_layout ackPDULine 18 (bytes "05087133317") (List.replicate 16 0)
      false true (by decide) (by decide) (by decide) (by decide!) (by decide!)).2.2.2.2.2⟩

/-! ### C25: the alarm after a reset -/

theorem thermometerAt_set (s : DS18B20Multidrop) (i j : Nat) (t : SDS18B20)
    (hi : i < s.mThermometer.length) :
    DS18B20Multidrop.thermometerAt (s.setThermometer i t) j
      = if j = i then t else s.thermometerAt j := by
  unfold DS18B20Multidrop.thermometerAt DS18B20Multidrop.setThermometer
  simp only [List.getD_eq_getElem?_getD, List.getElem?_set]
  by_cases h : i = j
  · subst h; simp [hi]
  · rw [if_neg h, if_neg (fun e => h e.symm)]

theorem getD_set_thermometer (l : List SDS18B20) (i j : Nat) (t d : SDS18B20)
    (hi : i < l.length) :
    (l.set i t).getD j d = if j = i then t else l.getD j d := by
  simp only [List.getD_eq_getElem?_getD, List.getElem?_set]
  by_cases h : i = j
  · subst h; simp [hi]
  · rw [if_neg h, if_neg (fun e => h e.symm)]

theorem DataUpdatedStep_spec (s : DS18B20Multidrop) (i : Nat) (r : Option Int)
    (hi : i < s.mThermometer.length) :
    (s.DataUpdatedStep i r).mAlarmHigh = s.mAlarmHigh ∧
    (s.DataUpdatedStep i r).mAlarmLow = s.mAlarmLow ∧
    (s.DataUpdatedStep i r).mCount = s.mCount ∧
    (s.DataUpdatedStep i r).mThermometer.length = s.mThermometer.length ∧
    (∀ j, (s.DataUpdatedStep i r).thermometerAt j
      = if j = i then stepThermometer s.mAlarmHigh s.mAlarmLow (s.thermometerAt i) r
        else s.thermometerAt j) ∧
    (s.DataUpdatedStep i r).mAlarm
      = (s.mAlarm || ((s.thermometerAt i).alarm == false &&
          (stepThermometer s.mAlarmHigh s.mAlarmLow (s.thermometerAt i) r).alarm)) := by
  obtain ⟨cp, up, l, high, low, al, tc, dv, cnt, res, ms⟩ := s
  simp only at hi
  cases r with
  | none =>
    simp only [DS18B20Multidrop.DataUpdatedStep, DS18B20Multidrop.thermometerAt, stepThermometer]
    refine ⟨trivial, trivial, trivial, trivial, ?_, ?_⟩
    · intro j; split_ifs with h
      · rw [h]
      · rfl
    · cases al <;> cases (l.getD i DS18B20Multidrop.zeroThermometer).alarm <;> rfl
  | some t =>
    simp only [DS18B20Multidrop.DataUpdatedStep, DS18B20Multidrop.thermometerAt,
      DS18B20Multidrop.setThermometer, stepThermometer, getD_set_thermometer, hi,
      if_true]
    by_cases ht : t ≠ (l.getD i DS18B20Multidrop.zeroThermometer).temp
    · simp only [if_pos ht]
      by_cases ha : (l.getD i DS18B20Multidrop.zeroThermometer).alarm = false ∧
          (t ≥ high ∨ t ≤ low)
      · have hd : decide (t ≥ high ∨ t ≤ low) = true := by simpa using ha.2
        simp only [if_pos ha]
        simp only [List.length_set, getD_set_thermometer, hi, if_true, ha.1, hd]
        refine ⟨trivial, trivial, trivial, trivial, ?_, ?_⟩
        · intro j
          split_ifs with h
          · rfl
          · rfl
        · cases al <;> rfl
      · simp only [if_neg ha]
        simp only [List.length_set, getD_set_thermometer, hi]
        refine ⟨trivial, trivial, trivial, trivial, ?_, ?_⟩
        · intro j
          split_ifs with h
          · cases hal : (l.getD i DS18B20Multidrop.zeroThermometer).alarm
            · have hd : decide (t ≥ high ∨ t ≤ low) = false :=
                decide_eq_false (fun hc => ha ⟨hal, hc⟩)
              simp [hd]
            · simp
          · rfl
        · cases hal : (l.getD i DS18B20Multidrop.zeroThermometer).alarm
          · have hd : decide (t ≥ high ∨ t ≤ low) = false :=
              decide_eq_false (fun hc => ha ⟨hal, hc⟩)
            simp only [hd]
            cases al <;> rfl
          · cases al <;> rfl
    · simp only [if_neg ht]
      refine ⟨trivial, trivial, trivial, trivial, ?_, ?_⟩
      · intro j; split_ifs with h
        · rw [h]
        · rfl
      · cases al <;> cases (l.getD i DS18B20Multidrop.zeroThermometer).alarm <;> rfl

theorem length_setThermometer (s : DS18B20Multidrop) (i : Nat) (t : SDS18B20) :
    (s.setThermometer i t).mThermometer.length = s.mThermometer.length := by
  simp [DS18B20Multidrop.setThermometer]

theorem resetAlarm_loop (n : Nat) (s : DS18B20Multidrop) (hn : n ≤ s.mThermometer.length) :
    ((List.range n).foldl
        (fun s i => s.setThermometer i { s.thermometerAt i with alarm := false }) s).mAlarmHigh
      = s.mAlarmHigh ∧
    ((List.range n).foldl
        (fun s i => s.setThermometer i { s.thermometerAt i with alarm := false }) s).mAlarmLow
      = s.mAlarmLow ∧
    ((List.range n).foldl
        (fun s i => s.setThermometer i { s.thermometerAt i with alarm := false }) s).mCount
      = s.mCount ∧
    ((List.range n).foldl
        (fun s i => s.setThermometer i { s.thermometerAt i with alarm := false }) s).mAlarm
      = s.mAlarm ∧
    ((List.range n).foldl
        (fun s i => s.setThermometer i { s.thermometerAt i with alarm := false }) s).mConversionPeriod
      = s.mConversionPeriod ∧
    ((List.range n).foldl
        (fun s i => s.setThermometer i { s.thermometerAt i with alarm := false })
        s).mThermometer.length = s.mThermometer.length ∧
    ∀ j, ((List.range n).foldl
        (fun s i => s.setThermometer i { s.thermometerAt i with alarm := false }) s).thermometerAt j
      = if j < n then { s.thermometerAt j with alarm := false } else s.thermometerAt j := by
  induction n with
  | zero => simp
  | succ n ih =>
    obtain ⟨a, b, c, d, e, f, g⟩ := ih (by omega)
    rw [List.range_succ, List.foldl_append, List.foldl_cons, List.foldl_nil]
    generalize (List.range n).foldl
      (fun s i => s.setThermometer i { s.thermometerAt i with alarm := false }) s = r
      at a b c d e f g ⊢
    refine ⟨a, b, c, d, e, ?_, ?_⟩
    · rw [length_setThermometer]; exact f
    · intro j
      rw [thermometerAt_set r n j _ (by rw [f]; omega), g n, g j]
      split_ifs <;> first | rfl | (exfalso; omega) | (subst_vars; rfl)

theorem dataUpdated_loop (read : Nat → Option Int) (n : Nat) (s : DS18B20Multidrop)
    (hn : n ≤ s.mThermometer.length) :
    ((List.range n).foldl (fun s i => s.DataUpdatedStep i (read i)) s).mAlarmHigh
      = s.mAlarmHigh ∧
    ((List.range n).foldl (fun s i => s.DataUpdatedStep i (read i)) s).mAlarmLow
      = s.mAlarmLow ∧
    ((List.range n).foldl (fun s i => s.DataUpdatedStep i (read i)) s).mThermometer.length
      = s.mThermometer.length ∧
    (∀ j, ((List.range n).foldl (fun s i => s.DataUpdatedStep i (read i)) s).thermometerAt j
      = if j < n then stepThermometer s.mAlarmHigh s.mAlarmLow (s.thermometerAt j) (read j)
        else s.thermometerAt j) ∧
    ((List.range n).foldl (fun s i => s.DataUpdatedStep i (read i)) s).mAlarm
      = (s.mAlarm || (List.range n).any (fun i => (s.thermometerAt i).alarm == false &&
          (stepThermometer s.mAlarmHigh s.mAlarmLow (s.thermometerAt i) (read i)).alarm)) := by
  induction n with
  | zero => simp
  | succ n ih =>
    obtain ⟨a, b, c, d, e⟩ := ih (by omega)
    rw [List.range_succ, List.foldl_append, List.foldl_cons, List.foldl_nil]
    obtain ⟨a1, b1, _, c1, d1, e1⟩ := DataUpdatedStep_spec
      ((List.range n).foldl (fun s i => s.DataUpdatedStep i (read i)) s) n (read n)
      (by rw [c]; omega)
    refine ⟨a1.trans a, b1.trans b, c1.trans c, ?_, ?_⟩
    · intro j
      rw [d1 j, a, b, d n, d j, if_neg (lt_irrefl n)]
      split_ifs <;> first | rfl | (exfalso; omega) | (subst_vars; rfl)
    · rw [e1, e, a, b, d n, if_neg (lt_irrefl n), List.any_append, Bool.or_assoc]
      simp

/-- C25: when a data update completes with `inResetAlarms = true` (the conversion
timer has passed; the `mCount` thermometers are within the array), the alarm
flag of a thermometer is set exactly when its scratch pad was read, the reading
differs from the temperature stored before, and the reading is at or above the
high limit or at or below the low limit; the overall alarm flag is set exactly
when the flag of one of the thermometers is.  A thermometer whose reading has
not changed has no alarm, whatever its temperature. -/
theorem alarm_after_reset_needs_changed_reading (s : DS18B20Multidrop)
    (readScratchPad : Nat → Option Int)
    (hp : s.mConversionPeriod.Passed s.millis = true)
    (hc : s.mCount ≤ s.mThermometer.length) :
    (s.DataUpdated true readScratchPad).1 = true ∧
    (∀ i, i < s.mCount →
      ((s.DataUpdated true readScratchPad).2.AlarmAt i = true ↔
        ∃ temp, readScratchPad i = some temp ∧ temp ≠ (s.thermometerAt i).temp ∧
          (temp ≥ s.mAlarmHigh ∨ temp ≤ s.mAlarmLow))) ∧
    ((s.DataUpdated true readScratchPad).2.Alarm = true ↔
      ∃ i, i < s.mCount ∧ (s.DataUpdated true readScratchPad).2.AlarmAt i = true) := by
  obtain ⟨a, b, c, d, e, f, g⟩ := resetAlarm_loop s.mCount
    { s with mDataIsValid := true, mAlarm := false } hc
  have hs3 : ∀ x : DS18B20Multidrop,
      ({ x with mConversionPeriod := x.mConversionPeriod.Set 0 } : DS18B20Multidrop).thermometerAt
        = x.thermometerAt := fun x => rfl
  obtain ⟨a2, b2, c2, d2, e2⟩ := dataUpdated_loop readScratchPad s.mCount
    { DS18B20Multidrop.ResetAlarm { s with mDataIsValid := true } with
      mConversionPeriod := (DS18B20Multidrop.ResetAlarm
        { s with mDataIsValid := true }).mConversionPeriod.Set 0 }
    (by show s.mCount ≤ (DS18B20Multidrop.ResetAlarm _).mThermometer.length
        unfold DS18B20Multidrop.ResetAlarm; rw [f]; exact hc)
  have hcount : (DS18B20Multidrop.ResetAlarm { s with mDataIsValid := true }).mCount
      = s.mCount := by
    unfold DS18B20Multidrop.ResetAlarm; exact c
  have hr : (s.DataUpdated true readScratchPad).2
      = (List.range s.mCount).foldl (fun s i => s.DataUpdatedStep i (readScratchPad i))
        { DS18B20Multidrop.ResetAlarm { s with mDataIsValid := true } with
          mConversionPeriod := (DS18B20Multidrop.ResetAlarm
            { s with mDataIsValid := true }).mConversionPeriod.Set 0 } := by
    unfold DS18B20Multidrop.DataUpdated
    simp only [hp, if_true]
    rw [show ({ DS18B20Multidrop.ResetAlarm { s with mDataIsValid := true } with
      mConversionPeriod := (DS18B20Multidrop.ResetAlarm
        { s with mDataIsValid := true }).mConversionPeriod.Set 0 } : DS18B20Multidrop).mCount
        = s.mCount from hcount]
  have hth : ∀ j, (DS18B20Multidrop.ResetAlarm { s with mDataIsValid := true }).thermometerAt j
      = if j < s.mCount then { s.thermometerAt j with alarm := false }
        else s.thermometerAt j := by
    intro j
    unfold DS18B20Multidrop.ResetAlarm
    exact g j
  have hAl : (DS18B20Multidrop.ResetAlarm { s with mDataIsValid := true }).mAlarm = false := by
    unfold DS18B20Multidrop.ResetAlarm; exact d
  have hHigh : (DS18B20Multidrop.ResetAlarm { s with mDataIsValid := true }).mAlarmHigh
      = s.mAlarmHigh := by
    unfold DS18B20Multidrop.ResetAlarm; exact a
  have hLow : (DS18B20Multidrop.ResetAlarm { s with mDataIsValid := true }).mAlarmLow
      = s.mAlarmLow := by
    unfold DS18B20Multidrop.ResetAlarm; exact b
  have hflag : ∀ i, i < s.mCount →
      ((s.DataUpdated true readScratchPad).2.AlarmAt i
        = (stepThermometer s.mAlarmHigh s.mAlarmLow
            { s.thermometerAt i with alarm := false } (readScratchPad i)).alarm) := by
    intro i hi
    unfold DS18B20Multidrop.AlarmAt
    rw [hr, d2 i, if_pos hi, hs3, hth i, if_pos hi]
    show (stepThermometer (DS18B20Multidrop.ResetAlarm _).mAlarmHigh
      (DS18B20Multidrop.ResetAlarm _).mAlarmLow _ _).alarm = _
    rw [hHigh, hLow]
  have hiff : ∀ i,
      ((stepThermometer s.mAlarmHigh s.mAlarmLow
            { s.thermometerAt i with alarm := false } (readScratchPad i)).alarm = true ↔
        ∃ temp, readScratchPad i = some temp ∧ temp ≠ (s.thermometerAt i).temp ∧
          (temp ≥ s.mAlarmHigh ∨ temp ≤ s.mAlarmLow)) := by
    intro i
    cases hrd : readScratchPad i with
    | none => simp [stepThermometer]
    | some t =>
      unfold stepThermometer
      by_cases ht : t ≠ (s.thermometerAt i).temp
      · simp only [if_pos ht, Bool.false_or, decide_eq_true_eq]
        constructor
        · intro h; exact ⟨t, rfl, ht, h⟩
        · rintro ⟨t2, h1, _, h3⟩
          cases h1; exact h3
      · simp only [if_neg ht]
        constructor
        · intro h; cases h
        · rintro ⟨t2, h1, h2, _⟩
          cases h1; exact absurd h2 ht
  refine ⟨?_, ?_, ?_⟩
  · unfold DS18B20Multidrop.DataUpdated
    simp only [hp, if_true]
  · intro i hi
    rw [hflag i hi]
    exact hiff i
  · unfold DS18B20Multidrop.Alarm
    rw [hr, e2]
    show ((DS18B20Multidrop.ResetAlarm _).mAlarm || _) = true ↔ _
    rw [hAl, Bool.false_or, List.any_eq_true]
    constructor
    · rintro ⟨i, hi, h⟩
      have hi' : i < s.mCount := List.mem_range.mp hi
      refine ⟨i, hi', ?_⟩
      rw [← hr, hflag i hi']
      rw [hs3, hth i, if_pos hi'] at h
      simp only [Bool.and_eq_true, beq_iff_eq] at h
      have h2 := h.2
      rw [show (DS18B20Multidrop.ResetAlarm { s with mDataIsValid := true }).mAlarmHigh
        = s.mAlarmHigh from hHigh, show (DS18B20Multidrop.ResetAlarm
          { s with mDataIsValid := true }).mAlarmLow = s.mAlarmLow from hLow] at h2
      exact h2
    · rintro ⟨i, hi, h⟩
      refine ⟨i, List.mem_range.mpr hi, ?_⟩
      rw [← hr, hflag i hi] at h
      rw [hs3, hth i, if_pos hi]
      simp only [Bool.and_eq_true, beq_iff_eq]
      refine ⟨trivial, ?_⟩
      rw [show (DS18B20Multidrop.ResetAlarm { s with mDataIsValid := true }).mAlarmHigh
        = s.mAlarmHigh from hHigh, show (DS18B20Multidrop.ResetAlarm
          { s with mDataIsValid := true }).mAlarmLow = s.mAlarmLow from hLow]
      exact h

/-- C25 at one thermometer that read 40 C and now reads 41 C (656/16), above the
high limit of 38 C: its alarm is set after the update. -/
theorem alarm_after_reset_needs_changed_reading_witness :
    (hotThermometer.DataUpdated true (fun _ => some 656)).2.AlarmAt 0 = true :=
  ((alarm_after_reset_needs_changed_reading hotThermometer (fun _ => some 656)
      (by decide) (by decide)).2.1 0 (by decide)).mpr ⟨656, rfl, by decide, Or.inl (by decide)⟩

/-- C25, evaluated on the code: one thermometer reads 40 C, above the high limit
of 38 C, and its alarm is set; the next data update, made with
`inResetAlarms = true`, reads 40 C again: the alarm condition has not changed, yet
neither the alarm flag of the thermometer nor the overall alarm flag is set
afterwards. -/
theorem alarm_not_retriggered_when_reading_unchanged :
    hotThermometer.Alarm = true ∧ hotThermometer.AlarmAt 0 = true ∧
    (hotThermometer.thermometerAt 0).temp ≥ hotThermometer.mAlarmHigh ∧
    (hotThermometer.DataUpdated true (fun _ => some 640)).1 = true ∧
    (hotThermometer.DataUpdated true (fun _ => some 640)).2.AlarmAt 0 = false ∧
    (hotThermometer.DataUpdated true (fun _ => some 640)).2.Alarm = false ∧
    ((hotThermometer.DataUpdated true (fun _ => some 640)).2.thermometerAt 0).temp = 640 := by
  decide

/-! ### C27: the packed octets -/

theorem septetStream_drop : ∀ (k : Nat) (text : List Nat), (∀ c ∈ text, c < 128) →
    septetStream text / 2 ^ (7 * k) = septetStream (text.drop k) := by
  intro k
  induction k with
  | zero => intro text _; simp
  | succ k ih =>
    intro text hc
    cases text with
    | nil => simp [septetStream]
    | cons c rest =>
      have hc0 : c < 128 := hc c (by simp)
      rw [List.drop_succ_cons, ← ih rest (fun x hx => hc x (by simp [hx]))]
      rw [show 7 * (k + 1) = 7 + 7 * k by ring, pow_add, ← Nat.div_div_eq_div_mul]
      congr 1
      simp only [septetStream]
      omega

theorem gsmOctet_at (text : List Nat) (hc : ∀ c ∈ text, c < 128) (k : Nat) :
    gsmOctet text (k - k / 8) = septetStream (text.drop k) / 2 ^ (k % 8) % 256 := by
  unfold gsmOctet
  rw [show 8 * (k - k / 8) = 7 * k + k % 8 by omega, pow_add, ← Nat.div_div_eq_div_mul,
    septetStream_drop k text hc]

theorem gsmOctet_pair (text : List Nat) (hc : ∀ c ∈ text, c < 128) (k a b : Nat)
    (rest : List Nat) (hd : text.drop k = a :: b :: rest) (hs : k % 8 ≤ 6) :
    gsmOctet text (k - k / 8) = (a / 2 ^ (k % 8) + b * 2 ^ (7 - k % 8)) % 256 := by
  have ha : a < 128 := hc a (List.mem_of_mem_drop (by rw [hd]; simp))
  rw [gsmOctet_at text hc k, hd]
  simp only [septetStream]
  generalize septetStream rest = r
  generalize k % 8 = s at hs
  interval_cases s <;> simp only [Nat.reducePow, Nat.reduceSub] <;> omega

theorem gsmOctet_single (text : List Nat) (hc : ∀ c ∈ text, c < 128) (k a : Nat)
    (hd : text.drop k = [a]) :
    gsmOctet text (k - k / 8) = a / 2 ^ (k % 8) := by
  have ha : a < 128 := hc a (List.mem_of_mem_drop (by rw [hd]; simp))
  rw [gsmOctet_at text hc k, hd]
  simp only [septetStream, Nat.mul_zero, Nat.add_zero]
  have : a / 2 ^ (k % 8) ≤ a := Nat.div_le_self _ _
  exact Nat.mod_eq_of_lt (by omega)

theorem hexPair_mod (x : Nat) : hexPair (x % 256) = hexPair x := by
  unfold hexPair
  rw [Nat.mod_mod, show x % 256 % 16 = x % 16 by omega]

theorem hexOctets_range_succ (g : Nat → Nat) (j : Nat) :
    hexOctets ((List.range (j + 1)).map g) = hexOctets ((List.range j).map g) ++ hexPair (g j) := by
  unfold hexOctets
  rw [List.range_succ, List.map_append, List.flatMap_append]
  simp

theorem drop_eq_peek_cons (text : List Nat) (k : Nat) (hk : k < text.length) :
    text.drop k = peek text k :: text.drop (k + 1) := by
  unfold peek
  rw [List.getD_eq_getElem _ _ hk]
  exact List.drop_eq_getElem_cons hk

theorem Pack7BitLoop_gsm (text : List Nat) (hc : ∀ c ∈ text, 1 ≤ c ∧ c ≤ 127) :
    ∀ (m : Nat) (k : Nat) (rest : List Nat), rest.length = m → text.drop (k + 1) = rest →
      k < text.length → k % 8 ≤ 6 →
      Pack7BitLoop rest (k + 1) (peek text k / 2 ^ (k % 8)) (k % 8)
          (hexOctets ((List.range (k - k / 8)).map (gsmOctet text)))
        = if lastSeptetDropped text then
            (text.length, hexOctets ((List.range ((7 * text.length + 7) / 8 - 1)).map
              (gsmOctet text)))
          else
            (text.length + 1, hexOctets ((List.range ((7 * text.length + 7) / 8)).map
              (gsmOctet text))) := by
  have hc128 : ∀ c ∈ text, c < 128 := fun c h => by have := hc c h; omega
  intro m
  induction m using Nat.strong_induction_on with
  | _ m ih =>
    intro k rest hm hd hk hs
    have hdk := drop_eq_peek_cons text k hk
    rw [hd] at hdk
    have hlen : text.length = k + 1 + rest.length := by
      have := congrArg List.length hd
      simp only [List.length_drop] at this
      omega
    match rest, hm, hd, hdk, hlen with
    | [], hm, hd, hdk, hlen =>
      simp only [List.length_nil, Nat.add_zero] at hlen
      have hlast : peek text (text.length - 1) = peek text k := by
        rw [hlen, Nat.add_sub_cancel]
      have hks : (text.length - 1) % 8 = k % 8 := by rw [hlen, Nat.add_sub_cancel]
      have hn8 : text.length % 8 ≠ 0 := by omega
      unfold Pack7BitLoop Pack7BitEnd
      by_cases ho : peek text k / 2 ^ (k % 8) ≠ 0
      · have hnd : ¬ lastSeptetDropped text := by
          unfold lastSeptetDropped
          rw [hlast, hks]
          intro h
          exact ho (Nat.div_eq_of_lt h.2)
        rw [if_pos ho, if_neg hnd]
        have hJ : (7 * text.length + 7) / 8 = (k - k / 8) + 1 := by omega
        rw [hJ, hexOctets_range_succ, gsmOctet_single text hc128 k _ hdk, hlen]
      · have hdr : lastSeptetDropped text := by
          unfold lastSeptetDropped
          rw [hlast, hks]
          refine ⟨hn8, ?_⟩
          have h0 : peek text k / 2 ^ (k % 8) = 0 := not_not.mp ho
          exact (Nat.div_eq_zero_iff (by positivity)).mp h0
        rw [if_neg ho, if_pos hdr]
        have hJ : (7 * text.length + 7) / 8 - 1 = k - k / 8 := by omega
        rw [hJ, hlen]
        rfl
    | septet :: rest1, hm, hd, hdk, hlen =>
      simp only [List.length_cons] at hm hlen
      have hsep : 1 ≤ septet ∧ septet ≤ 127 :=
        hc septet (List.mem_of_mem_drop (by rw [hd]; simp))
      have hsm : septet % 256 = septet := by omega
      have hs0 : ¬ (septet % 256 = 0) := by omega
      have hsepk : septet = peek text (k + 1) := by
        have := drop_eq_peek_cons text (k + 1) (by omega)
        rw [hd] at this
        exact (List.cons.inj this).1
      have hd2 : text.drop (k + 1 + 1) = rest1 := by
        have := drop_eq_peek_cons text (k + 1) (by omega)
        rw [hd] at this
        exact (List.cons.inj this).2.symm
      have hacc1 : hexOctets ((List.range (k - k / 8)).map (gsmOctet text))
            ++ hexPair ((peek text k / 2 ^ (k % 8) + septet % 256 * 2 ^ (7 - k % 8)) % 256)
          = hexOctets ((List.range (k - k / 8 + 1)).map (gsmOctet text)) := by
        rw [hexOctets_range_succ, gsmOctet_pair text hc128 k _ _ _ hdk hs, hsm, hexPair_mod]
      unfold Pack7BitLoop
      rw [if_neg hs0]
      simp only [hacc1]
      by_cases h7 : k % 8 + 1 < 7
      · rw [if_pos h7]
        have hk1 : (k + 1) % 8 = k % 8 + 1 := by omega
        have hj1 : k + 1 - (k + 1) / 8 = k - k / 8 + 1 := by omega
        have := ih rest1.length (by omega) (k + 1) rest1 rfl hd2 (by omega) (by omega)
        rw [hk1, hj1, ← hsepk] at this
        rw [hsm]
        exact this
      · rw [if_neg h7]
        match rest1, hm, hd2, hlen with
        | [], hm, hd2, hlen =>
          simp only [List.length_nil] at hlen
          have hnd : ¬ lastSeptetDropped text := by
            unfold lastSeptetDropped
            intro h
            exact h.1 (by omega)
          rw [if_neg hnd]
          have hJ : (7 * text.length + 7) / 8 = k - k / 8 + 1 := by omega
          rw [hJ, hlen]
        | octet1 :: rest2, hm, hd2, hlen =>
          simp only [List.length_cons] at hm hlen
          have ho1 : 1 ≤ octet1 ∧ octet1 ≤ 127 :=
            hc octet1 (List.mem_of_mem_drop (by rw [hd2]; simp))
          have hom : octet1 % 256 = octet1 := by omega
          have ho0 : ¬ (octet1 % 256 = 0) := by omega
          have hok : octet1 = peek text (k + 2) := by
            have := drop_eq_peek_cons text (k + 2) (by omega)
            rw [hd2] at this
            exact (List.cons.inj this).1
          have hd3 : text.drop (k + 2 + 1) = rest2 := by
            have := drop_eq_peek_cons text (k + 2) (by omega)
            rw [hd2] at this
            exact (List.cons.inj this).2.symm
          simp only [if_neg ho0]
          have hk2 : (k + 2) % 8 = 0 := by omega
          have hj2 : k + 2 - (k + 2) / 8 = k - k / 8 + 1 := by omega
          have := ih rest2.length (by omega) (k + 2) rest2 rfl hd3 (by omega) (by omega)
          rw [hk2, hj2, ← hok, pow_zero, Nat.div_one] at this
          rw [hom]
          exact this

theorem Pack7BitScan_gsm (text : List Nat) (hc : ∀ c ∈ text, 1 ≤ c ∧ c ≤ 127) :
    Pack7BitScan text
      = if lastSeptetDropped text then
          (text.length, hexOctets ((List.range ((7 * text.length + 7) / 8 - 1)).map
            (gsmOctet text)))
        else
          (text.length + 1, hexOctets ((List.range ((7 * text.length + 7) / 8)).map
            (gsmOctet text))) := by
  match text, hc with
  | [], _ =>
    have hnd : ¬ lastSeptetDropped [] := by
      unfold lastSeptetDropped; simp
    rw [if_neg hnd]
    rfl
  | c0 :: rest, hc =>
    have h0 : 1 ≤ c0 ∧ c0 ≤ 127 := hc c0 (by simp)
    have := Pack7BitLoop_gsm (c0 :: rest) hc rest.length 0 rest rfl rfl (by simp) (by simp)
    simp only [Nat.zero_mod, pow_zero, Nat.div_one, Nat.zero_div, Nat.sub_zero, List.range_zero,
      List.map_nil, Nat.zero_add] at this
    unfold Pack7BitScan
    simp only []
    rw [if_neg (by omega), show c0 % 256 = c0 by omega]
    exact this

theorem gsmPack_dropLast (text : List Nat) :
    (gsmPack text).dropLast
      = (List.range ((7 * text.length + 7) / 8 - 1)).map (gsmOctet text) := by
  unfold gsmPack
  generalize (7 * text.length + 7) / 8 = J
  cases J with
  | zero => rfl
  | succ j =>
    rw [List.range_succ, List.map_append, List.map_singleton, List.dropLast_concat]
    rfl

/-! ### C28: the round trip of the 7-bit packing -/

theorem gsmOctet_first (text : List Nat) (hc : ∀ c ∈ text, c < 128) (i : Nat)
    (hi : i < text.length) (hs : i % 8 = 0) :
    gsmOctet text (i - i / 8) % 128 = peek text i := by
  have hd := drop_eq_peek_cons text i hi
  have ha : peek text i < 128 := hc _ (peek_mem text i hi)
  rw [gsmOctet_at text hc i, hd, hs]
  simp only [septetStream, pow_zero, Nat.div_one]
  omega

theorem gsmOctet_next (text : List Nat) (hc : ∀ c ∈ text, c < 128) (i : Nat)
    (hi : i + 1 < text.length) (hs : i % 8 < 6) :
    (gsmOctet text (i - i / 8) / 2 ^ (7 - i % 8)
      + gsmOctet text (i - i / 8 + 1) * 2 ^ (i % 8 + 1)) % 256 % 128 = peek text (i + 1) := by
  have hd := drop_eq_peek_cons text i (by omega)
  have hd1 := drop_eq_peek_cons text (i + 1) hi
  have ha : peek text i < 128 := hc _ (peek_mem text i (by omega))
  have hb : peek text (i + 1) < 128 := hc _ (peek_mem text (i + 1) hi)
  have hj : i - i / 8 + 1 = (i + 1) - (i + 1) / 8 := by omega
  have hs1 : (i + 1) % 8 = i % 8 + 1 := by omega
  rw [hj, gsmOctet_at text hc i, gsmOctet_at text hc (i + 1), hd, hd1, hs1]
  simp only [septetStream]
  generalize septetStream (text.drop (i + 1 + 1)) = r
  generalize peek text i = a at ha
  generalize peek text (i + 1) = b at hb
  generalize i % 8 = s at hs
  interval_cases s <;> simp only [Nat.reducePow, Nat.reduceSub, Nat.reduceAdd] <;> omega

theorem gsmOctet_seventh (text : List Nat) (hc : ∀ c ∈ text, c < 128) (i : Nat)
    (hi : i + 1 < text.length) (hs : i % 8 = 6) :
    gsmOctet text (i - i / 8) / 2 % 128 = peek text (i + 1) := by
  have hd := drop_eq_peek_cons text i (by omega)
  have hd1 := drop_eq_peek_cons text (i + 1) hi
  have ha : peek text i < 128 := hc _ (peek_mem text i (by omega))
  have hb : peek text (i + 1) < 128 := hc _ (peek_mem text (i + 1) hi)
  rw [gsmOctet_at text hc i, hd, hd1, hs]
  simp only [septetStream]
  generalize septetStream (text.drop (i + 1 + 1)) = r
  generalize peek text i = a at ha
  generalize peek text (i + 1) = b at hb
  simp only [Nat.reducePow]
  omega

theorem take_drop_step (text : List Nat) (i m : Nat) (hi : i < text.length) (acc : List Nat) :
    acc ++ [peek text i] ++ (text.drop (i + 1)).take m
      = acc ++ (text.drop i).take (m + 1) := by
  rw [drop_eq_peek_cons text i hi, List.take_succ_cons]
  simp

theorem UnpackLoop_gsm (text B : List Nat) (base avail count : Nat)
    (hc : ∀ c ∈ text, c < 128) (hN : count ≤ text.length)
    (hav : (7 * count + 7) / 8 ≤ avail)
    (hB : ∀ j, j < avail → HexStrToUint8 B (base + 2 + 2 * j)
      = (gsmOctet text j, base + 2 + 2 * j + 2)) :
    ∀ (m : Nat) (i bytesLeft septet : Nat) (acc : List Nat), bytesLeft = m →
      i + bytesLeft = count → 0 < bytesLeft → i % 8 ≤ 6 → septet % 128 = peek text i →
      UnpackLoop B bytesLeft (base + 2 + 2 * (i - i / 8 + 1)) (i % 8)
          (gsmOctet text (i - i / 8)) septet acc
        = acc ++ (text.drop i).take bytesLeft := by
  intro m
  induction m using Nat.strong_induction_on with
  | _ m ih =>
    intro i bytesLeft septet acc hm hib hpos hs hsep
    match bytesLeft, hm, hib, hpos with
    | bl + 1, hm, hib, _ =>
      unfold UnpackLoop
      simp only [hsep]
      by_cases hbl : bl ≠ 0
      · rw [if_pos hbl]
        by_cases h6 : i % 8 < 6
        · rw [if_pos h6]
          have hread := hB (i - i / 8 + 1) (by omega)
          rw [hread]
          simp only []
          have hj : i - i / 8 + 1 = (i + 1) - (i + 1) / 8 := by omega
          have hs1 : i % 8 + 1 = (i + 1) % 8 := by omega
          have hv := gsmOctet_next text hc i (by omega) h6
          have := ih bl (by omega) (i + 1) bl
            ((gsmOctet text (i - i / 8) / 2 ^ (7 - i % 8)
              + gsmOctet text (i - i / 8 + 1) * 2 ^ (i % 8 + 1)) % 256)
            (acc ++ [peek text i]) rfl (by omega) (by omega) (by omega) hv
          rw [← hj, ← hs1, show base + 2 + 2 * (i - i / 8 + 1 + 1)
            = base + 2 + 2 * (i - i / 8 + 1) + 2 by omega] at this
          rw [this, take_drop_step text i bl (by omega)]
        · rw [if_neg h6]
          have hs6 : i % 8 = 6 := by omega
          have hv := gsmOctet_seventh text hc i (by omega) hs6
          rw [hv]
          by_cases hbl1 : bl - 1 ≠ 0
          · rw [if_pos hbl1]
            have hread := hB (i - i / 8 + 1) (by omega)
            rw [hread]
            simp only []
            have hj : i - i / 8 + 1 = (i + 2) - (i + 2) / 8 := by omega
            have hs2 : (i + 2) % 8 = 0 := by omega
            have hv2 := gsmOctet_first text hc (i + 2) (by omega) hs2
            have := ih (bl - 1) (by omega) (i + 2) (bl - 1)
              (gsmOctet text ((i + 2) - (i + 2) / 8))
              (acc ++ [peek text i] ++ [peek text (i + 1)]) rfl (by omega) (by omega)
              (by omega) hv2
            rw [hs2, ← hj, show base + 2 + 2 * (i - i / 8 + 1 + 1)
              = base + 2 + 2 * (i - i / 8 + 1) + 2 by omega] at this
            rw [this, take_drop_step text (i + 1) (bl - 1) (by omega),
              show bl - 1 + 1 = bl by omega, take_drop_step text i bl (by omega)]
          · rw [if_neg hbl1]
            have hb1 : bl = 1 := by omega
            subst hb1
            rw [drop_eq_peek_cons text i (by omega), drop_eq_peek_cons text (i + 1) (by omega)]
            simp
      · rw [if_neg hbl]
        have hb0 : bl = 0 := not_not.mp hbl
        subst hb0
        rw [drop_eq_peek_cons text i (by omega)]
        simp

theorem hexOctets_peek : ∀ (octs : List Nat) (j : Nat), j < octs.length →
    peek (hexOctets octs) (2 * j) = peek (hexPair (peek octs j)) 0 ∧
    peek (hexOctets octs) (2 * j + 1) = peek (hexPair (peek octs j)) 1 := by
  intro octs
  induction octs with
  | nil => intro j hj; simp at hj
  | cons a t ih =>
    intro j hj
    have hcons : hexOctets (a :: t) = hexPair a ++ hexOctets t := by
      unfold hexOctets; rw [List.flatMap_cons]
    rw [hcons, peek_append, peek_append, hexPair_length]
    cases j with
    | zero => exact ⟨rfl, rfl⟩
    | succ j =>
      simp only [List.length_cons] at hj
      obtain ⟨h0, h1⟩ := ih j (by omega)
      rw [if_neg (by omega), if_neg (by omega),
        show 2 * (j + 1) - 2 = 2 * j by omega, show 2 * (j + 1) + 1 - 2 = 2 * j + 1 by omega,
        h0, h1]
      exact ⟨rfl, rfl⟩

theorem hexOctets_length (l : List Nat) : (hexOctets l).length = 2 * l.length := by
  induction l with
  | nil => rfl
  | cons a t ih =>
    unfold hexOctets at ih ⊢
    rw [List.flatMap_cons, List.length_append, ih, hexPair_length, List.length_cons]
    omega

theorem peek_map_range (g : Nat → Nat) (J j : Nat) (hj : j < J) :
    peek ((List.range J).map g) j = g j := by
  unfold peek
  rw [List.getD_eq_getElem _ _ (by simpa using hj)]
  simp

theorem packed_buffer_reads (out : List Nat) (outPos len J : Nat) (g : Nat → Nat)
    (hlen : len < 256) (hg : ∀ j, g j < 256) :
    HexStrToUint8 (blit out outPos (hexPair len ++ hexOctets ((List.range J).map g) ++ [0])) outPos
      = (len, outPos + 2) ∧
    ∀ j, j < J →
      HexStrToUint8 (blit out outPos (hexPair len ++ hexOctets ((List.range J).map g) ++ [0]))
        (outPos + 2 + 2 * j) = (g j, outPos + 2 + 2 * j + 2) := by
  have hL : (hexPair len ++ hexOctets ((List.range J).map g) ++ [0]).length = 2 + 2 * J + 1 := by
    simp [hexPair_length, hexOctets_length]
    omega
  have hpk : ∀ p, p < 2 + 2 * J →
      peek (blit out outPos (hexPair len ++ hexOctets ((List.range J).map g) ++ [0])) (outPos + p)
        = if p < 2 then peek (hexPair len) p
          else peek (hexOctets ((List.range J).map g)) (p - 2) := by
    intro p hp
    rw [peek_blit, if_pos ⟨by omega, by rw [hL]; omega⟩, Nat.add_sub_cancel_left,
      peek_append, if_pos (by simp [hexPair_length, hexOctets_length]; omega), peek_append,
      hexPair_length]
  constructor
  · apply HexStrToUint8_of_peek _ _ _ hlen
    · have := hpk 0 (by omega)
      rw [Nat.add_zero, if_pos (by omega)] at this
      exact this
    · have := hpk 1 (by omega)
      rw [if_pos (by omega)] at this
      exact this
  · intro j hj
    obtain ⟨h0, h1⟩ := hexOctets_peek ((List.range J).map g) j (by simpa using hj)
    rw [peek_map_range g J j hj] at h0 h1
    apply HexStrToUint8_of_peek _ _ _ (hg j)
    · have := hpk (2 + 2 * j) (by omega)
      rw [if_neg (by omega), Nat.add_sub_cancel_left, h0, ← Nat.add_assoc] at this
      exact this
    · have := hpk (2 + 2 * j + 1) (by omega)
      rw [if_neg (by omega), show 2 + 2 * j + 1 - 2 = 2 * j + 1 by omega, h1] at this
      rw [show outPos + 2 + 2 * j + 1 = outPos + (2 + 2 * j + 1) by omega]
      exact this

theorem dropped_count (n : Nat) (h : n % 8 ≠ 0) :
    (7 * (n - 1) + 7) / 8 ≤ (7 * n + 7) / 8 - 1 := by
  obtain ⟨q, r, hr, rfl⟩ : ∃ q r, r < 8 ∧ n = 8 * q + r :=
    ⟨n / 8, n % 8, Nat.mod_lt _ (by decide), (Nat.div_add_mod n 8).symm⟩
  interval_cases r <;> omega

theorem unpack_pack (text out msg : List Nat) (outPos : Nat)
    (hc : ∀ c ∈ text, 1 ≤ c ∧ c ≤ 127) (hn : text.length ≤ 255) :
    UnpackPDUTo7bit (Pack7BitToPDU text out outPos).1 outPos msg 0
      = if lastSeptetDropped text then
          (text.length - 1, blit msg 0 (text.take (text.length - 1) ++ [0]))
        else (text.length, blit msg 0 (text ++ [0])) := by
  have hc128 : ∀ c ∈ text, c < 128 := fun c h => by have := hc c h; omega
  have hg : ∀ j, gsmOctet text j < 256 := fun j => Nat.mod_lt _ (by decide)
  have hscan := Pack7BitScan_gsm text hc
  have key : ∀ (count avail : Nat), count ≤ text.length → (7 * count + 7) / 8 ≤ avail →
      count < 256 →
      UnpackPDUTo7bit (blit out outPos
          (hexPair count ++ hexOctets ((List.range avail).map (gsmOctet text)) ++ [0])) outPos msg 0
        = (count, blit msg 0 (text.take count ++ [0])) := by
    intro count avail hcn hav hc256
    obtain ⟨r0, r1⟩ := packed_buffer_reads out outPos count avail (gsmOctet text) hc256 hg
    unfold UnpackPDUTo7bit UnpackChars
    simp only [r0]
    by_cases h0 : count ≠ 0
    · rw [if_pos h0]
      have hr := r1 0 (by omega)
      rw [Nat.mul_zero, Nat.add_zero] at hr
      rw [hr]
      simp only []
      have hv := gsmOctet_first text hc128 0 (by omega) rfl
      have := UnpackLoop_gsm text _ outPos avail count hc128 hcn hav r1 count 0 count
        (gsmOctet text 0) [] rfl (by omega) (by omega) (by decide) hv
      simp only [Nat.zero_div, Nat.sub_zero, Nat.zero_add, Nat.mul_one, Nat.zero_mod,
        List.drop_zero, List.nil_append] at this
      rw [this]
    · rw [if_neg h0]
      have : count = 0 := not_not.mp h0
      subst this
      rfl
  by_cases hdr : lastSeptetDropped text
  · rw [if_pos hdr] at hscan ⊢
    have h1 : text.length % 8 ≠ 0 := hdr.1
    unfold Pack7BitToPDU Pack7BitChars
    rw [hscan]
    simp only []
    rw [show (text.length % 256 + 255) % 256 = text.length - 1 by omega]
    exact key (text.length - 1) _ (by omega) (dropped_count _ h1) (by omega)
  · rw [if_neg hdr] at hscan ⊢
    unfold Pack7BitToPDU Pack7BitChars
    rw [hscan]
    simp only []
    rw [show ((text.length + 1) % 256 + 255) % 256 = text.length by omega]
    have := key text.length _ (le_refl _) (le_refl _) (by omega)
    rw [List.take_length] at this
    exact this

/-- C27: for a text of n characters with codes 1..127, n ≤ 255, `Pack7BitToPDU`
writes, as hex characters followed by NUL, the length prefix n and the
ceil(7n/8) octets of the standard GSM packing of the text, and returns the
position of the NUL; except when n is not a multiple of 8 and the code of the
last character is below 2^((n-1) mod 8): then it writes the length prefix n-1
and the octets of the standard packing without the last one, so that
`UnpackPDUTo7bit` gets the text without its last character from them. -/
theorem pack7bit_standard_packing (text out : List Nat) (outPos : Nat)
    (hc : ∀ c ∈ text, 1 ≤ c ∧ c ≤ 127) (hn : text.length ≤ 255) :
    (gsmPack text).length = (7 * text.length + 7) / 8 ∧
    (¬ lastSeptetDropped text →
      Pack7BitToPDU text out outPos
        = (blit out outPos (hexPair text.length ++ hexOctets (gsmPack text) ++ [0]),
           outPos + 2 + 2 * ((7 * text.length + 7) / 8))) ∧
    (lastSeptetDropped text →
      Pack7BitToPDU text out outPos
        = (blit out outPos
             (hexPair (text.length - 1) ++ hexOctets (gsmPack text).dropLast ++ [0]),
           outPos + 2 + 2 * ((7 * text.length + 7) / 8 - 1))) ∧
    (lastSeptetDropped text → ∀ msg,
      UnpackPDUTo7bit (Pack7BitToPDU text out outPos).1 outPos msg 0
        = (text.length - 1, blit msg 0 (text.dropLast ++ [0]))) := by
  have hlenO : ∀ l : List Nat, (hexOctets l).length = 2 * l.length := by
    intro l
    induction l with
    | nil => rfl
    | cons a t ih =>
      unfold hexOctets at ih ⊢
      rw [List.flatMap_cons, List.length_append, ih, hexPair_length, List.length_cons]
      omega
  have hscan := Pack7BitScan_gsm text hc
  refine ⟨by simp [gsmPack], ?_, ?_, ?_⟩
  · intro hnd
    rw [if_neg hnd] at hscan
    unfold Pack7BitToPDU Pack7BitChars
    rw [hscan]
    simp only []
    rw [hlenO, List.length_map, List.length_range,
      show ((text.length + 1) % 256 + 255) % 256 = text.length by omega]
    rfl
  · intro hdr
    rw [if_pos hdr] at hscan
    have h1 : 1 ≤ text.length := by
      unfold lastSeptetDropped at hdr
      omega
    unfold Pack7BitToPDU Pack7BitChars
    rw [hscan]
    simp only []
    rw [hlenO, List.length_map, List.length_range, gsmPack_dropLast,
      show (text.length % 256 + 255) % 256 = text.length - 1 by omega]
  · intro hdr msg
    rw [unpack_pack text out msg outPos hc hn, if_pos hdr, List.dropLast_eq_take]

/-- C27 at the texts "hello" (packed in full as E8329BFD06) and "1234567" (the
last character '7' = 0x37 is below 2^6: length prefix 6 and six octets). -/
theorem pack7bit_standard_packing_witness :
    gsmPack (bytes "hello") = [232, 50, 155, 253, 6] ∧
    ¬ lastSeptetDropped (bytes "hello") ∧
    Pack7BitToPDU (bytes "hello") [] 0 = (bytes "05E8329BFD06" ++ [0], 12) ∧
    lastSeptetDropped (bytes "1234567") ∧
    Pack7BitToPDU (bytes "1234567") [] 0 = (bytes "0631D98C56B3DD" ++ [0], 14) ∧
    UnpackPDUTo7bit (Pack7BitToPDU (bytes "1234567") [] 0).1 0 [] 0
      = (6, bytes "123456" ++ [0]) :=
  ⟨by decide!, by decide,
   ((pack7bit_standard_packing (bytes "hello") [] 0 (by decide) (by decide)).2.1
      (by decide)).trans (by decide!),
   by decide,
   ((pack7bit_standard_packing (bytes "1234567") [] 0 (by decide) (by decide)).2.2.1
      (by decide)).trans (by decide!),
   ((pack7bit_standard_packing (bytes "1234567") [] 0 (by decide) (by decide)).2.2.2
      (by decide) []).trans (by decide!)⟩

/-- C28: for every text of characters with codes 1..127 and length n ≤ 255 such
that n is a multiple of 8 or the code of the last character is at least
2^((n-1) mod 8), `UnpackPDUTo7bit` applied to the output of `Pack7BitToPDU`
returns n and writes the text followed by NUL, so that the C string in the
message buffer is the text; for the empty text this is 0 and the empty string. -/
theorem pack7bit_roundtrip (text out msg : List Nat) (outPos : Nat)
    (hc : ∀ c ∈ text, 1 ≤ c ∧ c ≤ 127) (hn : text.length ≤ 255)
    (hok : text.length % 8 = 0 ∨
      2 ^ ((text.length - 1) % 8) ≤ peek text (text.length - 1)) :
    UnpackPDUTo7bit (Pack7BitToPDU text out outPos).1 outPos msg 0
      = (text.length, blit msg 0 (text ++ [0])) ∧
    cstr (UnpackPDUTo7bit (Pack7BitToPDU text out outPos).1 outPos msg 0).2 0 = text := by
  have hnd : ¬ lastSeptetDropped text := by
    unfold lastSeptetDropped
    rintro ⟨h1, h2⟩
    rcases hok with h | h
    · exact h1 h
    · omega
  have h := unpack_pack text out msg outPos hc hn
  rw [if_neg hnd] at h
  refine ⟨h, ?_⟩
  rw [h]
  apply cstr_of_peek text
  · intro p hp
    rw [peek_blit, if_pos ⟨Nat.zero_le _, by simp; omega⟩, Nat.sub_zero, peek_append, if_pos hp]
  · rw [peek_blit, if_pos ⟨Nat.zero_le _, by simp⟩, Nat.sub_zero, peek_append,
      if_neg (lt_irrefl _), Nat.sub_self]
    rfl
  · intro c hcm
    have := hc c hcm
    omega

/-- C28 at the text "hello" and at the empty text. -/
theorem pack7bit_roundtrip_witness :
    UnpackPDUTo7bit (Pack7BitToPDU (bytes "hello") [] 0).1 0 [] 0
      = (5, bytes "hello" ++ [0]) ∧
    UnpackPDUTo7bit (Pack7BitToPDU [] [] 0).1 0 [] 0 = (0, [0]) ∧
    cstr (UnpackPDUTo7bit (Pack7BitToPDU [] [] 0).1 0 [] 0).2 0 = [] :=
  ⟨((pack7bit_roundtrip (bytes "hello") [] [] 0 (by decide) (by decide)
      (Or.inr (by decide))).1).trans (by decide),
   ((pack7bit_roundtrip [] [] [] 0 (by decide) (by decide) (Or.inl (by decide))).1).trans
     (by decide),
   (pack7bit_roundtrip [] [] [] 0 (by decide) (by decide) (Or.inl (by decide))).2⟩

/-! ### C24: the example message -/

theorem HexStrToUint8_congr (b1 b2 : List Nat) (p1 p2 : Nat)
    (h0 : peek b1 p1 = peek b2 p2) (h1 : peek b1 (p1 + 1) = peek b2 (p2 + 1)) :
    (HexStrToUint8 b1 p1).1 = (HexStrToUint8 b2 p2).1 := by
  unfold HexStrToUint8
  simp only [h0, h1]

theorem HexStrToUint8_snd (b : List Nat) (p : Nat) : (HexStrToUint8 b p).2 = p + 2 := rfl

theorem DecStrLoop_congr (b1 b2 : List Nat) (p1 p2 outPos : Nat) :
    ∀ (fuel di si : Nat) (out : List Nat),
      (∀ k, k < fuel → peek b1 (p1 + (di + k)) = peek b2 (p2 + (di + k))) →
      di + fuel ≤ 256 →
      DecStrToSemiOctetStrLoop b1 p1 outPos fuel di si out
        = DecStrToSemiOctetStrLoop b2 p2 outPos fuel di si out := by
  intro fuel
  induction fuel with
  | zero => intro di si out _ _; rfl
  | succ f ih =>
    intro di si out hw hb
    have h0 := hw 0 (by omega)
    rw [Nat.add_zero] at h0
    unfold DecStrToSemiOctetStrLoop
    simp only [h0]
    cases f with
    | zero => rfl
    | succ f2 =>
      have hd : (di + 1) % 256 = di + 1 := Nat.mod_eq_of_lt (by omega)
      have hw2 : ∀ k, k < f2 + 1 →
          peek b1 (p1 + ((di + 1) % 256 + k)) = peek b2 (p2 + ((di + 1) % 256 + k)) := by
        intro k hk
        rw [hd, show di + 1 + k = di + (k + 1) by omega]
        exact hw (k + 1) (by omega)
      rw [ih _ _ _ hw2 (by omega), ih _ _ _ hw2 (by omega)]

theorem DecStr_congr (b1 b2 : List Nat) (p1 p2 outPos maxChars : Nat) (out : List Nat)
    (hw : ∀ k, k < maxChars → peek b1 (p1 + k) = peek b2 (p2 + k)) (hm : maxChars ≤ 256) :
    DecStrToSemiOctetStr b1 p1 out outPos maxChars
      = DecStrToSemiOctetStr b2 p2 out outPos maxChars := by
  unfold DecStrToSemiOctetStr
  rw [DecStrLoop_congr b1 b2 p1 p2 outPos maxChars 0 0 out
    (by intro k hk; rw [Nat.zero_add]; exact hw k hk) (by omega)]

theorem ExtractAddress_congr (b1 b2 : List Nat) (p1 p2 : Nat) (isSMSC wantFormat : Bool)
    (addr : List Nat) (N : Nat)
    (hw : ∀ k, k < N → peek b1 (p1 + k) = peek b2 (p2 + k))
    (hN : 4 + ((ExtractAddress b2 p2 isSMSC addr wantFormat).1 + 252) % 256 ≤ N) :
    ExtractAddress b1 p1 isSMSC addr wantFormat = ExtractAddress b2 p2 isSMSC addr wantFormat := by
  have hlen : (HexStrToUint8 b1 p1).1 = (HexStrToUint8 b2 p2).1 :=
    HexStrToUint8_congr _ _ _ _ (by simpa using hw 0 (by omega)) (hw 1 (by omega))
  have hfmt : (HexStrToUint8 b1 (p1 + 2)).1 = (HexStrToUint8 b2 (p2 + 2)).1 :=
    HexStrToUint8_congr _ _ _ _ (hw 2 (by omega))
      (by have := hw 3 (by omega); rw [Nat.add_assoc, Nat.add_assoc]; exact this)
  have hrec : (ExtractAddress b2 p2 isSMSC addr wantFormat).1
      = if isSMSC = true then ((HexStrToUint8 b2 p2).1 + ((HexStrToUint8 b2 p2).1 + 2)) % 256
        else ((HexStrToUint8 b2 p2).1 + ((HexStrToUint8 b2 p2).1 % 2 + 4)) % 256 := by
    unfold ExtractAddress
    simp only [apply_ite Prod.fst, ite_self]
  rw [hrec] at hN
  unfold ExtractAddress
  simp only [HexStrToUint8_snd, hlen, hfmt]
  rw [DecStr_congr b1 b2 (p1 + 2 + 2) (p2 + 2 + 2) 0 _ addr
    (by
      intro k hk
      have := hw (4 + k) (by omega)
      rw [show p1 + 2 + 2 + k = p1 + (4 + k) by omega, show p2 + 2 + 2 + k = p2 + (4 + k) by omega]
      exact this)
    (by omega)]

theorem UnpackLoop_congr (b1 b2 : List Nat) :
    ∀ (m bytesLeft pos1 pos2 shift octet septet : Nat) (acc : List Nat), bytesLeft = m →
      (∀ k, k < 2 * (bytesLeft - 1) → peek b1 (pos1 + k) = peek b2 (pos2 + k)) →
      UnpackLoop b1 bytesLeft pos1 shift octet septet acc
        = UnpackLoop b2 bytesLeft pos2 shift octet septet acc := by
  intro m
  induction m using Nat.strong_induction_on with
  | _ m ih =>
    intro bytesLeft pos1 pos2 shift octet septet acc hm hw
    match bytesLeft, hm, hw with
    | 0, _, _ => unfold UnpackLoop; rfl
    | bl + 1, hm, hw =>
      simp only [Nat.add_sub_cancel] at hw
      unfold UnpackLoop
      simp only [HexStrToUint8_snd]
      by_cases hbl : bl ≠ 0
      · have hval : (HexStrToUint8 b1 pos1).1 = (HexStrToUint8 b2 pos2).1 :=
          HexStrToUint8_congr _ _ _ _ (by simpa using hw 0 (by omega)) (hw 1 (by omega))
        rw [if_pos hbl, if_pos hbl, hval]
        by_cases h6 : shift < 6
        · rw [if_pos h6, if_pos h6]
          exact ih bl (by omega) bl _ _ _ _ _ _ rfl (by
            intro k hk
            have := hw (2 + k) (by omega)
            rw [show pos1 + 2 + k = pos1 + (2 + k) by omega,
              show pos2 + 2 + k = pos2 + (2 + k) by omega]
            exact this)
        · rw [if_neg h6, if_neg h6]
          by_cases hb1 : bl - 1 ≠ 0
          · rw [if_pos hb1, if_pos hb1]
            exact ih (bl - 1) (by omega) (bl - 1) _ _ _ _ _ _ rfl (by
              intro k hk
              have := hw (2 + k) (by omega)
              rw [show pos1 + 2 + k = pos1 + (2 + k) by omega,
                show pos2 + 2 + k = pos2 + (2 + k) by omega]
              exact this)
          · rw [if_neg hb1, if_neg hb1]
      · rw [if_neg hbl, if_neg hbl]

theorem UnpackPDUTo7bit_congr (b1 b2 : List Nat) (p1 p2 : Nat) (out : List Nat) (outPos N : Nat)
    (hw : ∀ k, k < N → peek b1 (p1 + k) = peek b2 (p2 + k))
    (hN : 2 + 2 * (HexStrToUint8 b2 p2).1 ≤ N) :
    UnpackPDUTo7bit b1 p1 out outPos = UnpackPDUTo7bit b2 p2 out outPos := by
  have hlen : (HexStrToUint8 b1 p1).1 = (HexStrToUint8 b2 p2).1 :=
    HexStrToUint8_congr _ _ _ _ (by simpa using hw 0 (by omega)) (hw 1 (by omega))
  unfold UnpackPDUTo7bit UnpackChars
  simp only [HexStrToUint8_snd, hlen]
  by_cases h0 : (HexStrToUint8 b2 p2).1 ≠ 0
  · have hval : (HexStrToUint8 b1 (p1 + 2)).1 = (HexStrToUint8 b2 (p2 + 2)).1 :=
      HexStrToUint8_congr _ _ _ _ (hw 2 (by omega))
        (by have := hw 3 (by omega); rw [Nat.add_assoc, Nat.add_assoc]; exact this)
    rw [if_pos h0, if_pos h0, hval,
      UnpackLoop_congr b1 b2 _ _ (p1 + 2 + 2) (p2 + 2 + 2) _ _ _ _ rfl (by
        intro k hk
        have := hw (4 + k) (by omega)
        rw [show p1 + 2 + 2 + k = p1 + (4 + k) by omega,
          show p2 + 2 + 2 + k = p2 + (4 + k) by omega]
        exact this)]
  · rw [if_neg h0, if_neg h0]

theorem ParseTPDU_congr (b1 b2 : List Nat) (p1 p2 : Nat) (msg sender : List Nat) (N : Nat)
    (hw : ∀ k, k < N → peek b1 (p1 + k) = peek b2 (p2 + k))
    (hN1 : 2 + (4 + ((ExtractAddress b2 (p2 + 2) false sender false).1 + 252) % 256) ≤ N)
    (hN2 : 2 + (ExtractAddress b2 (p2 + 2) false sender false).1 + (2 + 2 + 14)
      + (2 + 2 * (HexStrToUint8 b2
          (p2 + 2 + (ExtractAddress b2 (p2 + 2) false sender false).1 + (2 + 2 + 14))).1) ≤ N) :
    ParseTPDU b1 p1 msg sender = ParseTPDU b2 p2 msg sender := by
  have hty : (HexStrToUint8 b1 p1).1 = (HexStrToUint8 b2 p2).1 :=
    HexStrToUint8_congr _ _ _ _ (by simpa using hw 0 (by omega)) (hw 1 (by omega))
  have ha : ExtractAddress b1 (p1 + 2) false sender false
      = ExtractAddress b2 (p2 + 2) false sender false :=
    ExtractAddress_congr b1 b2 (p1 + 2) (p2 + 2) false false sender (N - 2)
      (by
        intro k hk
        have := hw (2 + k) (by omega)
        rw [Nat.add_assoc, Nat.add_assoc]
        exact this)
      (by omega)
  unfold ParseTPDU
  simp only [HexStrToUint8_snd, hty, ha]
  by_cases h0 : (HexStrToUint8 b2 p2).1 % 4 = 0
  · rw [if_pos h0, if_pos h0]
    rw [UnpackPDUTo7bit_congr b1 b2
      (p1 + 2 + (ExtractAddress b2 (p2 + 2) false sender false).1 + (2 + 2 + 14))
      (p2 + 2 + (ExtractAddress b2 (p2 + 2) false sender false).1 + (2 + 2 + 14)) msg 0
      (N - (2 + (ExtractAddress b2 (p2 + 2) false sender false).1 + (2 + 2 + 14)))
      (by
        intro k hk
        have := hw (2 + (ExtractAddress b2 (p2 + 2) false sender false).1 + (2 + 2 + 14) + k)
          (by omega)
        rw [show p1 + 2 + (ExtractAddress b2 (p2 + 2) false sender false).1 + (2 + 2 + 14) + k
            = p1 + (2 + (ExtractAddress b2 (p2 + 2) false sender false).1 + (2 + 2 + 14) + k)
            by omega,
          show p2 + 2 + (ExtractAddress b2 (p2 + 2) false sender false).1 + (2 + 2 + 14) + k
            = p2 + (2 + (ExtractAddress b2 (p2 + 2) false sender false).1 + (2 + 2 + 14) + k)
            by omega]
        exact this)
      (by omega)]
  · rw [if_neg h0, if_neg h0]

theorem MessageRead_messagesRead (s : SIM7000) (m : List Nat) (n : Nat) (a b : List Nat) :
    (MessageRead s m n a b).messagesRead
      = s.messagesRead ++ [{ inMessage := cstr m 0, inMessageLen := n, inSender := a,
                             inSMSCAddr := b }] := by
  cases s
  simp only [MessageRead, passthroughWrite]
  split_ifs <;> rfl

theorem MessageRead_mCommandHash (s : SIM7000) (m : List Nat) (n : Nat) (a b : List Nat) :
    (MessageRead s m n a b).mCommandHash = s.mCommandHash := by
  cases s
  simp only [MessageRead, passthroughWrite]
  split_ifs <;> rfl

theorem ack_smsc_record :
    ExtractAddress ackPDULine 0 true (List.replicate 16 0) false
      = (16, bytes "19036384682" ++ [0, 255, 255, 255, 255], none) := by
  decide!

theorem ack_deliver_record :
    ParseTPDU ackPDULine 16 (List.replicate 512 0) (List.replicate 16 0)
      = (3, bytes "ack" ++ List.replicate 509 0,
         bytes "05087133317" ++ [0, 255, 255, 255, 255]) := by
  decide!

theorem HandleMultiLineCommand_ack (s : SIM7000)
    (hp : s.mCommandHash = kCMGLCmdHash ∨ s.mCommandHash = kCMGRCmdHash)
    (hline : ∀ k, k < 61 → peek s.mRxBuffer (s.mRxBufferPtr + k) = peek ackPDULine k) :
    (HandleMultiLineCommand s).2.messagesRead = s.messagesRead ++ [ackCall] ∧
    (HandleMultiLineCommand s).2.mCommandHash = 0 := by
  have ha : ExtractAddress s.mRxBuffer s.mRxBufferPtr true (List.replicate 16 0) false
      = (16, bytes "19036384682" ++ [0, 255, 255, 255, 255], none) := by
    rw [← ack_smsc_record]
    apply ExtractAddress_congr _ _ _ _ _ _ _ 61
    · intro k hk
      rw [Nat.zero_add]
      exact hline k hk
    · rw [ack_smsc_record]; decide
  have ht : ParseTPDU s.mRxBuffer (s.mRxBufferPtr + 16) (List.replicate 512 0)
        (List.replicate 16 0)
      = (3, bytes "ack" ++ List.replicate 509 0,
         bytes "05087133317" ++ [0, 255, 255, 255, 255]) := by
    rw [← ack_deliver_record]
    apply ParseTPDU_congr _ _ _ _ _ _ 45
    · intro k hk
      have := hline (16 + k) (by omega)
      rw [Nat.add_assoc]
      exact this
    · decide!
    · decide!
  unfold HandleMultiLineCommand
  rw [if_pos hp]
  simp only [ha, ht, MessageRead_messagesRead, MessageRead_mCommandHash]
  refine ⟨?_, trivial⟩
  congr 1

/-- C24: with a message read pending (the pending hash is that of +CMGR, or of
+CMGL), when the line at the cursor is the example PDU line, NUL-terminated,
`HandleCommandResponse` hands it to `MessageRead`, once, as the text "ack" with
length 3, the sender buffer holding the C string "05087133317" and the SMSC
buffer holding the C string "19036384682"; the pending hash is then cleared. -/
theorem ack_message_delivered (h : Host) (s : SIM7000)
    (hp : s.mCommandHash = kCMGLCmdHash ∨ s.mCommandHash = kCMGRCmdHash)
    (hline : ∀ k, k < 61 → peek s.mRxBuffer (s.mRxBufferPtr + k) = peek ackPDULine k) :
    (HandleCommandResponse h s).messagesRead = s.messagesRead ++ [ackCall] ∧
    (HandleCommandResponse h s).mCommandHash = 0 ∧
    ackCall.inMessage = bytes "ack" ∧ ackCall.inMessageLen = 3 ∧
    cstr ackCall.inSender 0 = bytes "05087133317" ∧
    cstr ackCall.inSMSCAddr 0 = bytes "19036384682" := by
  have hs2 : ∀ s2 : SIM7000, s2.mCommandHash = s.mCommandHash → s2.mRxBuffer = s.mRxBuffer →
      s2.mRxBufferPtr = s.mRxBufferPtr → s2.messagesRead = s.messagesRead →
      (ResumeRx (FlushRxBuffer
        (if !(if s2.mCommandHash ≠ 0 then HandleMultiLineCommand s2 else (false, s2)).1 then
          ClassifyLine h (if s2.mCommandHash ≠ 0 then HandleMultiLineCommand s2 else (false, s2)).2
         else (if s2.mCommandHash ≠ 0 then HandleMultiLineCommand s2 else (false, s2)).2))).messagesRead
        = s.messagesRead ++ [ackCall] ∧
      (ResumeRx (FlushRxBuffer
        (if !(if s2.mCommandHash ≠ 0 then HandleMultiLineCommand s2 else (false, s2)).1 then
          ClassifyLine h (if s2.mCommandHash ≠ 0 then HandleMultiLineCommand s2 else (false, s2)).2
         else (if s2.mCommandHash ≠ 0 then HandleMultiLineCommand s2 else (false, s2)).2))).mCommandHash
        = 0 := by
    intro s2 e1 e2 e3 e4
    have hp2 : s2.mCommandHash = kCMGLCmdHash ∨ s2.mCommandHash = kCMGRCmdHash := by
      rw [e1]; exact hp
    have h0 : s2.mCommandHash ≠ 0 := by
      rcases hp2 with hm | hm <;> rw [hm] <;> decide
    have h1 : (HandleMultiLineCommand s2).1 = true := by
      unfold HandleMultiLineCommand; rw [if_pos hp2]
    obtain ⟨r1, r2⟩ := HandleMultiLineCommand_ack s2 hp2 (by rw [e2, e3]; exact hline)
    rw [if_pos h0, h1]
    simp only [Bool.not_true, Bool.false_eq_true, if_false]
    rw [ResumeRx_eq]
    simp only [FlushRxBuffer]
    exact ⟨by rw [r1, e4], r2⟩
  have := hs2 { PauseRx (noteLine s) with
      mCommandTimeout := (PauseRx (noteLine s)).mCommandTimeout.Start (PauseRx (noteLine s)).millis }
    (by rw [PauseRx_eq]; rfl) (by rw [PauseRx_eq]; rfl) (by rw [PauseRx_eq]; rfl)
    (by rw [PauseRx_eq]; rfl)
  exact ⟨this.1, this.2, by decide, by decide, by decide, by decide⟩

/-- C24 at the state reached from `readyModem`: after the header line
"+CMGR: 1,,22" the pending hash is that of +CMGR; the bytes of the example line
and its line end then make one call of `MessageRead`, that of the theorem. -/
theorem ack_message_delivered_witness :
    readPending.mCommandHash = kCMGRCmdHash ∧ readPending.messagesRead = [] ∧
    ((ackPDULine ++ [13, 10]).foldl (UpdateByte hostNoClock) readPending).messagesRead
      = [ackCall] ∧
    (HandleCommandResponse hostNoClock ackLineHanded).messagesRead
      = ackLineHanded.messagesRead ++ [ackCall] :=
  ⟨by decide!, by decide!, by decide!,
   (ack_message_delivered hostNoClock ackLineHanded (Or.inr (by decide!)) (by decide!)).1⟩

/-! ### C17: the lines handed to the response handler -/

theorem lines_SendCommand (s : SIM7000) (c : List Nat) (a b : Nat) :
    (SendCommand s c a b).2.linesHandled = s.linesHandled := by
  unfold SendCommand
  split <;> simp only [passthroughWrite_eq, serialWrite, FlushRxBuffer]

theorem lines_CheckLevels (s : SIM7000) : (CheckLevels s).linesHandled = s.linesHandled := by
  unfold CheckLevels SendCommandIgnored
  dsimp only
  split_ifs <;> first | rfl | exact lines_SendCommand _ _ _ _

theorem lines_TurnOffEchoMode (s : SIM7000) (r : Nat) :
    (TurnOffEchoMode s r).linesHandled = s.linesHandled := by
  unfold TurnOffEchoMode SendCommandIgnored
  rw [lines_SendCommand]

theorem lines_SetBaudOrFlowControl (s : SIM7000) :
    (SetBaudOrFlowControl s).linesHandled = s.linesHandled := by
  unfold SetBaudOrFlowControl SendCommandIgnored
  split <;> rw [lines_SendCommand]

theorem lines_completedBeforeReply (s : SIM7000) :
    (completedBeforeReply s).linesHandled = s.linesHandled := by
  unfold completedBeforeReply
  split_ifs <;>
    first
    | rfl
    | exact lines_SetBaudOrFlowControl _
    | exact lines_CheckLevels _
    | exact lines_TurnOffEchoMode _ _

theorem lines_HandleCommandCompleted (h : Host) (s : SIM7000) :
    (HandleCommandCompleted h s).linesHandled = s.linesHandled :=
  HandleCommandCompleted_cases h s (fun t => t.linesHandled = s.linesHandled)
    (lines_completedBeforeReply s)
    (fun a m _ _ _ => (SendSMS_linesHandled _ a m).trans (lines_completedBeforeReply s))

theorem lines_UpdateTime (s : SIM7000) (t : Nat) :
    (UpdateTime s t).linesHandled = s.linesHandled := by
  unfold UpdateTime; split <;> rfl

theorem lines_HandleNoSIMCardFound (s : SIM7000) :
    (HandleNoSIMCardFound s).linesHandled = s.linesHandled := by
  unfold HandleNoSIMCardFound
  rfl

theorem lines_QueueMessageIndex (s : SIM7000) (i : Nat) :
    (QueueMessageIndex s i).linesHandled = s.linesHandled := by
  unfold QueueMessageIndex
  rfl

theorem lines_ParseCommandResponse (h : Host) (s : SIM7000) :
    (ParseCommandResponse h s).linesHandled = s.linesHandled := by
  unfold ParseCommandResponse
  dsimp only
  split_ifs
  · exact ParseDispatch_cases h _ _ _ _ (fun t => t.linesHandled = s.linesHandled) rfl
      (fun _ => rfl)
      (fun _ => lines_UpdateTime _ _) (fun _ => rfl) (fun _ => rfl)
      (fun _ => rfl) rfl (fun _ _ => lines_QueueMessageIndex _ _) rfl (fun _ => rfl)
      (lines_HandleNoSIMCardFound _)
  · rfl
  · rfl

theorem lines_HandleCommandFailed (s : SIM7000) :
    (HandleCommandFailed s).linesHandled = s.linesHandled := by
  unfold HandleCommandFailed
  rfl

theorem lines_ClassifyLine (h : Host) (s : SIM7000) :
    (ClassifyLine h s).linesHandled = s.linesHandled :=
  ClassifyLine_cases h s (fun t => t.linesHandled = s.linesHandled) rfl
    (fun _ => lines_UpdateTime _ _)
    (fun _ => lines_ParseCommandResponse h s)
    (fun _ => lines_HandleCommandFailed _) (fun _ => rfl)
    (fun _ => lines_HandleCommandCompleted h _)

theorem lines_MessageRead (s : SIM7000) (m : List Nat) (n : Nat) (a b : List Nat) :
    (MessageRead s m n a b).linesHandled = s.linesHandled := by
  cases s
  simp only [MessageRead, passthroughWrite]
  split_ifs <;> rfl

theorem lines_HandleMultiLineCommand (s : SIM7000) :
    (HandleMultiLineCommand s).2.linesHandled = s.linesHandled := by
  unfold HandleMultiLineCommand
  split
  · simp only [lines_MessageRead]
  · rfl

theorem lines_ResumeFlush (s : SIM7000) :
    (ResumeRx (FlushRxBuffer s)).linesHandled = s.linesHandled := by
  rw [ResumeRx_eq]; rfl

theorem HandleCommandResponse_noted (h : Host) (s : SIM7000) :
    ∃ s2, core s2 = core s ∧ s2.mRxBuffer = s.mRxBuffer ∧ s2.mRxBufferPtr = s.mRxBufferPtr ∧
      s2.mCommandHash = s.mCommandHash ∧
      s2.linesHandled = s.linesHandled ++ [cstr s.mRxBuffer s.mRxBufferPtr] ∧
      HandleCommandResponse h s = ResumeRx (FlushRxBuffer
        (if s.mCommandHash = kCMGLCmdHash ∨ s.mCommandHash = kCMGRCmdHash then
          (HandleMultiLineCommand s2).2
         else ClassifyLine h s2)) := by
  have key : ∀ s2 : SIM7000,
      (if !(if s2.mCommandHash ≠ 0 then HandleMultiLineCommand s2 else (false, s2)).1 then
          ClassifyLine h (if s2.mCommandHash ≠ 0 then HandleMultiLineCommand s2 else (false, s2)).2
         else (if s2.mCommandHash ≠ 0 then HandleMultiLineCommand s2 else (false, s2)).2)
      = (if s2.mCommandHash = kCMGLCmdHash ∨ s2.mCommandHash = kCMGRCmdHash then
          (HandleMultiLineCommand s2).2
         else ClassifyLine h s2) := by
    intro s2
    by_cases hm : s2.mCommandHash = kCMGLCmdHash ∨ s2.mCommandHash = kCMGRCmdHash
    · have h0 : s2.mCommandHash ≠ 0 := by
        rcases hm with hm | hm <;> rw [hm] <;> decide
      have h1 : (HandleMultiLineCommand s2).1 = true := by
        unfold HandleMultiLineCommand; rw [if_pos hm]
      rw [if_pos h0, if_pos hm, h1]; rfl
    · have h1 : HandleMultiLineCommand s2 = (false, s2) := by
        unfold HandleMultiLineCommand; rw [if_neg hm]
      rw [if_neg hm]
      by_cases h0 : s2.mCommandHash ≠ 0
      · rw [if_pos h0, h1]; rfl
      · rw [if_neg h0]; rfl
  have hh : (PauseRx (noteLine s)).mCommandHash = s.mCommandHash := by rw [PauseRx_eq]; rfl
  refine ⟨{ PauseRx (noteLine s) with mCommandTimeout := (PauseRx (noteLine s)).mCommandTimeout.Start (PauseRx (noteLine s)).millis },
    core_PauseRx (noteLine s), by rw [PauseRx_eq]; rfl, by rw [PauseRx_eq]; rfl, hh,
    by rw [PauseRx_eq]; rfl, ?_⟩
  have := key { PauseRx (noteLine s) with mCommandTimeout := (PauseRx (noteLine s)).mCommandTimeout.Start (PauseRx (noteLine s)).millis }
  rw [show ({ PauseRx (noteLine s) with mCommandTimeout := (PauseRx (noteLine s)).mCommandTimeout.Start (PauseRx (noteLine s)).millis } : SIM7000).mCommandHash = s.mCommandHash from hh] at this
  rw [← this, ← hh]
  rfl

theorem lines_HandleCommandResponse (h : Host) (s : SIM7000) :
    (HandleCommandResponse h s).linesHandled
      = s.linesHandled ++ [cstr s.mRxBuffer s.mRxBufferPtr] := by
  obtain ⟨s2, _, _, _, _, hl, he⟩ := HandleCommandResponse_noted h s
  rw [he, lines_ResumeFlush]
  split
  · rw [lines_HandleMultiLineCommand, hl]
  · rw [lines_ClassifyLine, hl]

theorem UpdateByte_skip (h : Host) (s : SIM7000) (b : Nat) (hb : b = 13 ∨ b = 0) :
    UpdateByte h s b = s := by
  unfold UpdateByte
  rw [if_pos hb]

theorem UpdateByte_store (h : Host) (s : SIM7000) (b : Nat)
    (hb : ¬ (b = 13 ∨ b = 0)) (h10 : b ≠ 10)
    (hs : ¬ (s.mSMSStatus = eSMSSending ∧ b = 62)) :
    (UpdateByte h s b).mRxBufferPtr = s.mRxBufferPtr + 1 ∧
    (UpdateByte h s b).mRxBuffer
      = poke (poke s.mRxBuffer s.mRxBufferPtr b) (s.mRxBufferPtr + 1) 0 ∧
    (UpdateByte h s b).mSMSStatus = s.mSMSStatus ∧
    (UpdateByte h s b).linesHandled = s.linesHandled := by
  have hlen : ∀ t : SIM7000, t.mRxBufferPtr % 256 < kRxBufferSize := by
    intro t; unfold kRxBufferSize SIM7000_RX_BUFFER_SIZE; omega
  have hs1 : ¬ ((passthroughWrite s [b]).mSMSStatus = eSMSSending ∧ b = 62) := by
    rw [passthroughWrite_eq]; exact hs
  unfold UpdateByte
  rw [if_neg hb, if_neg h10]
  dsimp only
  rw [if_pos (hlen _), if_neg hs1]
  simp only [passthroughWrite_eq, and_self]

theorem UpdateByte_feed (h : Host) (s : SIM7000) :
    (UpdateByte h s 10).mRxBufferPtr = 0 := by
  unfold UpdateByte
  rw [if_neg (by omega), if_pos rfl]
  dsimp only
  split
  · exact HandleCommandResponse_ptr h _
  · rename_i hp
    simp only [passthroughWrite_eq] at hp ⊢
    omega

theorem UpdateByte_line (h : Host) (s : SIM7000) :
    (UpdateByte h s 10).mRxBufferPtr = 0 ∧
    (UpdateByte h s 10).mRxBuffer
      = (if 0 < s.mRxBufferPtr then poke s.mRxBuffer s.mRxBufferPtr 0 else s.mRxBuffer) ∧
    (UpdateByte h s 10).linesHandled
      = s.linesHandled ++
        (if 0 < s.mRxBufferPtr then [cstr (poke s.mRxBuffer s.mRxBufferPtr 0) 0] else []) := by
  refine ⟨UpdateByte_feed h s, ?_, ?_⟩
  · unfold UpdateByte
    rw [if_neg (by omega), if_pos rfl]
    dsimp only
    have hp1 : (passthroughWrite s [10]).mRxBufferPtr = s.mRxBufferPtr := by
      rw [passthroughWrite_eq]
    have hb1 : (passthroughWrite s [10]).mRxBuffer = s.mRxBuffer := by
      rw [passthroughWrite_eq]
    by_cases hp : 0 < s.mRxBufferPtr
    · rw [if_pos (show (passthroughWrite s [10]).mRxBufferPtr > 0 by rw [hp1]; exact hp),
        if_pos hp, rxbuf_HandleCommandResponse]
      show poke (passthroughWrite s [10]).mRxBuffer (passthroughWrite s [10]).mRxBufferPtr 0 = _
      rw [hp1, hb1]
    · rw [if_neg (show ¬ (passthroughWrite s [10]).mRxBufferPtr > 0 by rw [hp1]; exact hp),
        if_neg hp, hb1]
  · unfold UpdateByte
    rw [if_neg (by omega), if_pos rfl]
    dsimp only
    have hp1 : (passthroughWrite s [10]).mRxBufferPtr = s.mRxBufferPtr := by
      rw [passthroughWrite_eq]
    have hb1 : (passthroughWrite s [10]).mRxBuffer = s.mRxBuffer := by
      rw [passthroughWrite_eq]
    have hl1 : (passthroughWrite s [10]).linesHandled = s.linesHandled := by
      rw [passthroughWrite_eq]
    by_cases hp : 0 < s.mRxBufferPtr
    · rw [if_pos (show (passthroughWrite s [10]).mRxBufferPtr > 0 by rw [hp1]; exact hp),
        if_pos hp, lines_HandleCommandResponse]
      show (passthroughWrite s [10]).linesHandled ++
        [cstr (poke (passthroughWrite s [10]).mRxBuffer (passthroughWrite s [10]).mRxBufferPtr 0) 0]
        = _
      rw [hp1, hb1, hl1]
    · rw [if_neg (show ¬ (passthroughWrite s [10]).mRxBufferPtr > 0 by rw [hp1]; exact hp),
        if_neg hp, hl1, List.append_nil]

theorem framing_aux (h : Host) : ∀ (rx : List Nat) (s : SIM7000) (cur : List Nat),
    s.mRxBufferPtr = cur.length →
    (∀ i, i < cur.length → peek s.mRxBuffer i = peek cur i) →
    (∀ c ∈ cur, c ≠ 0 ∧ c ≠ 10) →
    (∀ i, i < rx.length → rx.getD i 0 = 62 →
      ((rx.take i).foldl (UpdateByte h) s).mSMSStatus ≠ eSMSSending) →
    (rx.foldl (UpdateByte h) s).linesHandled
      = s.linesHandled ++
        (((cur ++ stripped rx).splitOn 10).dropLast).filter (fun l => !l.isEmpty) ∧
    (rx.foldl (UpdateByte h) s).mRxBufferPtr
      = (((cur ++ stripped rx).splitOn 10).getLastD []).length ∧
    (s.mRxBuffer.length = SIM7000_RX_BUFFER_SIZE →
      (∀ l ∈ (cur ++ stripped rx).splitOn 10, l.length < kRxBufferSize) →
      (rx.foldl (UpdateByte h) s).mRxBuffer.length = SIM7000_RX_BUFFER_SIZE) := by
  intro rx
  induction rx with
  | nil =>
    intro s cur hptr _ hcur _
    have hsp : (cur ++ stripped []).splitOn 10 = [cur] := by
      unfold stripped List.splitOn
      rw [List.filter_nil, List.append_nil]
      apply List.splitOnP_eq_single
      intro x hx
      simpa using (hcur x hx).2
    rw [hsp]
    simp only [List.foldl_nil, List.dropLast_single, List.filter_nil, List.append_nil,
      List.getLastD_cons, List.getLastD_nil, true_and]
    exact ⟨hptr, fun hb _ => hb⟩
  | cons b rx ih =>
    intro s cur hptr hpeek hcur hprompt
    have hnow : ¬ (s.mSMSStatus = eSMSSending ∧ b = 62) := by
      rintro ⟨h1, h2⟩
      exact hprompt 0 (by simp) (by simpa using h2) (by simpa using h1)
    have hlater : ∀ i, i < rx.length → rx.getD i 0 = 62 →
        ((rx.take i).foldl (UpdateByte h) (UpdateByte h s b)).mSMSStatus ≠ eSMSSending := by
      intro i hi h62
      have := hprompt (i + 1) (by simpa using hi) (by simpa using h62)
      simpa using this
    rw [List.foldl_cons, stripped_cons]
    by_cases hb : b = 13 ∨ b = 0
    · have e1 := UpdateByte_skip h s b hb
      rw [e1] at hlater
      rw [if_pos hb, e1]
      exact ih s cur hptr hpeek hcur hlater
    rw [if_neg hb]
    by_cases h10 : b = 10
    · subst h10
      obtain ⟨p0, pbuf, plog⟩ := UpdateByte_line h s
      have hsp := splitOn_first cur (stripped rx) (fun c hc => (hcur c hc).2)
      have hne : (stripped rx).splitOn 10 ≠ [] := List.splitOnP_ne_nil _ _
      obtain ⟨d1, d2⟩ := dropLast_getLastD_cons cur _ hne
      have ih' := ih (UpdateByte h s 10) [] p0
        (fun i hi => absurd hi (by simp)) (by simp) hlater
      rw [List.nil_append] at ih'
      rw [hsp, d1, d2]
      obtain ⟨i2, i3, i4⟩ := ih'
      refine ⟨?_, i3, ?_⟩
      · rw [i2, plog, List.filter_cons]
        by_cases hc0 : cur = []
        · subst hc0
          have : s.mRxBufferPtr = 0 := by simpa using hptr
          rw [if_neg (by omega)]
          simp
        · have hpos : 0 < s.mRxBufferPtr := by
            rw [hptr]; exact List.length_pos.2 hc0
          have hline : cstr (poke s.mRxBuffer s.mRxBufferPtr 0) 0 = cur := by
            apply cstr_of_peek
            · intro p hp
              rw [peek_poke, if_neg (by omega)]
              exact hpeek p hp
            · rw [peek_poke, if_pos hptr.symm]
            · intro c hc; exact (hcur c hc).1
          rw [if_pos hpos, hline]
          have : (!cur.isEmpty) = true := by
            cases cur with
            | nil => exact absurd rfl hc0
            | cons _ _ => rfl
          simp [this]
      · intro hlen hshort
        apply i4
        · rw [pbuf]
          split
          · rw [length_poke, hlen]
            have := hshort cur (List.mem_cons_self _ _)
            unfold kRxBufferSize SIM7000_RX_BUFFER_SIZE at *
            omega
          · exact hlen
        · intro l hl
          exact hshort l (List.mem_cons_of_mem _ hl)
    · obtain ⟨q1, q2, _, q4⟩ := UpdateByte_store h s b hb h10 hnow
      have hb0 : b ≠ 0 := fun e => hb (Or.inr e)
      have ih' := ih (UpdateByte h s b) (cur ++ [b])
        (by rw [q1, hptr]; simp)
        (by
          intro i hi
          rw [q2, peek_poke, peek_poke, peek_append]
          simp only [List.length_append, List.length_singleton] at hi
          by_cases hi2 : i < cur.length
          · rw [if_neg (by omega), if_neg (by omega), if_pos hi2]
            exact hpeek i hi2
          · have : i = cur.length := by omega
            subst this
            rw [if_neg (by omega), if_pos hptr.symm, if_neg (by omega), Nat.sub_self]
            rfl)
        (by
          intro c hc
          rcases List.mem_append.1 hc with hc | hc
          · exact hcur c hc
          · simp only [List.mem_singleton] at hc
            subst hc
            exact ⟨hb0, h10⟩)
        hlater
      rw [q4] at ih'
      simp only [List.append_assoc, List.singleton_append] at ih' ⊢
      obtain ⟨i2, i3, i4⟩ := ih'
      refine ⟨i2, i3, ?_⟩
      intro hlen hshort
      apply i4 _ hshort
      obtain ⟨hd, tl, e⟩ := splitOn_head (stripped rx) (cur ++ [b])
        (by
          intro c hc
          rcases List.mem_append.1 hc with hc | hc
          · exact (hcur c hc).2
          · simp only [List.mem_singleton] at hc
            subst hc
            exact h10)
      simp only [List.append_assoc, List.singleton_append] at e
      have := hshort _ (by rw [e]; exact List.mem_cons_self _ _)
      simp only [List.length_append, List.length_cons] at this
      rw [q2, length_poke, length_poke, hlen]
      unfold kRxBufferSize SIM7000_RX_BUFFER_SIZE at *
      omega

/-- C17: for every host and every received byte stream whose lines are each
shorter than the response buffer, received from a state with the buffer empty, and
in which no prompt character '>' arrives while an SMS is in state Sending (the one
case in which the byte loop itself sends, `SendSMSMessage`, and flushes the
buffer), the lines on which `HandleCommandResponse` is called, as recorded by
`HandleCommandResponse` itself in `linesHandled`, are exactly the stream with
carriage returns and NUL bytes removed, split at line feeds, with empty lines
dropped; the text after the last line feed is what the buffer then holds, no write
goes past the buffer, and after every line feed the buffer is empty. -/
theorem line_framing (h : Host) (s : SIM7000) (rx : List Nat)
    (hptr : s.mRxBufferPtr = 0)
    (hbuf : s.mRxBuffer.length = SIM7000_RX_BUFFER_SIZE)
    (hshort : ∀ l ∈ (stripped rx).splitOn 10, l.length < kRxBufferSize)
    (hprompt : ∀ i, i < rx.length → rx.getD i 0 = 62 →
      ((rx.take i).foldl (UpdateByte h) s).mSMSStatus ≠ eSMSSending) :
    (rx.foldl (UpdateByte h) s).linesHandled = s.linesHandled ++ specLines rx ∧
    (rx.foldl (UpdateByte h) s).mRxBufferPtr = (specRest rx).length ∧
    (rx.foldl (UpdateByte h) s).mRxBuffer.length = SIM7000_RX_BUFFER_SIZE ∧
    (∀ t : SIM7000, (UpdateByte h t 10).mRxBufferPtr = 0) := by
  obtain ⟨i2, i3, i4⟩ := framing_aux h rx s [] hptr
    (fun i hi => absurd hi (by simp)) (by simp) hprompt
  simp only [List.nil_append] at i2 i3 i4
  exact ⟨i2, i3, i4 hbuf hshort, fun t => UpdateByte_feed h t⟩

set_option maxRecDepth 100000 in
/-- C17 at the stream "OK", CR LF, CR LF, "+CSQ: 5,0", CR LF, "> AT" received in
the initial state by a host with a reply queued. -/
theorem line_framing_witness :
    ((bytes "OK" ++ [13, 10, 13, 10] ++ bytes "+CSQ: 5,0" ++ [13, 10] ++ bytes "> AT").foldl
        (UpdateByte hostWithReply) SIM7000.init).linesHandled
      = [] ++ specLines
          (bytes "OK" ++ [13, 10, 13, 10] ++ bytes "+CSQ: 5,0" ++ [13, 10] ++ bytes "> AT") ∧
    specLines (bytes "OK" ++ [13, 10, 13, 10] ++ bytes "+CSQ: 5,0" ++ [13, 10] ++ bytes "> AT")
      = [bytes "OK", bytes "+CSQ: 5,0"] :=
  ⟨(line_framing hostWithReply SIM7000.init
      (bytes "OK" ++ [13, 10, 13, 10] ++ bytes "+CSQ: 5,0" ++ [13, 10] ++ bytes "> AT")
      rfl (List.length_replicate _ _) (by decide!) (by decide!)).1, by decide!⟩

set_option maxRecDepth 100000 in
/-- C17, evaluated on the code with the hook of the sensor: a registered modem with
a reply queued receives "OK", CR LF, ">x", LF.  The "OK" sends the reply (status
Sending), the prompt character then makes the byte loop send the text and flush
the buffer, and the second line is handed over as "x": without the condition on
the prompt the framing fails. -/
theorem prompt_while_sending_cuts_line :
    ((bytes "OK" ++ [13, 10] ++ bytes ">x" ++ [10]).foldl (UpdateByte hostWithReply)
      connectedModem).linesHandled = [bytes "OK", bytes "x"] ∧
    specLines (bytes "OK" ++ [13, 10] ++ bytes ">x" ++ [10]) = [bytes "OK", bytes ">x"] ∧
    ((bytes "OK" ++ [13, 10]).foldl (UpdateByte hostWithReply) connectedModem).mSMSStatus
      = eSMSSending := by
  decide!

/-! ### C16: the causes of the changes of the SMS status -/

theorem ParseScan_spec : ∀ (l : List Nat) (pos hash : Nat),
    (ParseScan l pos hash).1 = decide (58 ∈ l.takeWhile (fun c => c != 0)) ∧
    (ParseScan l pos hash).2.2
      = ((l.takeWhile (fun c => c != 0)).takeWhile (fun c => c != 58)).foldl hashStep hash := by
  intro l
  induction l with
  | nil => intro pos hash; simp [ParseScan]
  | cons a t ih =>
    intro pos hash
    rw [ParseScan]
    by_cases h0 : a = 0
    · subst h0
      simp
    · rw [if_neg h0]
      have e0 : (a :: t).takeWhile (fun c => c != 0) = a :: t.takeWhile (fun c => c != 0) := by
        rw [List.takeWhile_cons, if_pos (by simpa using h0)]
      rw [e0]
      by_cases h58 : a = 58
      · subst h58
        simp
      · rw [if_pos h58]
        obtain ⟨i1, i2⟩ := ih (pos + 1) (hashStep hash a)
        rw [i1, i2, List.takeWhile_cons, if_pos (by simpa using h58), List.foldl_cons]
        refine ⟨?_, rfl⟩
        simp only [List.mem_cons, decide_eq_decide]
        constructor
        · intro hx; exact Or.inr hx
        · rintro (hx | hx)
          · exact absurd hx.symm h58
          · exact hx

theorem mnemonicHash_of_scan (buf : List Nat) (p : Nat) (hplus : peek buf p = 43)
    (hc : (ParseScan (buf.drop (p + 1)) (p + 1) 0).1 = true) :
    mnemonicHash (cstr buf p) = some (ParseScan (buf.drop (p + 1)) (p + 1) 0).2.2 := by
  have hlt : p < buf.length := by
    by_contra hge
    unfold peek at hplus
    rw [List.getD_eq_default _ _ (by omega)] at hplus
    omega
  have hd : buf.drop p = 43 :: buf.drop (p + 1) := by
    rw [List.drop_eq_getElem_cons hlt]
    congr 1
    unfold peek at hplus
    rw [List.getD_eq_getElem _ _ hlt] at hplus
    exact hplus
  obtain ⟨i1, i2⟩ := ParseScan_spec (buf.drop (p + 1)) (p + 1) 0
  rw [i1, decide_eq_true_eq] at hc
  have e : cstr buf p = 43 :: (buf.drop (p + 1)).takeWhile (fun c => c != 0) := by
    unfold cstr
    rw [hd, List.takeWhile_cons, if_pos (by decide)]
  rw [e, i2]
  unfold mnemonicHash
  rw [if_pos ⟨rfl, hc⟩]
  rfl

theorem ParseDispatch_sms_cause (h : Host) (s : SIM7000) (hash p c : Nat) :
    (ParseDispatch h s hash p c).1.mSMSStatus = s.mSMSStatus ∨
    (s.mSMSStatus = eSMSWaiting ∧ (ParseDispatch h s hash p c).1.mSMSStatus = eSMSSent ∧
      hash = kCMGSCmdHash) ∨
    (s.mSMSStatus = eSMSWaiting ∧ (ParseDispatch h s hash p c).1.mSMSStatus = eSMSFailed ∧
      hash = kCMS_ERRORCmdHash) := by
  unfold ParseDispatch
  simp only []
  by_cases h1 : hash = kCSQCmdHash
  · rw [if_pos h1]; left; split <;> rfl
  rw [if_neg h1]
  by_cases h2 : hash = kCCLKCmdHash
  · rw [if_pos h2]; left; split
    · exact sms_of_core (core_UpdateTime _ _)
    · rfl
  rw [if_neg h2]
  by_cases h3 : hash = kCBCCmdHash
  · rw [if_pos h3]; left; split
    · split <;> rfl
    · rfl
  rw [if_neg h3]
  by_cases h4 : hash = kCREGCmdHash
  · rw [if_pos h4]; left; rfl
  rw [if_neg h4]
  by_cases h5 : hash = kCMS_ERRORCmdHash
  · rw [if_pos h5]
    by_cases hw : s.mSMSStatus = eSMSWaiting
    · rw [if_pos hw]; exact Or.inr (Or.inr ⟨hw, rfl, h5⟩)
    · rw [if_neg hw]; left; rfl
  rw [if_neg h5]
  by_cases h6 : hash = kCME_ERRORCmdHash
  · rw [if_pos h6]; left; rfl
  rw [if_neg h6]
  by_cases h7 : hash = kCMTICmdHash
  · rw [if_pos h7]; left; split <;> rfl
  rw [if_neg h7]
  by_cases h8 : hash = kCMGLCmdHash ∨ hash = kCMGRCmdHash
  · rw [if_pos h8]; left; split <;> rfl
  rw [if_neg h8]
  by_cases h9 : hash = kCMGSCmdHash
  · rw [if_pos h9]
    by_cases hw : s.mSMSStatus = eSMSWaiting
    · rw [if_pos hw]; exact Or.inr (Or.inl ⟨hw, rfl, h9⟩)
    · rw [if_neg hw]; left; rfl
  rw [if_neg h9]
  by_cases h10 : hash = kCPINCmdHash
  · rw [if_pos h10]; left; split
    · unfold HandleNoSIMCardFound; rfl
    · rfl
  rw [if_neg h10]
  left; rfl

theorem ParseCommandResponse_sms_cause (h : Host) (s : SIM7000)
    (hplus : peek s.mRxBuffer s.mRxBufferPtr = 43) :
    (ParseCommandResponse h s).mSMSStatus = s.mSMSStatus ∨
    lineCause h s (ParseCommandResponse h s).mSMSStatus := by
  unfold ParseCommandResponse
  dsimp only
  split_ifs with hsc hw
  · have hm := mnemonicHash_of_scan s.mRxBuffer s.mRxBufferPtr hplus hsc
    rcases ParseDispatch_sms_cause h
        { s with mCommandHash :=
            (ParseScan (s.mRxBuffer.drop (s.mRxBufferPtr + 1)) (s.mRxBufferPtr + 1) 0).2.2 }
        (ParseScan (s.mRxBuffer.drop (s.mRxBufferPtr + 1)) (s.mRxBufferPtr + 1) 0).2.2
        (SkipWhitespaceOnLine s.mRxBuffer
          ((ParseScan (s.mRxBuffer.drop (s.mRxBufferPtr + 1)) (s.mRxBufferPtr + 1) 0).2.1 + 1)).2
        (SkipWhitespaceOnLine s.mRxBuffer
          ((ParseScan (s.mRxBuffer.drop (s.mRxBufferPtr + 1)) (s.mRxBufferPtr + 1) 0).2.1 + 1)).1
      with h1 | ⟨h1, h2, h3⟩ | ⟨h1, h2, h3⟩
    · exact Or.inl h1
    · exact Or.inr (Or.inl ⟨h1, h2, by rw [hm, h3]⟩)
    · exact Or.inr (Or.inr (Or.inl ⟨h1, h2, by rw [hm, h3]⟩))
  · exact Or.inl rfl
  · exact Or.inl rfl

theorem ClassifyLine_cases_line (h : Host) (s : SIM7000) (P : SIM7000 → Prop)
    (h0 : P s)
    (hT : ∀ t, P (UpdateTime s t))
    (hP : peek s.mRxBuffer s.mRxBufferPtr = 43 → P (ParseCommandResponse h s))
    (hF : ∀ p, P (HandleCommandFailed { s with mRxBufferPtr := p }))
    (hN : ∀ p, P { s with mRxBufferPtr := p, mSleepState := eSleeping })
    (hC : ∀ p, completionLine s → P (HandleCommandCompleted h { s with mRxBufferPtr := p })) :
    P (ClassifyLine h s) := by
  unfold ClassifyLine
  simp only [ParseOtherCommandResponse]
  by_cases h42 : peek s.mRxBuffer s.mRxBufferPtr = 42
  · rw [if_pos h42]
    split
    · exact hT _
    · exact h0
  rw [if_neg h42]
  by_cases h43 : peek s.mRxBuffer s.mRxBufferPtr = 43
  · rw [if_pos h43]; exact hP h43
  rw [if_neg h43]
  by_cases h65 : peek s.mRxBuffer s.mRxBufferPtr = 65
  · rw [if_pos h65]; split <;> exact h0
  rw [if_neg h65]
  by_cases h69 : peek s.mRxBuffer s.mRxBufferPtr = 69
  · rw [if_pos h69]; split
    · exact hF _
    · exact h0
  rw [if_neg h69]
  by_cases h68 : peek s.mRxBuffer s.mRxBufferPtr = 68
  · rw [if_pos h68]; exact h0
  rw [if_neg h68]
  by_cases h78 : peek s.mRxBuffer s.mRxBufferPtr = 78
  · rw [if_pos h78]; split
    · exact hN _
    · exact h0
  rw [if_neg h78]
  by_cases h79 : peek s.mRxBuffer s.mRxBufferPtr = 79
  · rw [if_pos h79]; split
    · rename_i hk
      exact hC s.mRxBufferPtr (Or.inl ⟨h79, hk⟩)
    · exact h0
  rw [if_neg h79]
  by_cases h82 : peek s.mRxBuffer s.mRxBufferPtr = 82
  · rw [if_pos h82]; split <;> exact h0
  rw [if_neg h82]
  by_cases h83 : peek s.mRxBuffer s.mRxBufferPtr = 83
  · rw [if_pos h83]; split
    · rename_i hk
      exact hC _ (Or.inr ⟨h83, hk⟩)
    · exact h0
  rw [if_neg h83]
  exact h0

theorem ClassifyLine_sms_cause (h : Host) (s : SIM7000) :
    (ClassifyLine h s).mSMSStatus = s.mSMSStatus ∨
    lineCause h s (ClassifyLine h s).mSMSStatus := by
  refine ClassifyLine_cases_line h s
    (fun t => t.mSMSStatus = s.mSMSStatus ∨ lineCause h s t.mSMSStatus)
    (Or.inl rfl) (fun _ => Or.inl (sms_of_core (core_UpdateTime _ _)))
    (fun hp => ParseCommandResponse_sms_cause h s hp)
    (fun _ => Or.inl rfl) (fun _ => Or.inl rfl) ?_
  intro p hline
  refine HandleCommandCompleted_cases h _
    (fun t => t.mSMSStatus = s.mSMSStatus ∨ lineCause h s t.mSMSStatus)
    (Or.inl (sms_of_core (core_completedBeforeReply _))) ?_
  intro a m _ hq hs
  obtain ⟨_, hidle, hsend⟩ := SendSMS_accepted _ a m hs
  have hi : s.mSMSStatus = eSMSIdle :=
    (sms_of_core (core_completedBeforeReply { s with mRxBufferPtr := p })).symm.trans hidle
  exact Or.inr (Or.inr (Or.inr ⟨hi, hsend, hline, _, a, m, hq, hs⟩))

theorem lineCause_congr (h : Host) (s t : SIM7000) (b : ESMSStatus)
    (hs : t.mSMSStatus = s.mSMSStatus) (hb : t.mRxBuffer = s.mRxBuffer)
    (hp : t.mRxBufferPtr = s.mRxBufferPtr) (hc : lineCause h t b) : lineCause h s b := by
  unfold lineCause completionLine at hc ⊢
  rw [hs, hb, hp] at hc
  exact hc

theorem HandleCommandResponse_sms_cause (h : Host) (s : SIM7000) :
    (HandleCommandResponse h s).mSMSStatus = s.mSMSStatus ∨
    lineCause h s (HandleCommandResponse h s).mSMSStatus := by
  obtain ⟨s2, hc, hb, hp, _, he⟩ := HandleCommandResponse_split h s
  rw [he, sms_of_core (core_ResumeFlush _)]
  split
  · left
    rw [HandleMultiLineCommand_sms, sms_of_core hc]
  · rcases ClassifyLine_sms_cause h s2 with h1 | h1
    · left; rw [h1, sms_of_core hc]
    · right; exact lineCause_congr h s s2 _ (sms_of_core hc) hb hp h1

theorem ParseScan_upto_colon (m tail : List Nat) (hm : ∀ c ∈ m, c ≠ 0 ∧ c ≠ 58) :
    ∀ pos hash, ParseScan (m ++ 58 :: tail) pos hash
      = (true, pos + m.length, m.foldl hashStep hash) := by
  induction m with
  | nil => intro pos hash; simp [ParseScan]
  | cons a t ih =>
    intro pos hash
    obtain ⟨ha0, ha58⟩ := hm a (by simp)
    rw [List.cons_append, ParseScan, if_neg ha0, if_pos ha58,
      ih (fun c hc => hm c (by simp [hc]))]
    simp only [List.length_cons, List.foldl_cons]
    congr 2
    omega

theorem plus_line_outside_waiting (h : Host) (s : SIM7000)
    (hw : s.mSMSStatus ≠ eSMSWaiting) (hplus : peek s.mRxBuffer s.mRxBufferPtr = 43) :
    (HandleCommandResponse h s).mSMSStatus = s.mSMSStatus := by
  rcases HandleCommandResponse_sms_cause h s with h1 | ⟨h1, _⟩ | ⟨h1, _⟩ | ⟨_, _, h1, _⟩
  · exact h1
  · exact absurd h1 hw
  · exact absurd h1 hw
  · unfold completionLine at h1
    rw [hplus] at h1
    rcases h1 with ⟨h1, _⟩ | ⟨h1, _⟩ <;> exact absurd h1 (by decide)

set_option maxRecDepth 100000 in
/-- C16, evaluated on the code with the hook of the sensor: a registered modem with
a reply queued receives "OK": the reply is sent and the status is Sending; the
prompt gives Waiting, the line "+CMGS: 5" gives Sent, and the final "OK" leaves
Sent although a reply is still queued.  The same "OK" received by the host without
a queued reply leaves the status Idle. -/
theorem ok_line_sends_queued_reply :
    connectedModem.mSMSStatus = eSMSIdle ∧
    ((replyDialogue.take 1).flatten.foldl (UpdateByte hostWithReply)
      connectedModem).mSMSStatus = eSMSSending ∧
    ((replyDialogue.take 2).flatten.foldl (UpdateByte hostWithReply)
      connectedModem).mSMSStatus = eSMSWaiting ∧
    ((replyDialogue.take 3).flatten.foldl (UpdateByte hostWithReply)
      connectedModem).mSMSStatus = eSMSSent ∧
    (replyDialogue.flatten.foldl (UpdateByte hostWithReply) connectedModem).mSMSStatus
      = eSMSSent ∧
    ((replyDialogue.take 1).flatten.foldl (UpdateByte hostNoClock)
      connectedModem).mSMSStatus = eSMSIdle ∧
    mnemonicHash (bytes "+CMGS: 5") = some kCMGSCmdHash ∧
    mnemonicHash (bytes "+CMS ERROR: 500") = some kCMS_ERRORCmdHash := by
  decide!

/-! ### C15: notifications received whole, cut or out of place -/

theorem GetUInt16ValueLoop_pos : ∀ (ds : List Nat) (p q v : Nat),
    (GetUInt16ValueLoop ds p v).2.2 = (GetUInt16ValueLoop ds q v).2.2 := by
  intro ds
  induction ds with
  | nil => intro p q v; rfl
  | cons a t ih =>
    intro p q v
    rw [GetUInt16ValueLoop, GetUInt16ValueLoop]
    split
    · exact ih _ _ _
    · rfl

theorem GetUInt16ValueLoop_digits (c : Nat) (rest : List Nat) (hc : isdigit c = false) :
    ∀ (ds : List Nat), (∀ x ∈ ds, isdigit x = true) → ∀ pos v,
    (GetUInt16ValueLoop (ds ++ c :: rest) pos v).2.2 = (GetUInt16ValueLoop ds 0 v).2.2 := by
  intro ds
  induction ds with
  | nil =>
    intro _ pos v
    rw [List.nil_append]
    conv_lhs => rw [GetUInt16ValueLoop]
    rw [if_neg (by rw [hc]; decide)]
    rfl
  | cons a t ih =>
    intro hds pos v
    have ha : isdigit a = true := hds a (by simp)
    rw [List.cons_append, GetUInt16ValueLoop, if_pos ha, GetUInt16ValueLoop, if_pos ha,
      ih (fun x hx => hds x (by simp [hx]))]
    exact GetUInt16ValueLoop_pos _ _ _ _

theorem printDec_digits :
    ∀ k < 256, (printDec k).all (fun c => isdigit c) = true ∧ (printDec k).head? ≠ none := by
  decide!

theorem announcedIndex_cmtiLine (s : SIM7000) (k : Nat) (rest : List Nat) (hk : k < 256)
    (hptr : s.mRxBufferPtr = 0) (hbuf : s.mRxBuffer = cmtiLine k ++ 0 :: rest) :
    announcedIndex s = some k := by
  obtain ⟨hdig, hne⟩ := printDec_digits k hk
  have hd : ∀ x ∈ printDec k, isdigit x = true := by
    intro x hx
    exact (List.all_eq_true.1 hdig) x hx
  obtain ⟨d0, ds, hds⟩ : ∃ d0 ds, printDec k = d0 :: ds := by
    cases hp : printDec k with
    | nil => rw [hp] at hne; exact absurd rfl hne
    | cons a t => exact ⟨a, t, rfl⟩
  have hd0 : d0 ≠ 0 := by
    have := hd d0 (by rw [hds]; simp)
    intro e
    rw [e] at this
    exact absurd this (by decide)
  have hb : s.mRxBuffer
      = 43 :: ([67, 77, 84, 73] ++ 58 :: 32 :: 34 :: 83 :: 77 :: 34 :: 44 ::
          (printDec k ++ 0 :: rest)) := by
    rw [hbuf]
    unfold cmtiLine
    rw [show bytes "+CMTI: " = [43, 67, 77, 84, 73, 58, 32] by decide,
      show bytes "SM" = [83, 77] by decide]
    simp
  have hscan := ParseScan_upto_colon [67, 77, 84, 73]
    (32 :: 34 :: 83 :: 77 :: 34 :: 44 :: (printDec k ++ 0 :: rest)) (by decide) 1 0
  have hval : (GetUInt16ValueLoop (printDec k ++ 0 :: rest) 12 0).2.2 = k := by
    rw [GetUInt16ValueLoop_digits 0 rest (by decide) (printDec k) hd, printDec_value k hk]
  unfold announcedIndex
  rw [hptr, hb]
  rw [if_pos (by rfl)]
  simp only [List.drop_succ_cons, List.drop_zero, Nat.zero_add, hscan]
  have hskip : SkipWhitespaceOnLine
      (43 :: ([67, 77, 84, 73] ++ 58 :: 32 :: 34 :: 83 :: 77 :: 34 :: 44 ::
          (printDec k ++ 0 :: rest))) (1 + [67, 77, 84, 73].length + 1) = (34, 7) := by
    unfold SkipWhitespaceOnLine
    simp [SkipWhitespaceOnLineLoop, isspace]
  have hskipc : SkipTillChar 44 true
      (43 :: ([67, 77, 84, 73] ++ 58 :: 32 :: 34 :: 83 :: 77 :: 34 :: 44 ::
          (printDec k ++ 0 :: rest))) 7 = (true, 12) := by
    unfold SkipTillChar
    rw [hds]
    simp [SkipTillCharLoop, peek, hd0]
  have hget : (GetUInt16Value
      (43 :: ([67, 77, 84, 73] ++ 58 :: 32 :: 34 :: 83 :: 77 :: 34 :: 44 ::
          (printDec k ++ 0 :: rest))) 12).2.2 = k := by
    unfold GetUInt16Value
    simp only []
    have e : List.drop 12 (43 :: ([67, 77, 84, 73] ++ 58 :: 32 :: 34 :: 83 :: 77 :: 34 :: 44 ::
          (printDec k ++ 0 :: rest))) = printDec k ++ 0 :: rest := by
      simp
    rw [e, hval]
    omega
  rw [hskip]
  simp only [hskipc, hget]
  rw [if_pos ⟨trivial, ⟨by decide, by decide⟩, by decide!, trivial⟩]

theorem whole_notification_queued (h : Host) (s : SIM7000) (k : Nat) (rest : List Nat)
    (hk : k < 256)
    (hN : ¬ (s.mCommandHash = kCMGLCmdHash ∨ s.mCommandHash = kCMGRCmdHash))
    (hptr : s.mRxBufferPtr = 0) (hbuf : s.mRxBuffer = cmtiLine k ++ 0 :: rest) :
    ring (HandleCommandResponse h s) = ring (QueueMessageIndex s k) := by
  rw [HandleCommandResponse_ring]
  unfold notifiedIndex
  rw [if_neg hN, announcedIndex_cmtiLine s k rest hk hptr hbuf]

theorem SendCommand_flushes (s : SIM7000) (c : List Nat) (a b : Nat)
    (hs : (SendCommand s c a b).1 = true) : (SendCommand s c a b).2.mRxBufferPtr = 0 := by
  rw [SendCommand_fst] at hs
  unfold SendCommand
  rw [if_pos hs]
  simp only [passthroughWrite_eq, serialWrite, FlushRxBuffer]

theorem text_expected_not_queued (h : Host) (s : SIM7000)
    (hM : s.mCommandHash = kCMGLCmdHash ∨ s.mCommandHash = kCMGRCmdHash) :
    ring (HandleCommandResponse h s) = ring s := by
  rw [HandleCommandResponse_ring]
  unfold notifiedIndex
  rw [if_pos hM]

theorem list_of_peeks (num : List Nat) : ∀ (l : List Nat),
    (∀ p, p < num.length → peek l p = peek num p) → peek l num.length = 0 →
    num.length < l.length → ∃ rest, l = num ++ 0 :: rest := by
  induction num with
  | nil =>
    intro l _ h0 hl
    cases l with
    | nil => simp at hl
    | cons a t =>
      have : a = 0 := by simpa [peek] using h0
      exact ⟨t, by simp [this]⟩
  | cons a t ih =>
    intro l hp h0 hl
    cases l with
    | nil => simp at hl
    | cons b l' =>
      have hb : b = a := by simpa [peek] using hp 0 (by simp)
      obtain ⟨rest, e⟩ := ih l' (by
          intro p hpt
          have := hp (p + 1) (by simp; omega)
          simpa [peek] using this)
        (by simpa [peek] using h0)
        (by simpa using hl)
      exact ⟨rest, by rw [hb, e]; rfl⟩

theorem UpdateByte_store_eq (h : Host) (s : SIM7000) (b : Nat)
    (hb : ¬ (b = 13 ∨ b = 0)) (h10 : b ≠ 10)
    (hs : ¬ (s.mSMSStatus = eSMSSending ∧ b = 62)) :
    UpdateByte h s b
      = { s with
          mRxBuffer := poke (poke s.mRxBuffer s.mRxBufferPtr b) (s.mRxBufferPtr + 1) 0
          mRxBufferPtr := s.mRxBufferPtr + 1
          passthroughOut := if s.mPassthrough then s.passthroughOut ++ [b]
            else s.passthroughOut } := by
  have hlen : ∀ t : SIM7000, t.mRxBufferPtr % 256 < kRxBufferSize := by
    intro t; unfold kRxBufferSize SIM7000_RX_BUFFER_SIZE; omega
  have hs1 : ¬ ((passthroughWrite s [b]).mSMSStatus = eSMSSending ∧ b = 62) := by
    rw [passthroughWrite_eq]; exact hs
  unfold UpdateByte
  rw [if_neg hb, if_neg h10]
  dsimp only
  rw [if_pos (hlen _), if_neg hs1, passthroughWrite_eq]

theorem UpdateByte_line_eq (h : Host) (s : SIM7000) (hp : 0 < s.mRxBufferPtr) :
    UpdateByte h s 10
      = HandleCommandResponse h
          { s with
            mRxBuffer := poke s.mRxBuffer s.mRxBufferPtr 0
            mRxBufferPtr := 0
            passthroughOut := if s.mPassthrough then s.passthroughOut ++ [10]
              else s.passthroughOut } := by
  unfold UpdateByte
  rw [if_neg (by omega), if_pos rfl]
  dsimp only
  rw [if_pos (by rw [passthroughWrite_eq]; exact hp), passthroughWrite_eq]

theorem receive_text (h : Host) : ∀ (rx : List Nat) (s : SIM7000) (cur : List Nat),
    s.mRxBufferPtr = cur.length →
    (∀ i, i < cur.length → peek s.mRxBuffer i = peek cur i) →
    (∀ c ∈ rx, c ≠ 0 ∧ c ≠ 10 ∧ c ≠ 13 ∧ c ≠ 62) →
    core (rx.foldl (UpdateByte h) s) = core s ∧
    (rx.foldl (UpdateByte h) s).mCommandHash = s.mCommandHash ∧
    (rx.foldl (UpdateByte h) s).mRxBufferPtr = (cur ++ rx).length ∧
    (∀ i, i < (cur ++ rx).length →
      peek (rx.foldl (UpdateByte h) s).mRxBuffer i = peek (cur ++ rx) i) := by
  intro rx
  induction rx with
  | nil =>
    intro s cur hptr hpeek _
    simp only [List.foldl_nil, List.append_nil]
    exact ⟨trivial, trivial, hptr, hpeek⟩
  | cons b rx ih =>
    intro s cur hptr hpeek hrx
    obtain ⟨hb0, hb10, hb13, hb62⟩ := hrx b (by simp)
    have e := UpdateByte_store_eq h s b (by omega) hb10 (fun hx => hb62 hx.2)
    rw [List.foldl_cons, e]
    obtain ⟨i1, i2, i3, i4⟩ := ih
      { s with
        mRxBuffer := poke (poke s.mRxBuffer s.mRxBufferPtr b) (s.mRxBufferPtr + 1) 0
        mRxBufferPtr := s.mRxBufferPtr + 1
        passthroughOut := if s.mPassthrough then s.passthroughOut ++ [b]
          else s.passthroughOut }
      (cur ++ [b]) (by simp [hptr])
      (by
        intro i hi
        show peek (poke (poke s.mRxBuffer s.mRxBufferPtr b) (s.mRxBufferPtr + 1) 0) i = _
        rw [peek_poke, peek_poke, peek_append]
        simp only [List.length_append, List.length_singleton] at hi
        by_cases hi2 : i < cur.length
        · rw [if_neg (by omega), if_neg (by omega), if_pos hi2]
          exact hpeek i hi2
        · have : i = cur.length := by omega
          subst this
          rw [if_neg (by omega), if_pos hptr.symm, if_neg (by omega), Nat.sub_self]
          rfl)
      (fun c hc => hrx c (by simp [hc]))
    simp only [List.append_assoc, List.singleton_append] at i3 i4
    exact ⟨i1, i2, i3, i4⟩

theorem cmtiLine_chars :
    ∀ k < 256, (cmtiLine k).all (fun c => decide (c ≠ 0 ∧ c ≠ 10 ∧ c ≠ 13 ∧ c ≠ 62)) = true ∧
      0 < (cmtiLine k).length := by
  decide!

theorem whole_notification_received (h : Host) (s : SIM7000) (k : Nat) (hk : k < 256)
    (hN : ¬ (s.mCommandHash = kCMGLCmdHash ∨ s.mCommandHash = kCMGRCmdHash))
    (hptr : s.mRxBufferPtr = 0) :
    ring ((cmtiLine k ++ [13, 10]).foldl (UpdateByte h) s) = ring (QueueMessageIndex s k) := by
  obtain ⟨hall, hpos⟩ := cmtiLine_chars k hk
  have hch : ∀ c ∈ cmtiLine k, c ≠ 0 ∧ c ≠ 10 ∧ c ≠ 13 ∧ c ≠ 62 := by
    intro c hc
    have := (List.all_eq_true.1 hall) c hc
    simpa using this
  obtain ⟨r1, r2, r3, r4⟩ := receive_text h (cmtiLine k) s [] hptr
    (fun i hi => absurd hi (by simp)) hch
  simp only [List.nil_append] at r3 r4
  rw [List.foldl_append, List.foldl_cons, List.foldl_cons, List.foldl_nil,
    UpdateByte_skip h _ 13 (Or.inl rfl), UpdateByte_line_eq h _ (by rw [r3]; exact hpos)]
  generalize (cmtiLine k).foldl (UpdateByte h) s = t at r1 r2 r3 r4
  obtain ⟨rest, hrest⟩ := list_of_peeks (cmtiLine k) (poke t.mRxBuffer t.mRxBufferPtr 0)
    (by
      intro p hp
      rw [peek_poke, if_neg (by omega)]
      exact r4 p hp)
    (by rw [peek_poke, if_pos r3.symm])
    (by rw [length_poke, r3]; omega)
  rw [whole_notification_queued h _ k rest hk (by exact r2 ▸ hN) rfl hrest]
  have hr := ring_of_core r1
  simp only [ring, QueueMessageIndex, Prod.mk.injEq] at hr ⊢
  rw [hr.1, hr.2.2]
  exact ⟨rfl, hr.2.1, rfl⟩

theorem rxTrace_no_feed (h : Host) : ∀ (rx : List Nat) (t : SIM7000) (log : List Nat)
    (flag : Bool), (∀ c ∈ rx, c ≠ 10) →
    rx.foldl (rxTraceStep h) (t, log, flag) = (rx.foldl (UpdateByte h) t, log, flag) := by
  intro rx
  induction rx with
  | nil => intro t log flag _; rfl
  | cons b rx ih =>
    intro t log flag hrx
    have hb : b ≠ 10 := hrx b (by simp)
    have hstep : rxTraceStep h (t, log, flag) b = (UpdateByte h t b, log, flag) := by
      unfold rxTraceStep byteNotification
      rw [if_neg (fun hx => hb hx.1)]
    rw [List.foldl_cons, List.foldl_cons, hstep, ih _ _ _ (fun c hc => hrx c (by simp [hc]))]

theorem whole_notification_counted (h : Host) (s : SIM7000) (k : Nat) (hk : k < 256)
    (hN : ¬ (s.mCommandHash = kCMGLCmdHash ∨ s.mCommandHash = kCMGRCmdHash))
    (hptr : s.mRxBufferPtr = 0) :
    notifiedBy h s (cmtiLine k ++ [13, 10]) = [k] := by
  obtain ⟨hall, hpos⟩ := cmtiLine_chars k hk
  have hch : ∀ c ∈ cmtiLine k, c ≠ 0 ∧ c ≠ 10 ∧ c ≠ 13 ∧ c ≠ 62 := by
    intro c hc
    have := (List.all_eq_true.1 hall) c hc
    simpa using this
  obtain ⟨_, r2, r3, r4⟩ := receive_text h (cmtiLine k) s [] hptr
    (fun i hi => absurd hi (by simp)) hch
  simp only [List.nil_append] at r3 r4
  unfold notifiedBy
  rw [List.foldl_append, rxTrace_no_feed h _ _ _ _ (fun c hc => (hch c hc).2.1),
    List.foldl_cons, List.foldl_cons, List.foldl_nil]
  generalize (cmtiLine k).foldl (UpdateByte h) s = t at r2 r3 r4
  have h13 : rxTraceStep h (t, [], true) 13 = (t, [], true) := by
    unfold rxTraceStep byteNotification
    rw [if_neg (fun hx => absurd hx.1 (by decide)), UpdateByte_skip h t 13 (Or.inl rfl)]
  obtain ⟨rest, hrest⟩ := list_of_peeks (cmtiLine k) (poke t.mRxBuffer t.mRxBufferPtr 0)
    (by
      intro p hp
      rw [peek_poke, if_neg (by omega)]
      exact r4 p hp)
    (by rw [peek_poke, if_pos r3.symm])
    (by rw [length_poke, r3]; omega)
  have hn : byteNotification t 10 = some k := by
    unfold byteNotification notifiedIndex
    rw [if_pos ⟨rfl, by rw [r3]; exact hpos⟩]
    dsimp only
    rw [if_neg (by rw [r2]; exact hN)]
    exact announcedIndex_cmtiLine _ k rest hk rfl hrest
  rw [h13]
  unfold rxTraceStep
  rw [hn]
  rfl

set_option maxRecDepth 100000 in
/-- C15 (counterexample): the notifications of the messages 1 and 2, received in
one `Update` call, are both read ("AT+CMGR=1", then "AT+CMGR=2").  When the same
bytes arrive with the second line cut after "+CMTI:" by the end of an `Update`
call, the next call sends "AT+CMGR=1", which flushes the receive buffer: the rest
of the line is handed over alone, message 2 is never queued and no read is ever
issued for it.  The same happens when the notification of message 2 arrives
between the header of the answer to "AT+CMGR=1" and the text of the message: the
line is taken for the text.  In both runs the driver ends idle with nothing
pending. -/
theorem split_notification_is_lost :
    (cmtiLine 1 ++ [13, 10] ++ bytes "+CMTI:") ++ ((cmtiLine 2).drop 6 ++ [13, 10])
      = cmtiLine 1 ++ [13, 10] ++ cmtiLine 2 ++ [13, 10] ∧
    wholeNotificationsRun.serialOut
      = [19, 17, 19, 17] ++ readCommand 1 ++ [19, 17, 19, 17, 19, 17] ++ readCommand 2
        ++ [19, 17, 19, 17, 19, 17] ∧
    splitNotificationRun.serialOut
      = [19, 17] ++ readCommand 1 ++ [19, 17, 19, 17, 19, 17, 19, 17] ∧
    (cmtiLine 2).drop 6 ∈ splitNotificationRun.linesHandled ∧
    pendingList splitNotificationRun = [] ∧
    splitNotificationRun.mWaitingToProcessMessage = 0 ∧
    splitNotificationRun.mCommandState = eReady ∧
    notificationAfterHeaderRun.serialOut
      = [19, 17] ++ readCommand 1 ++ [19, 17, 19, 17, 19, 17, 19, 17] ∧
    cmtiLine 2 ∈ notificationAfterHeaderRun.linesHandled ∧
    pendingList notificationAfterHeaderRun = [] ∧
    notificationAfterHeaderRun.mWaitingToProcessMessage = 0 ∧
    notificationAfterHeaderRun.mCommandState = eReady := by
  decide!

/-- C15 (amended): a notification counts as notified when its line reaches
`HandleCommandResponse` complete while no message text is expected.  In every run
of the driver in which each such notification carries an index below 256 and comes
with fewer than 14 indices pending, the notified indices are the indices for which
`Update` has issued the read command "AT+CMGR=index", followed by the indices
still pending in the ring: the reads are issued for the notified indices, each
once, in the order of the notifications; and an `Update` that can send a command,
with no message being read and no delete that it can send, issues the read for the
oldest pending index.  The bytes of a line "+CMTI: "SM",k" with its line end
(k below 256), received with the receive buffer empty and no message text
expected, are such a notification and queue k.  A line handed over while message
text is expected queues nothing, a command that is sent empties the receive
buffer, whatever part of a line it holds, and every byte changes the ring exactly
as its notification, if it is one, says. -/
theorem reads_follow_notifications (h : Host) (s : SIM7000) (notified issued : List Nat)
    (hrun : RingRun h s notified issued) :
    ringOK s ∧ notified = issued ++ pendingList s ∧
    (s.mWaitingToProcessMessage = 0 → s.ClearToSend = true →
      ¬ (s.mWaitingToDeleteMessage ≠ 0 ∧ s.ClearToSendSMS = true) →
      issuedReads s = (pendingList s).take 1) ∧
    (∀ (t : SIM7000) (k : Nat), k < 256 →
      ¬ (t.mCommandHash = kCMGLCmdHash ∨ t.mCommandHash = kCMGRCmdHash) →
      t.mRxBufferPtr = 0 →
      notifiedBy h t (cmtiLine k ++ [13, 10]) = [k] ∧
      ring ((cmtiLine k ++ [13, 10]).foldl (UpdateByte h) t) = ring (QueueMessageIndex t k)) ∧
    (∀ t : SIM7000, t.mCommandHash = kCMGLCmdHash ∨ t.mCommandHash = kCMGRCmdHash →
      ring (HandleCommandResponse h t) = ring t) ∧
    (∀ (t : SIM7000) (cmd : List Nat) (hash timeout : Nat),
      (SendCommand t cmd hash timeout).1 = true →
      (SendCommand t cmd hash timeout).2.mRxBufferPtr = 0) ∧
    (∀ (t : SIM7000) (b : Nat), ring (UpdateByte h t b) =
      match byteNotification t b with
      | some k => ring (QueueMessageIndex t k)
      | none => ring t) := by
  have hinv : ringOK s ∧ notified = issued ++ pendingList s := by
    induction hrun with
    | start s hok => exact ⟨hok, by simp⟩
    | update s notified issued rx _ hcap ih =>
      obtain ⟨hok, hn⟩ := ih
      have hpins := ring_of_core (core_UpdatePins s)
      have hok1 : ringOK (UpdatePins s) := (pendingList_congr hpins).1 ▸ hok
      obtain ⟨hok2, hl2, _⟩ := UpdateMessages_ring (UpdatePins s) hok1
      obtain ⟨_, hok3, e3⟩ := rxTrace_inv h rx (UpdateMessages (UpdatePins s)) [] true hok2
      obtain ⟨_, new, k2, k3⟩ := e3 hcap
      have ht := ring_of_core (core_UpdateTimers
        (rx.foldl (UpdateByte h) (UpdateMessages (UpdatePins s))))
      unfold Update
      refine ⟨(pendingList_congr ht).1 ▸ hok3, ?_⟩
      unfold notifiedBy
      rw [(pendingList_congr ht).2.2, k3, k2, hn, ← (pendingList_congr hpins).2.2, hl2]
      simp
    | other s t notified issued _ hr ih =>
      exact ⟨(pendingList_congr hr).1 ▸ ih.1, by rw [(pendingList_congr hr).2.2]; exact ih.2⟩
  exact ⟨hinv.1, hinv.2, (UpdateMessages_ring s hinv.1).2.2,
    fun t k hk hN hptr => ⟨whole_notification_counted h t k hk hN hptr,
      whole_notification_received h t k hk hN hptr⟩,
    fun t hM => text_expected_not_queued h t hM,
    fun t cmd hash timeout hs => SendCommand_flushes t cmd hash timeout hs,
    fun t b => UpdateByte_ring h t b⟩

set_option maxRecDepth 100000 in
/-- C15, amended, at a run of two `Update` calls: the messages 3 and 7 are
notified, the read of 3 has been issued and 7 is still pending. -/
theorem reads_follow_notifications_witness :
    [3, 7] = [3] ++ pendingList twoNotificationsRun := by
  have hrun : RingRun hostNoClock twoNotificationsRun _ _ :=
    RingRun.update _ _ _ [] (RingRun.update readyModem _ _
      (cmtiLine 3 ++ [13, 10] ++ cmtiLine 7 ++ [13, 10])
      (RingRun.start readyModem ⟨by decide, by decide⟩) (by decide!)) (by decide!)
  have h := (reads_follow_notifications hostNoClock _ _ _ hrun).2.1
  have hn : pendingList readyModem ++ notifiedBy hostNoClock
      (UpdateMessages (UpdatePins readyModem)) (cmtiLine 3 ++ [13, 10] ++ cmtiLine 7 ++ [13, 10])
      ++ notifiedBy hostNoClock (UpdateMessages (UpdatePins (Update hostNoClock readyModem
        (cmtiLine 3 ++ [13, 10] ++ cmtiLine 7 ++ [13, 10])))) [] = [3, 7] := by decide!
  have hi : [] ++ issuedReads (UpdatePins readyModem) ++ issuedReads (UpdatePins
      (Update hostNoClock readyModem (cmtiLine 3 ++ [13, 10] ++ cmtiLine 7 ++ [13, 10])))
      = [3] := by decide!
  rw [hn, hi] at h
  exact h

end LTE4G
